import Mathlib

/-!
# Inkscape cairo helpers: pixel codec and path feeder

A shallow embedding of `src/display/cairo-utils.cpp`.

* `guint32` values are natural numbers; every left shift is reduced modulo `2^32`.
* `G_BYTE_ORDER` is a compile-time constant of the source; it is the Boolean
  parameter `littleEndian` of the two pixel conversions.
-/

namespace Inkscape

/-! ## Pixel codec -/

/-- Modelled from the spec: `premul_alpha` is an inline helper declared in
`display/cairo-utils.h`, which is not among the source files.  Section 4.4 of the
specification gives it as the integer rounding `⌊channel·alpha/255⌋`. -/
def premul_alpha (color alpha : Nat) : Nat :=
  color * alpha / 255

/-- Left shift of a `guint32`: the bits shifted past bit 31 are lost. -/
def shl32 (x k : Nat) : Nat :=
  (x <<< k) % 2 ^ 32

/-- The function `argb32_from_pixbuf` (cairo-utils.cpp, lines 580-607): straight-alpha pixbuf
pixel to premultiplied ARGB32. -/
def argb32_from_pixbuf (littleEndian : Bool) (c : Nat) : Nat :=
  let o := 0
  let a := if littleEndian then (c &&& 0xff000000) >>> 24 else (c &&& 0x000000ff)
  if a ≠ 0 then
    let r := if littleEndian then (c &&& 0x000000ff) else (c &&& 0xff000000) >>> 24
    let g := if littleEndian then (c &&& 0x0000ff00) >>> 8 else (c &&& 0x00ff0000) >>> 16
    let b := if littleEndian then (c &&& 0x00ff0000) >>> 16 else (c &&& 0x0000ff00) >>> 8
    let r := premul_alpha r a
    let b := premul_alpha b a
    let g := premul_alpha g a
    shl32 a 24 ||| shl32 r 16 ||| shl32 g 8 ||| b
  else o

/-- The function `pixbuf_from_argb32` (cairo-utils.cpp, lines 609-630): premultiplied ARGB32
pixel to straight-alpha pixbuf pixel. -/
def pixbuf_from_argb32 (littleEndian : Bool) (c : Nat) : Nat :=
  let a := (c &&& 0xff000000) >>> 24
  if a = 0 then 0
  else
    let r := (c &&& 0x00ff0000) >>> 16
    let g := (c &&& 0x0000ff00) >>> 8
    let b := (c &&& 0x000000ff)
    let r := (r * 255 + a / 2) / a
    let b := (b * 255 + a / 2) / a
    let g := (g * 255 + a / 2) / a
    if littleEndian then r ||| shl32 g 8 ||| shl32 b 16 ||| shl32 a 24
    else shl32 r 24 ||| shl32 g 16 ||| shl32 b 8 ||| a

/-- Alpha channel of a pixbuf pixel, as `argb32_from_pixbuf` extracts it. -/
def pixbufA (littleEndian : Bool) (c : Nat) : Nat :=
  if littleEndian then (c &&& 0xff000000) >>> 24 else (c &&& 0x000000ff)

/-- Red channel of a pixbuf pixel, as `argb32_from_pixbuf` extracts it. -/
def pixbufR (littleEndian : Bool) (c : Nat) : Nat :=
  if littleEndian then (c &&& 0x000000ff) else (c &&& 0xff000000) >>> 24

/-- Green channel of a pixbuf pixel, as `argb32_from_pixbuf` extracts it. -/
def pixbufG (littleEndian : Bool) (c : Nat) : Nat :=
  if littleEndian then (c &&& 0x0000ff00) >>> 8 else (c &&& 0x00ff0000) >>> 16

/-- Blue channel of a pixbuf pixel, as `argb32_from_pixbuf` extracts it. -/
def pixbufB (littleEndian : Bool) (c : Nat) : Nat :=
  if littleEndian then (c &&& 0x00ff0000) >>> 16 else (c &&& 0x0000ff00) >>> 8

/-- Alpha channel of an ARGB32 pixel, as `pixbuf_from_argb32` extracts it. -/
def argbA (c : Nat) : Nat := (c &&& 0xff000000) >>> 24

/-- Red channel of an ARGB32 pixel, as `pixbuf_from_argb32` extracts it. -/
def argbR (c : Nat) : Nat := (c &&& 0x00ff0000) >>> 16

/-- Green channel of an ARGB32 pixel, as `pixbuf_from_argb32` extracts it. -/
def argbG (c : Nat) : Nat := (c &&& 0x0000ff00) >>> 8

/-- Blue channel of an ARGB32 pixel, as `pixbuf_from_argb32` extracts it. -/
def argbB (c : Nat) : Nat := (c &&& 0x000000ff)

/-- Absolute difference of two channel values. -/
def chanDiff (x y : Nat) : Nat := (x - y) + (y - x)

/-- The round trip `pixbuf_from_argb32 (argb32_from_pixbuf x)` of a pixbuf pixel. -/
def pixbufRoundTrip (littleEndian : Bool) (x : Nat) : Nat :=
  pixbuf_from_argb32 littleEndian (argb32_from_pixbuf littleEndian x)

/-- The round trip `argb32_from_pixbuf (pixbuf_from_argb32 p)` of an ARGB32 pixel. -/
def argbRoundTrip (littleEndian : Bool) (p : Nat) : Nat :=
  argb32_from_pixbuf littleEndian (pixbuf_from_argb32 littleEndian p)

/-- Each colour channel of the pixbuf pixel `y` is within 1 of that channel of `x`. -/
def PixbufWithinOne (littleEndian : Bool) (y x : Nat) : Prop :=
  chanDiff (pixbufR littleEndian y) (pixbufR littleEndian x) ≤ 1 ∧
  chanDiff (pixbufG littleEndian y) (pixbufG littleEndian x) ≤ 1 ∧
  chanDiff (pixbufB littleEndian y) (pixbufB littleEndian x) ≤ 1

/-- Each colour channel of the ARGB32 pixel `q` is within 1 of that channel of `p`. -/
def ArgbWithinOne (q p : Nat) : Prop :=
  chanDiff (argbR q) (argbR p) ≤ 1 ∧
  chanDiff (argbG q) (argbG p) ≤ 1 ∧
  chanDiff (argbB q) (argbB p) ≤ 1

/-! ## Pixel buffers -/

/-- Modelled from the spec: `Geom::Point`, a pair of coordinates. -/
structure Point where
  x : ℚ
  y : ℚ
deriving DecidableEq

/-- Sum of two points, `a + b`. -/
def Point.add (a b : Point) : Point := ⟨a.x + b.x, a.y + b.y⟩

/-- Difference of two points, `a - b`. -/
def Point.sub (a b : Point) : Point := ⟨a.x - b.x, a.y - b.y⟩

/-- Opposite of a point, `-a`. -/
def Point.neg (a : Point) : Point := ⟨-a.x, -a.y⟩

/-- Scalar multiple of a point, `k * a`. -/
def Point.scale (k : ℚ) (a : Point) : Point := ⟨k * a.x, k * a.y⟩

/-- Modelled from the spec: `Geom::Affine`, the six coefficients of an affine map. -/
structure Affine where
  c0 : ℚ
  c1 : ℚ
  c2 : ℚ
  c3 : ℚ
  c4 : ℚ
  c5 : ℚ
deriving DecidableEq

/-- Modelled from the spec: `Geom::identity()`. -/
def Affine.identity : Affine := ⟨1, 0, 0, 1, 0, 0⟩

/-- Modelled from the spec: `Geom::Translate(v)` converted to an `Affine`. -/
def Affine.translate (v : Point) : Affine := ⟨1, 0, 0, 1, v.x, v.y⟩

/-- Modelled from the spec: the product `m0 * m1` of two affine maps (first `m0`, then `m1`). -/
def Affine.mul (m0 m1 : Affine) : Affine :=
  ⟨m0.c0 * m1.c0 + m0.c1 * m1.c2, m0.c0 * m1.c1 + m0.c1 * m1.c3,
   m0.c2 * m1.c0 + m0.c3 * m1.c2, m0.c2 * m1.c1 + m0.c3 * m1.c3,
   m0.c4 * m1.c0 + m0.c5 * m1.c2 + m1.c4, m0.c4 * m1.c1 + m0.c5 * m1.c3 + m1.c5⟩

/-- Modelled from the spec: `p * m`, a point transformed by an affine map. -/
def Point.transform (p : Point) (m : Affine) : Point :=
  ⟨p.x * m.c0 + p.y * m.c2 + m.c4, p.x * m.c1 + p.y * m.c3 + m.c5⟩

/-- Modelled from the spec: `Geom::Interval`, a closed interval of coordinates. -/
structure Interval where
  min : ℚ
  max : ℚ
deriving DecidableEq

/-- Modelled from the spec: the interval spanned by two values, `Interval(u, v)`. -/
def Interval.ofEnds (u v : ℚ) : Interval :=
  if u ≤ v then ⟨u, v⟩ else ⟨v, u⟩

/-- Modelled from the spec: `Interval::expandTo(v)`, the interval extended to contain `v`. -/
def Interval.expandTo (i : Interval) (v : ℚ) : Interval :=
  ⟨if v < i.min then v else i.min, if i.max < v then v else i.max⟩

/-- Modelled from the spec: `Interval::expandBy(amount)`. -/
def Interval.expandBy (i : Interval) (amount : ℚ) : Interval :=
  ⟨i.min - amount, i.max + amount⟩

/-- Modelled from the spec: `Interval::contains(v)`. -/
def Interval.contains (i : Interval) (v : ℚ) : Bool :=
  decide (i.min ≤ v) && decide (v ≤ i.max)

/-- Modelled from the spec: `Interval::intersects`, whether two closed intervals meet. -/
def Interval.intersects (i j : Interval) : Bool :=
  i.contains j.min || i.contains j.max || (decide (j.min ≤ i.min) && decide (i.max ≤ j.max))

/-- Modelled from the spec: `Geom::Rect`, an axis-aligned rectangle. -/
structure Rect where
  xs : Interval
  ys : Interval
deriving DecidableEq

/-- Modelled from the spec: the default `Geom::Rect()`. -/
def Rect.default : Rect := ⟨⟨0, 0⟩, ⟨0, 0⟩⟩

/-- Modelled from the spec: `Rect(a, b)`, the rectangle spanned by two points. -/
def Rect.ofPoints (a b : Point) : Rect :=
  ⟨Interval.ofEnds a.x b.x, Interval.ofEnds a.y b.y⟩

/-- Modelled from the spec: `Rect::expandTo(p)`. -/
def Rect.expandTo (r : Rect) (p : Point) : Rect :=
  ⟨r.xs.expandTo p.x, r.ys.expandTo p.y⟩

/-- Modelled from the spec: `Rect::expandBy(amount)`. -/
def Rect.expandBy (r : Rect) (amount : ℚ) : Rect :=
  ⟨r.xs.expandBy amount, r.ys.expandBy amount⟩

/-- Modelled from the spec: `Rect::intersects`. -/
def Rect.intersects (r s : Rect) : Bool :=
  r.xs.intersects s.xs && r.ys.intersects s.ys

/-- Modelled from the spec: `Rect::min()`, the corner of least coordinates. -/
def Rect.minPoint (r : Rect) : Point := ⟨r.xs.min, r.ys.min⟩

/-- Modelled from the spec: `Rect::max()`, the corner of greatest coordinates. -/
def Rect.maxPoint (r : Rect) : Point := ⟨r.xs.max, r.ys.max⟩

/-- Modelled from the spec: `r * m`, the bounding box of the four transformed corners. -/
def Rect.transform (r : Rect) (m : Affine) : Rect :=
  ((Rect.ofPoints (Point.transform ⟨r.xs.min, r.ys.min⟩ m)
      (Point.transform ⟨r.xs.max, r.ys.min⟩ m)).expandTo
      (Point.transform ⟨r.xs.max, r.ys.max⟩ m)).expandTo
    (Point.transform ⟨r.xs.min, r.ys.max⟩ m)

/-- Modelled from the spec: a `Geom::Curve`, by its dynamic type.  `line` stands for the
segments accepted by `is_straight_curve`, `quadratic` and `cubic` carry the control points
returned by `points()`, and every other curve carries the pieces of
`cubicbezierpath_from_sbasis(c.toSBasis(), 0.1)`, from `begin()` to `end()`. -/
inductive Curve where
  | line (p0 p1 : Point)
  | quadratic (p0 p1 p2 : Point)
  | cubic (p0 p1 p2 p3 : Point)
  | other (approx : List Curve)

/-- Modelled from the spec: a `Geom::Path`: its initial point, its segments from `begin()` to
`end_open()` (the implicit closing segment is not among them) and its closed flag. -/
structure Path where
  initialPoint : Point
  curves : List Curve
  closed : Bool

/-- Modelled from the spec: `Path::empty()`, no segment but the closing one. -/
def Path.empty (p : Path) : Bool := p.curves.isEmpty

/-- The drawing commands sent to the cairo context. -/
inductive Cmd where
  | moveTo (p : Point)
  | lineTo (p : Point)
  | curveTo (c1 c2 e : Point)
  | closePath
deriving DecidableEq

mutual
/-- The function `feed_curve_to_cairo` (cairo-utils.cpp, lines 115-183); the result is the
list of commands sent to the context, in order. -/
def feed_curve_to_cairo (trans : Affine) (view : Rect) (optimize_stroke : Bool) :
    Curve → List Cmd
  | .line p0 p1 =>
    let end_tr := p1.transform trans
    if !optimize_stroke then
      [Cmd.lineTo end_tr]
    else
      let swept := Rect.ofPoints (p0.transform trans) end_tr
      if swept.intersects view then [Cmd.lineTo end_tr] else [Cmd.moveTo end_tr]
  | .quadratic q0 q1 q2 =>
    let points0 := q0.transform trans
    let points1 := q1.transform trans
    let points2 := q2.transform trans
    let b1 := points0.add (Point.scale (2 / 3) (points1.sub points0))
    let b2 := b1.add (Point.scale (1 / 3) (points2.sub points0))
    if !optimize_stroke then
      [Cmd.curveTo b1 b2 points2]
    else
      let swept := (Rect.ofPoints points0 points2).expandTo points1
      if swept.intersects view then [Cmd.curveTo b1 b2 points2] else [Cmd.moveTo points2]
  | .cubic c0 c1 c2 c3 =>
    let points1 := c1.transform trans
    let points2 := c2.transform trans
    let points3 := c3.transform trans
    if !optimize_stroke then
      [Cmd.curveTo points1 points2 points3]
    else
      let points0 := c0.transform trans
      let swept := ((Rect.ofPoints points0 points3).expandTo points1).expandTo points2
      if swept.intersects view then [Cmd.curveTo points1 points2 points3]
      else [Cmd.moveTo points3]
  | .other approx => feed_curves_to_cairo trans view optimize_stroke approx
/-- The loop `for (iter = begin; iter != end; ++iter) feed_curve_to_cairo(cr, *iter, ...)`. -/
def feed_curves_to_cairo (trans : Affine) (view : Rect) (optimize_stroke : Bool) :
    List Curve → List Cmd
  | [] => []
  | c :: cs =>
    feed_curve_to_cairo trans view optimize_stroke c
      ++ feed_curves_to_cairo trans view optimize_stroke cs
end

/-- The one-argument overload of `feed_path_to_cairo` (cairo-utils.cpp, lines 187-202). -/
def feed_path_to_cairo (path : Path) : List Cmd :=
  if path.empty then []
  else
    [Cmd.moveTo path.initialPoint]
      ++ feed_curves_to_cairo Affine.identity Rect.default false path.curves
      ++ (if path.closed then [Cmd.closePath] else [])

/-- The transform and clip overload of `feed_path_to_cairo` (cairo-utils.cpp, lines
205-249). -/
def feed_path_to_cairo_trans (path : Path) (trans : Affine) (area : Option Rect)
    (optimize_stroke : Bool) (stroke_width : ℚ) : List Cmd :=
  match area with
  | none => []
  | some area =>
    if path.empty then []
    else
      let shift := area.minPoint
      let view := area
      let view := view.expandBy stroke_width
      let view := view.transform (Affine.translate shift.neg)
      let transshift := trans.mul (Affine.translate shift.neg)
      let initial := path.initialPoint.transform transshift
      [Cmd.moveTo initial]
        ++ feed_curves_to_cairo transshift view optimize_stroke path.curves
        ++ (if path.closed then
              (if !optimize_stroke then [Cmd.closePath] else [Cmd.lineTo initial])
            else [])

/-- The view rectangle that `feed_path_to_cairo_trans` passes to the per-segment policy. -/
def pathView (area : Rect) (stroke_width : ℚ) : Rect :=
  (area.expandBy stroke_width).transform (Affine.translate area.minPoint.neg)

/-- The transform that `feed_path_to_cairo_trans` passes to the per-segment policy. -/
def pathTransform (trans : Affine) (area : Rect) : Affine :=
  trans.mul (Affine.translate area.minPoint.neg)

/-- The bounding box of four points, coordinate by coordinate. -/
def boundingBox4 (a b c d : Point) : Rect :=
  ⟨⟨min (min a.x b.x) (min c.x d.x), max (max a.x b.x) (max c.x d.x)⟩,
   ⟨min (min a.y b.y) (min c.y d.y), max (max a.y b.y) (max c.y d.y)⟩⟩

/-- The loop of the transform and clip overload of `feed_pathvector_to_cairo`:
`for (it = begin; it != end; ++it) feed_path_to_cairo(ct, *it, trans, area, ...)`. -/
def feed_paths_to_cairo_trans (trans : Affine) (area : Option Rect) (optimize_stroke : Bool)
    (stroke_width : ℚ) : List Path → List Cmd
  | [] => []
  | p :: ps =>
    feed_path_to_cairo_trans p trans area optimize_stroke stroke_width
      ++ feed_paths_to_cairo_trans trans area optimize_stroke stroke_width ps

/-- The transform and clip overload of `feed_pathvector_to_cairo` (cairo-utils.cpp, lines
253-264); a path vector is the list of its paths. -/
def feed_pathvector_to_cairo_trans (pathv : List Path) (trans : Affine) (area : Option Rect)
    (optimize_stroke : Bool) (stroke_width : ℚ) : List Cmd :=
  match area with
  | none => []
  | some area =>
    if pathv.isEmpty then []
    else feed_paths_to_cairo_trans trans (some area) optimize_stroke stroke_width pathv

/-- The loop of the one-argument overload of `feed_pathvector_to_cairo`:
`for (it = begin; it != end; ++it) feed_path_to_cairo(ct, *it)`. -/
def feed_paths_to_cairo : List Path → List Cmd
  | [] => []
  | p :: ps => feed_path_to_cairo p ++ feed_paths_to_cairo ps

/-- The one-argument overload of `feed_pathvector_to_cairo` (cairo-utils.cpp, lines
268-277). -/
def feed_pathvector_to_cairo (pathv : List Path) : List Cmd :=
  if pathv.isEmpty then [] else feed_paths_to_cairo pathv

mutual
/-- Depth of the recursion of `feed_curve_to_cairo` on a curve: 0 when the curve is handled
by one of the three direct branches, and one more than the deepest recursive call when the
curve goes through the cubic approximation. -/
def recursionDepth : Curve → Nat
  | .line _ _ => 0
  | .quadratic _ _ _ => 0
  | .cubic _ _ _ _ => 0
  | .other approx => recursionDepthMax approx + 1
/-- The greatest `recursionDepth` among the curves of a list. -/
def recursionDepthMax : List Curve → Nat
  | [] => 0
  | c :: cs => max (recursionDepth c) (recursionDepthMax cs)
end

/-- The curve is a straight segment or a cubic segment. -/
def Curve.isStraightOrCubic : Curve → Bool
  | .line _ _ => true
  | .cubic _ _ _ _ => true
  | _ => false

mutual
/-- Every cubic approximation that the recursion of `feed_curve_to_cairo` meets on this curve
has at least one piece. -/
def approxNonempty : Curve → Bool
  | .line _ _ => true
  | .quadratic _ _ _ => true
  | .cubic _ _ _ _ => true
  | .other approx => !approx.isEmpty && approxNonemptyAll approx
/-- All the curves of the list satisfy `approxNonempty`. -/
def approxNonemptyAll : List Curve → Bool
  | [] => true
  | c :: cs => approxNonempty c && approxNonemptyAll cs
end

/-! ## Document update loop (document.cpp)

The fields of `SPDocument` that `_updateDocument` and `ensureUpToDate` read and write.  The
calls that leave document.cpp (`root->updateDisplay`, `root->emitModified`, the signal
emission, `router->processTransaction`) are arbitrary transformers of the document state;
`world` is the rest of the program state, on which their behaviour may depend. -/

/-- The document state seen by the update loop. -/
structure SPDocument (W : Type) where
  uflags : Nat
  mflags : Nat
  sensitive : Bool
  modified_id : Nat
  rerouting_handler_id : Nat
  world : W

/-- The calls made by the update loop into code outside document.cpp. -/
structure External (W : Type) where
  updateDisplay : SPDocument W → SPDocument W
  rootEmitModified : SPDocument W → SPDocument W
  modifiedSignalEmit : SPDocument W → SPDocument W
  processTransaction : SPDocument W → SPDocument W
  idleAdd : SPDocument W → Nat

/-- What `ensureUpToDate` does that is visible from outside, in order: each invocation of
`_updateDocument` with its return value, the warning, the router transaction and the removal
of an idle source. -/
inductive Event where
  | update (upToDate : Bool)
  | warning
  | processTransaction
  | sourceRemove (id : Nat)
deriving DecidableEq

/-- Modelled from the spec: `DocumentUndo::getUndoSensitive` (document-undo.cpp, not among
the source files) reads whether undo recording is on. -/
def getUndoSensitive {W : Type} (doc : SPDocument W) : Bool := doc.sensitive

/-- Modelled from the spec: `DocumentUndo::setUndoSensitive` (document-undo.cpp, not among
the source files) switches undo recording on or off. -/
def setUndoSensitive {W : Type} (doc : SPDocument W) (sensitive : Bool) : SPDocument W :=
  { doc with sensitive := sensitive }

/-- The function `SPDocument::_emitModified` (document.cpp, lines 822-826). -/
def SPDocument._emitModified {W : Type} ( ext : External W) (doc : SPDocument W) :
    SPDocument W :=
  ext.modifiedSignalEmit (ext.rootEmitModified doc)

/-- The function `SPDocument::requestModified` (document.cpp, lines 942-952). -/
def SPDocument.requestModified {W : Type} ( ext : External W) (doc : SPDocument W) :
    SPDocument W :=
  let doc1 := if doc.modified_id = 0 then { doc with modified_id := ext.idleAdd doc } else doc
  if doc1.rerouting_handler_id = 0 then { doc1 with rerouting_handler_id := ext.idleAdd doc1 }
  else doc1

/-- The function `SPDocument::_updateDocument` (document.cpp, lines 972-992): the return value
and the document state it leaves. -/
def SPDocument._updateDocument {W : Type} ( ext : External W) (doc : SPDocument W) :
    Bool × SPDocument W :=
  let doc1 :=
    if doc.uflags ≠ 0 ∨ doc.mflags ≠ 0 then
      let doc2 :=
        if doc.uflags ≠ 0 then
          let saved := getUndoSensitive doc
          let doc3 := setUndoSensitive doc false
          let doc4 := ext.updateDisplay doc3
          setUndoSensitive doc4 saved
        else doc
      SPDocument._emitModified ext doc2
    else doc
  (!(decide (doc1.uflags ≠ 0) || decide (doc1.mflags ≠ 0)), doc1)

/-- State of a run of `ensureUpToDate`: the local `counter`, the document and the events so
far. -/
structure Run (W : Type) where
  counter : Nat
  doc : SPDocument W
  events : List Event

/-- The loop `while (!_updateDocument()) { if (counter == 0) { g_warning(..); break; }
counter--; }` of `ensureUpToDate`, started with the given counter; the events are those of
the loop alone. -/
def updateLoop {W : Type} ( ext : External W) : Nat → SPDocument W → Run W
  | 0, doc =>
    let r := SPDocument._updateDocument ext doc
    if r.1 then ⟨0, r.2, [Event.update true]⟩
    else ⟨0, r.2, [Event.update false, Event.warning]⟩
  | counter + 1, doc =>
    let r := SPDocument._updateDocument ext doc
    if r.1 then ⟨counter + 1, r.2, [Event.update true]⟩
    else
      let rest := updateLoop ext counter r.2
      ⟨rest.counter, rest.doc, Event.update false :: rest.events⟩

/-- The loop `for (pass = 1; pass <= 2; ++pass)` of `ensureUpToDate`, with `remaining` passes
left to run. -/
def passLoop {W : Type} ( ext : External W) :
    (remaining : Nat) → (pass : Nat) → (counter : Nat) → SPDocument W → Run W
  | 0, _, counter, doc => ⟨counter, doc, []⟩
  | remaining + 1, pass, counter, doc =>
    let r := updateLoop ext counter doc
    if r.counter = 0 then r
    else
      let doc1 := if pass = 1 then ext.processTransaction r.doc else r.doc
      let routed := if pass = 1 then [Event.processTransaction] else []
      let rest := passLoop ext remaining (pass + 1) r.counter doc1
      ⟨rest.counter, rest.doc, r.events ++ routed ++ rest.events⟩

/-- Result of `ensureUpToDate`: the returned `gint`, the document and the events. -/
structure UpToDateResult (W : Type) where
  result : Nat
  doc : SPDocument W
  events : List Event

/-- The function `SPDocument::ensureUpToDate` (document.cpp, lines 1002-1042). -/
def SPDocument.ensureUpToDate {W : Type} ( ext : External W) (doc : SPDocument W) :
    UpToDateResult W :=
  let r := passLoop ext 2 1 32 doc
  let doc1 := r.doc
  let removed1 := if doc1.modified_id ≠ 0 then [Event.sourceRemove doc1.modified_id] else []
  let doc2 := if doc1.modified_id ≠ 0 then { doc1 with modified_id := 0 } else doc1
  let removed2 :=
    if doc2.rerouting_handler_id ≠ 0 then [Event.sourceRemove doc2.rerouting_handler_id] else []
  let doc3 := if doc2.rerouting_handler_id ≠ 0 then { doc2 with rerouting_handler_id := 0 }
    else doc2
  ⟨if 0 < r.counter then 1 else 0, doc3, r.events ++ removed1 ++ removed2⟩

/-- Number of invocations of `_updateDocument` among the events. -/
def updateCalls : List Event → Nat
  | [] => 0
  | Event.update _ :: es => updateCalls es + 1
  | _ :: es => updateCalls es

/-- Number of invocations of `router->processTransaction` among the events. -/
def routerCalls : List Event → Nat
  | [] => 0
  | Event.processTransaction :: es => routerCalls es + 1
  | _ :: es => routerCalls es

/-- An updater that never brings the document up to date: no external call changes the
state, so a set update flag stays set. -/
def stuckExternal : External Unit :=
  ⟨fun d => d, fun d => d, fun d => d, fun d => d, fun _ => 1⟩

/-- A document whose root has an update flag set. -/
def dirtyDocument : SPDocument Unit := ⟨1, 0, true, 0, 0, ()⟩

/-- An updater that clears the flags of the root on `updateDisplay`. -/
def cleaningExternal : External Unit :=
  ⟨fun d => { d with uflags := 0, mflags := 0 }, fun d => d, fun d => d, fun d => d, fun _ => 1⟩

/-- An updater that brings the document up to date until the router has run, and never
afterwards: the world records whether the router has run. -/
def reroutingExternal : External Bool :=
  ⟨fun d => if d.world then d else { d with uflags := 0, mflags := 0 }, fun d => d, fun d => d,
    fun d => { d with uflags := 1, world := true }, fun _ => 1⟩

/-- The run of pass 1 of `ensureUpToDate`: the update loop started with the counter at 32. -/
def firstPass {W : Type} ( ext : External W) (doc : SPDocument W) : Run W :=
  updateLoop ext 32 doc

/-- The run of pass 2 of `ensureUpToDate`: the update loop started, after the router
transaction, with the counter left by pass 1. -/
def secondPass {W : Type} ( ext : External W) (doc : SPDocument W) : Run W :=
  updateLoop ext (firstPass ext doc).counter (ext.processTransaction (firstPass ext doc).doc)

/-! ## Id index and resource registry (document.cpp)

Object pointers are natural numbers, `none` is the NULL pointer; C strings are `String`,
`none` is the NULL string.  `g_assert` is taken as compiled in: a failed assertion aborts
the process.  `g_return_val_if_fail` logs a critical message and returns the given value. -/

/-- How a call ends: it returns a value, or the process is aborted by a failed `g_assert`. -/
inductive Outcome (α : Type) where
  | returned (value : α)
  | aborted (message : String)

/-- A non-null `SPObject *`. -/
abbrev ObjRef := Nat

/-- A `GQuark`; quarks are in one-to-one correspondence with the interned strings. -/
abbrev GQuark := String

/-- The GLib function `g_quark_from_string` on a non-null string. -/
def g_quark_from_string (s : String) : GQuark := s

/-- The id index of a live document: the hash table `priv->iddef` from quark to object (a
key that is absent maps to `none`), for each quark whether `priv->id_changed_signals` holds a
signal and how many slots are connected to it, and the signal emissions made so far. -/
structure IdIndex where
  iddef : GQuark → Option ObjRef
  id_changed_signals : GQuark → Option Nat
  emitted : List (GQuark × Option ObjRef)

/-- The function `SPDocument::bindObjectToId` (document.cpp, lines 828-849). -/
def bindObjectToId (doc : IdIndex) (id : String) (object : Option ObjRef) : Outcome IdIndex :=
  let idq := g_quark_from_string id
  let bound : Outcome (GQuark → Option ObjRef) :=
    match object with
    | some obj =>
      if doc.iddef idq = none then Outcome.returned (Function.update doc.iddef idq (some obj))
      else Outcome.aborted "assertion failed: g_hash_table_lookup(iddef, idq) == NULL"
    | none =>
      if doc.iddef idq ≠ none then Outcome.returned (Function.update doc.iddef idq none)
      else Outcome.aborted "assertion failed: g_hash_table_lookup(iddef, idq) != NULL"
  match bound with
  | Outcome.aborted message => Outcome.aborted message
  | Outcome.returned iddef =>
    match doc.id_changed_signals idq with
    | some slots =>
      if slots ≠ 0 then
        Outcome.returned ⟨iddef, doc.id_changed_signals, doc.emitted ++ [(idq, object)]⟩
      else
        Outcome.returned ⟨iddef, Function.update doc.id_changed_signals idq none, doc.emitted⟩
    | none => Outcome.returned ⟨iddef, doc.id_changed_signals, doc.emitted⟩

/-- The function `SPDocument::getObjectById` (document.cpp, lines 868-885) on a live document
(`priv` and `priv->iddef` are non-null). -/
def getObjectById (doc : IdIndex) (id : Option String) : Option ObjRef :=
  match id with
  | none => none
  | some id =>
    let idq := g_quark_from_string id
    let rv := doc.iddef idq
    if rv ≠ none then rv else none

/-- The state of a call of `bindObjectToId` that returned; an aborted call leaves none. -/
def Outcome.state? {α : Type} : Outcome α → Option α
  | Outcome.returned value => some value
  | Outcome.aborted _ => none

/-- Whether the call was aborted by a failed assertion. -/
def Outcome.isAborted {α : Type} : Outcome α → Bool
  | Outcome.returned _ => false
  | Outcome.aborted _ => true

/-- What the resource functions read of the objects: the `cloned` field and the result of the
type check `SP_IS_OBJECT`. -/
structure ObjectInfo where
  cloned : ObjRef → Bool
  isObject : ObjRef → Bool

/-- The resource registry of a document: the hash table `priv->resources` from key string to
the list of objects (an absent key and a NULL list are both the empty list) and the keys
whose `resources_changed` signal was emitted so far. -/
structure Resources where
  resources : String → List ObjRef
  emitted : List GQuark

/-- The function `SPDocument::addResource` (document.cpp, lines 1307-1329): the returned
`bool` and the registry after the call. -/
def addResource (info : ObjectInfo) (doc : Resources) (key : Option String)
    (object : Option ObjRef) : Outcome (Bool × Resources) :=
  match key with
  | none => Outcome.returned (false, doc)
  | some key =>
    if key = "" then Outcome.returned (false, doc)
    else
      match object with
      | none => Outcome.returned (false, doc)
      | some object =>
        if !info.isObject object then Outcome.returned (false, doc)
        else if !info.cloned object then
          let rlist := doc.resources key
          if object ∈ rlist then Outcome.returned (false, doc)
          else
            let rlist := object :: rlist
            let q := g_quark_from_string key
            Outcome.returned
              (true, ⟨Function.update doc.resources key rlist, doc.emitted ++ [q]⟩)
        else Outcome.returned (false, doc)

/-- The function `SPDocument::removeResource` (document.cpp, lines 1331-1354): the returned
`bool` and the registry after the call. -/
def removeResource (info : ObjectInfo) (doc : Resources) (key : Option String)
    (object : Option ObjRef) : Outcome (Bool × Resources) :=
  match key with
  | none => Outcome.returned (false, doc)
  | some key =>
    if key = "" then Outcome.returned (false, doc)
    else
      match object with
      | none => Outcome.returned (false, doc)
      | some object =>
        if !info.isObject object then Outcome.returned (false, doc)
        else if !info.cloned object then
          let rlist := doc.resources key
          if rlist = [] then Outcome.returned (false, doc)
          else if object ∉ rlist then Outcome.returned (false, doc)
          else
            let rlist := rlist.erase object
            let q := g_quark_from_string key
            Outcome.returned
              (true, ⟨Function.update doc.resources key rlist, doc.emitted ++ [q]⟩)
        else Outcome.returned (false, doc)

/-- The function `SPDocument::getResourceList` (document.cpp, lines 1356-1362). -/
def getResourceList (doc : Resources) (key : Option String) : List ObjRef :=
  match key with
  | none => []
  | some key => if key = "" then [] else doc.resources key

/-- An id index with no binding and no signal. -/
def emptyIdIndex : IdIndex := ⟨fun _ => none, fun _ => none, []⟩

/-- A registry with no resource. -/
def emptyResources : Resources := ⟨fun _ => [], []⟩

/-- Objects none of which is a clone. -/
def plainObjects : ObjectInfo := ⟨fun _ => false, fun _ => true⟩

/-- A registry in which object 7 is registered once under the key `gradient`. -/
def gradientResources : Resources := ⟨fun k => if k = "gradient" then [7] else [], []⟩

/-! ## Document units of a named view (sp-namedview.cpp) -/

/-- Modelled from the spec: the `base` of an `SPUnit` (helper/units.h, not among the source
files); only `SP_UNIT_ABSOLUTE` and `SP_UNIT_DEVICE` are told apart from the other bases. -/
inductive SPUnitBase where
  | absolute
  | device
  | other (code : Nat)
deriving DecidableEq

/-- Modelled from the spec: an `SPUnit` (helper/units.h), by its abbreviation and base. -/
structure SPUnit where
  abbreviation : String
  base : SPUnitBase
deriving DecidableEq

/-- The unit table of helper/units.cpp, which is not among the source files: the lookup
`sp_unit_get_by_abbreviation` (`none` is the NULL result) and the unit returned by
`sp_unit_get_by_id(SP_UNIT_PX)`. -/
structure UnitTable where
  sp_unit_get_by_abbreviation : String → Option SPUnit
  px : SPUnit

/-- What the case `SP_ATTR_INKSCAPE_DOCUMENT_UNITS` of `sp_namedview_set` leaves: the pointer
`nv->doc_units` (`none` is NULL), the warnings logged and whether
`object->requestModified` was called. -/
structure DocUnitsResult where
  doc_units : Option SPUnit
  warnings : List String
  modifiedRequested : Bool

/-- The case `SP_ATTR_INKSCAPE_DOCUMENT_UNITS` of `sp_namedview_set` (sp-namedview.cpp, lines
561-601); `value` is the attribute value, `none` when the attribute is absent. -/
def sp_namedview_set_document_units (table : UnitTable) (value : Option String) :
    Outcome DocUnitsResult :=
  let new_unit := table.px
  match value with
  | none => Outcome.returned ⟨some new_unit, [], true⟩
  | some value =>
    match table.sp_unit_get_by_abbreviation value with
    | none => Outcome.returned ⟨some new_unit, ["Unrecognized unit"], true⟩
    | some req_unit =>
      if req_unit.base = SPUnitBase.absolute ∨ req_unit.base = SPUnitBase.device then
        Outcome.returned ⟨some req_unit, [], true⟩
      else
        Outcome.returned ⟨some new_unit, ["Document units must be absolute"], true⟩

/-- The unit that the claimed rule selects: the requested unit when it is recognized and has
an absolute or device base, the default unit px otherwise. -/
def selectedDocUnit (table : UnitTable) (value : Option String) : SPUnit :=
  match value with
  | none => table.px
  | some value =>
    match table.sp_unit_get_by_abbreviation value with
    | none => table.px
    | some req_unit =>
      if req_unit.base = SPUnitBase.absolute ∨ req_unit.base = SPUnitBase.device then req_unit
      else table.px

/-- A small unit table: `px` (device), `mm` (absolute) and `em` (font size). -/
def sampleUnits : UnitTable :=
  ⟨fun a =>
      if a = "px" then some ⟨"px", SPUnitBase.device⟩
      else if a = "mm" then some ⟨"mm", SPUnitBase.absolute⟩
      else if a = "em" then some ⟨"em", SPUnitBase.other 32⟩
      else none,
    ⟨"px", SPUnitBase.device⟩⟩

/-! ## More geometry -/

/-- The bounding box of three points, coordinate by coordinate. -/
def boundingBox3 (a b c : Point) : Rect :=
  ⟨⟨min (min a.x b.x) c.x, max (max a.x b.x) c.x⟩,
   ⟨min (min a.y b.y) c.y, max (max a.y b.y) c.y⟩⟩

/-- The invariant of a `Geom::Rect`: in each direction the least coordinate is at most the
greatest. -/
def Rect.wellFormed (r : Rect) : Prop :=
  r.xs.min ≤ r.xs.max ∧ r.ys.min ≤ r.ys.max

/-- The first control point of the cubic that a quadratic with control points `p0`, `p1`
elevates to: `p0 + 2/3 (p1 - p0)`. -/
def elevated1 (p0 p1 : Point) : Point :=
  p0.add (Point.scale (2 / 3) (p1.sub p0))

/-- The second control point of the cubic that a quadratic with control points `p1`, `p2`
elevates to: `p2 + 2/3 (p1 - p2)`. -/
def elevated2 (p1 p2 : Point) : Point :=
  p2.add (Point.scale (2 / 3) (p1.sub p2))

/-- The return value of the last invocation of `_updateDocument` among the events, `none`
when there is no invocation. -/
def lastUpdate : List Event → Option Bool
  | [] => none
  | Event.update b :: es =>
    match lastUpdate es with
    | some b2 => some b2
    | none => some b
  | _ :: es => lastUpdate es

/-- A call of one of the two resource functions, with its arguments. -/
inductive ResourceCall where
  | add (key : Option String) (object : Option ObjRef)
  | remove (key : Option String) (object : Option ObjRef)

/-- The registry that a returned call leaves. -/
def registryAfter (doc : Resources) : Outcome (Bool × Resources) → Resources
  | Outcome.returned value => value.2
  | Outcome.aborted _ => doc

/-- The registry after one call of `addResource` or `removeResource`. -/
def applyResourceCall (info : ObjectInfo) (doc : Resources) : ResourceCall → Resources
  | ResourceCall.add key object => registryAfter doc (addResource info doc key object)
  | ResourceCall.remove key object => registryAfter doc (removeResource info doc key object)

/-- The registry after a sequence of calls, made in order. -/
def applyResourceCalls (info : ObjectInfo) : Resources → List ResourceCall → Resources
  | doc, [] => doc
  | doc, call :: calls => applyResourceCalls info (applyResourceCall info doc call) calls

/-- The curve is a straight, quadratic or cubic segment. -/
def Curve.isSimple : Curve → Bool
  | .other _ => false
  | _ => true

/-- The point at which a command leaves the current point; `closePath` names none. -/
def Cmd.endPoint : Cmd → Option Point
  | Cmd.moveTo p => some p
  | Cmd.lineTo p => some p
  | Cmd.curveTo _ _ e => some e
  | Cmd.closePath => none

/-- The bounding box of the transformed control points of a straight, quadratic or cubic
segment. -/
def controlBox (trans : Affine) : Curve → Rect
  | .line p0 p1 => Rect.ofPoints (p0.transform trans) (p1.transform trans)
  | .quadratic q0 q1 q2 =>
    boundingBox3 (q0.transform trans) (q1.transform trans) (q2.transform trans)
  | .cubic c0 c1 c2 c3 =>
    boundingBox4 (c0.transform trans) (c1.transform trans) (c2.transform trans)
      (c3.transform trans)
  | .other _ => Rect.default

/-- The commands of the transform and clip overload of `feed_path_to_cairo` with
optimization on. -/
def optimizedCommands (path : Path) (trans : Affine) (area : Rect) (stroke_width : ℚ) :
    List Cmd :=
  feed_path_to_cairo_trans path trans (some area) true stroke_width

/-- The commands of the transform and clip overload of `feed_path_to_cairo` with
optimization off. -/
def plainCommands (path : Path) (trans : Affine) (area : Rect) (stroke_width : ℚ) :
    List Cmd :=
  feed_path_to_cairo_trans path trans (some area) false stroke_width

/-! ## Orphan collection (document.cpp)

`SPObject::collectOrphan`, `sp_object_ref` and `sp_object_unref` belong to sp-object.cpp,
which is not among the source files.  The calls of `sp_object_ref`, `sp_object_unref` and
`collectOrphan` are recorded in order; `collectOrphan` may change the rest of the program
state and may call `queueForOrphanCollection` on further objects. -/

/-- The collection queue of a document with the record of the calls made on objects:
`collection_queue` is the `GSList` `_collection_queue`, head first. -/
structure OrphanDoc (W : Type) where
  collection_queue : List ObjRef
  reffed : List ObjRef
  unreffed : List ObjRef
  collected : List ObjRef
  world : W

/-- What orphan collection uses from outside document.cpp: whether `object->document` is
this document, and `SPObject::collectOrphan`, which gives the new program state and the
arguments of the calls of `queueForOrphanCollection` that it makes, in order. -/
structure OrphanExternal (W : Type) where
  ownedByDocument : ObjRef → Bool
  collectOrphan : ObjRef → W → W × List (Option ObjRef)

/-- The function `SPDocument::queueForOrphanCollection` (document.cpp, lines 280-286). -/
def queueForOrphanCollection {W : Type} ( ext : OrphanExternal W) (doc : OrphanDoc W)
    (object : Option ObjRef) : OrphanDoc W :=
  match object with
  | none => doc
  | some object =>
    if !ext.ownedByDocument object then doc
    else
      { doc with
        reffed := doc.reffed ++ [object]
        collection_queue := object :: doc.collection_queue }

/-- The calls of `queueForOrphanCollection` made during one `collectOrphan`, in order. -/
def queueAll {W : Type} ( ext : OrphanExternal W) : OrphanDoc W → List (Option ObjRef) →
    OrphanDoc W
  | doc, [] => doc
  | doc, object :: objects => queueAll ext (queueForOrphanCollection ext doc object) objects

/-- The body of the `for` loop of `collectOrphans`: `object->collectOrphan();
sp_object_unref(object, NULL);`. -/
def collectOne {W : Type} ( ext : OrphanExternal W) (doc : OrphanDoc W) (object : ObjRef) :
    OrphanDoc W :=
  let r := ext.collectOrphan object doc.world
  let doc1 := { doc with world := r.1, collected := doc.collected ++ [object] }
  let doc2 := queueAll ext doc1 r.2
  { doc2 with unreffed := doc2.unreffed ++ [object] }

/-- The `for` loop of `collectOrphans` over the list `objects`. -/
def collectList {W : Type} ( ext : OrphanExternal W) : OrphanDoc W → List ObjRef → OrphanDoc W
  | doc, [] => doc
  | doc, object :: objects => collectList ext (collectOne ext doc object) objects

/-- The function `SPDocument::collectOrphans` (document.cpp, lines 288-299); `fuel` bounds
the number of iterations of the `while` loop, and the result is `none` when the queue is
still not empty after that many iterations. -/
def collectOrphans {W : Type} ( ext : OrphanExternal W) : Nat → OrphanDoc W →
    Option (OrphanDoc W)
  | 0, doc => if doc.collection_queue = [] then some doc else none
  | fuel + 1, doc =>
    match doc.collection_queue with
    | [] => some doc
    | object :: objects =>
      collectOrphans ext fuel
        (collectList ext { doc with collection_queue := [] } (object :: objects))

/-- A `collectOrphan` that queues nothing, on objects that all belong to the document. -/
def quietOrphans : OrphanExternal Unit := ⟨fun _ => true, fun _ w => (w, [])⟩

/-- A `collectOrphan` that, on object 1, queues object 2, and otherwise queues nothing. -/
def cascadingOrphans : OrphanExternal Unit :=
  ⟨fun _ => true, fun o w => if o = 1 then (w, [some 2]) else (w, [])⟩

/-- A document with an empty collection queue and no call recorded. -/
def emptyOrphanDoc : OrphanDoc Unit := ⟨[], [], [], [], ()⟩

/-- An external world in which a handler of the `modified` signal switches undo recording
on and leaves it on. -/
def meddlingExternal : External Unit :=
  ⟨fun d => d, fun d => d, fun d => { d with sensitive := true }, fun d => d, fun _ => 1⟩

/-- A document whose root has an update flag set and whose undo recording is off. -/
def insensitiveDocument : SPDocument Unit := ⟨1, 0, false, 0, 0, ()⟩

/-- A document whose root has no flag set. -/
def cleanDocument : SPDocument Unit := ⟨0, 0, true, 0, 0, ()⟩

/-! ## Bit-level lemmas -/

theorem and_ff (c : Nat) : c &&& 0x000000ff = c % 256 :=
  Nat.and_pow_two_sub_one_eq_mod c 8

theorem and_shift_byte (c k : Nat) : (c &&& (255 <<< k)) >>> k = c / 2 ^ k % 256 := by
  have h : (c &&& (255 <<< k)) >>> k = (c >>> k) &&& 255 := by
    apply Nat.eq_of_testBit_eq
    intro i
    simp [Nat.testBit_shiftRight, Nat.testBit_and, Nat.testBit_shiftLeft]
  rw [h, Nat.shiftRight_eq_div_pow]
  exact Nat.and_pow_two_sub_one_eq_mod _ 8

theorem byte3 (c : Nat) : (c &&& 0xff000000) >>> 24 = c / 16777216 % 256 :=
  and_shift_byte c 24

theorem byte2 (c : Nat) : (c &&& 0x00ff0000) >>> 16 = c / 65536 % 256 :=
  and_shift_byte c 16

theorem byte1 (c : Nat) : (c &&& 0x0000ff00) >>> 8 = c / 256 % 256 :=
  and_shift_byte c 8

theorem or_shift_add (x y k : Nat) (h : x < 2 ^ k) : (y * 2 ^ k) ||| x = y * 2 ^ k + x := by
  rw [Nat.mul_comm y (2 ^ k)]
  exact (Nat.mul_add_lt_is_or h y).symm

theorem shl32_byte (x k : Nat) (hx : x < 256) (hk : k ≤ 24) : shl32 x k = x * 2 ^ k := by
  unfold shl32
  rw [Nat.shiftLeft_eq]
  apply Nat.mod_eq_of_lt
  calc x * 2 ^ k < 256 * 2 ^ k := Nat.mul_lt_mul_of_pos_right hx (Nat.pow_pos (by decide))
    _ ≤ 256 * 2 ^ 24 := Nat.mul_le_mul_left _ (Nat.pow_le_pow_right (by decide) hk)
    _ = 2 ^ 32 := by norm_num

/-- Packing four bytes most-significant first, as `argb32_from_pixbuf` does. -/
theorem pack_msb (a r g b : Nat) (ha : a < 256) (hr : r < 256) (hg : g < 256) (hb : b < 256) :
    shl32 a 24 ||| shl32 r 16 ||| shl32 g 8 ||| b
      = a * 16777216 + r * 65536 + g * 256 + b := by
  rw [shl32_byte a 24 ha (by decide), shl32_byte r 16 hr (by decide),
    shl32_byte g 8 hg (by decide)]
  have h1 : a * 2 ^ 24 ||| r * 2 ^ 16 = (a * 256 + r) * 2 ^ 16 := by
    have := or_shift_add (r * 2 ^ 16) a 24 (by omega)
    rw [this]; omega
  have h2 : (a * 256 + r) * 2 ^ 16 ||| g * 2 ^ 8 = ((a * 256 + r) * 256 + g) * 2 ^ 8 := by
    have := or_shift_add (g * 2 ^ 8) (a * 256 + r) 16 (by omega)
    rw [this]; omega
  have h3 : ((a * 256 + r) * 256 + g) * 2 ^ 8 ||| b = ((a * 256 + r) * 256 + g) * 2 ^ 8 + b :=
    or_shift_add b _ 8 (by omega)
  rw [h1, h2, h3]; omega

/-- Packing four bytes least-significant first, as `pixbuf_from_argb32` does on a
little-endian machine. -/
theorem pack_lsb (r g b a : Nat) (hr : r < 256) (hg : g < 256) (hb : b < 256) (ha : a < 256) :
    r ||| shl32 g 8 ||| shl32 b 16 ||| shl32 a 24
      = r + g * 256 + b * 65536 + a * 16777216 := by
  rw [shl32_byte a 24 ha (by decide), shl32_byte b 16 hb (by decide),
    shl32_byte g 8 hg (by decide)]
  have h1 : r ||| g * 2 ^ 8 = g * 256 + r := by
    rw [Nat.lor_comm, or_shift_add r g 8 (by omega)]; omega
  have h2 : (g * 256 + r) ||| b * 2 ^ 16 = b * 65536 + (g * 256 + r) := by
    rw [Nat.lor_comm, or_shift_add _ b 16 (by omega)]; omega
  have h3 : (b * 65536 + (g * 256 + r)) ||| a * 2 ^ 24
      = a * 16777216 + (b * 65536 + (g * 256 + r)) := by
    rw [Nat.lor_comm, or_shift_add _ a 24 (by omega)]; omega
  rw [h1, h2, h3]; omega

theorem premul_alpha_lt (c a : Nat) (hc : c < 256) (ha : a < 256) : premul_alpha c a < 256 := by
  unfold premul_alpha
  have h : c * a ≤ 255 * 255 := Nat.mul_le_mul (by omega) (by omega)
  omega

theorem unpremul_lt (c a : Nat) (ha : 0 < a) (ha2 : a < 256) (hc : c ≤ a) :
    (c * 255 + a / 2) / a < 256 := by
  rw [Nat.div_lt_iff_lt_mul ha]
  have h : c * 255 ≤ a * 255 := Nat.mul_le_mul_right _ hc
  omega

/-- Arithmetic form of `argb32_from_pixbuf`. -/
theorem argb32_from_pixbuf_eq (le : Bool) (c : Nat) :
    argb32_from_pixbuf le c =
      if pixbufA le c = 0 then 0
      else pixbufA le c * 16777216 + premul_alpha (pixbufR le c) (pixbufA le c) * 65536
        + premul_alpha (pixbufG le c) (pixbufA le c) * 256
        + premul_alpha (pixbufB le c) (pixbufA le c) := by
  have hA : pixbufA le c < 256 := by
    unfold pixbufA; split
    · rw [byte3]; omega
    · rw [and_ff]; omega
  have hR : pixbufR le c < 256 := by
    unfold pixbufR; split
    · rw [and_ff]; omega
    · rw [byte3]; omega
  have hG : pixbufG le c < 256 := by
    unfold pixbufG; split
    · rw [byte1]; omega
    · rw [byte2]; omega
  have hB : pixbufB le c < 256 := by
    unfold pixbufB; split
    · rw [byte2]; omega
    · rw [byte1]; omega
  show (if pixbufA le c ≠ 0 then
      shl32 (pixbufA le c) 24 ||| shl32 (premul_alpha (pixbufR le c) (pixbufA le c)) 16
        ||| shl32 (premul_alpha (pixbufG le c) (pixbufA le c)) 8
        ||| premul_alpha (pixbufB le c) (pixbufA le c)
    else 0) = _
  by_cases h0 : pixbufA le c = 0
  · simp [h0]
  · rw [if_pos h0, if_neg h0]
    exact pack_msb _ _ _ _ hA (premul_alpha_lt _ _ hR hA) (premul_alpha_lt _ _ hG hA)
      (premul_alpha_lt _ _ hB hA)

theorem argbA_lt (c : Nat) : argbA c < 256 := by
  unfold argbA; rw [byte3]; omega

theorem argbG_lt (c : Nat) : argbG c < 256 := by
  unfold argbG; rw [byte1]; omega

theorem argbB_lt (c : Nat) : argbB c < 256 := by
  unfold argbB; rw [and_ff]; omega

/-- Unfolded form of `pixbuf_from_argb32` in terms of the channel accessors. -/
theorem pixbuf_from_argb32_unfold (le : Bool) (c : Nat) :
    pixbuf_from_argb32 le c =
      if argbA c = 0 then 0
      else if le then
        (argbR c * 255 + argbA c / 2) / argbA c
          ||| shl32 ((argbG c * 255 + argbA c / 2) / argbA c) 8
          ||| shl32 ((argbB c * 255 + argbA c / 2) / argbA c) 16
          ||| shl32 (argbA c) 24
      else
        shl32 ((argbR c * 255 + argbA c / 2) / argbA c) 24
          ||| shl32 ((argbG c * 255 + argbA c / 2) / argbA c) 16
          ||| shl32 ((argbB c * 255 + argbA c / 2) / argbA c) 8
          ||| argbA c := rfl

/-- Arithmetic form of `pixbuf_from_argb32` on a valid premultiplied pixel. -/
theorem pixbuf_from_argb32_eq (le : Bool) (c : Nat) (ha : 0 < argbA c)
    (hr : argbR c ≤ argbA c) (hg : argbG c ≤ argbA c) (hb : argbB c ≤ argbA c) :
    pixbuf_from_argb32 le c =
      if le then
        (argbR c * 255 + argbA c / 2) / argbA c
          + (argbG c * 255 + argbA c / 2) / argbA c * 256
          + (argbB c * 255 + argbA c / 2) / argbA c * 65536
          + argbA c * 16777216
      else
        (argbR c * 255 + argbA c / 2) / argbA c * 16777216
          + (argbG c * 255 + argbA c / 2) / argbA c * 65536
          + (argbB c * 255 + argbA c / 2) / argbA c * 256
          + argbA c := by
  have hA := argbA_lt c
  rw [pixbuf_from_argb32_unfold, if_neg (by omega)]
  cases le
  · simp only [Bool.false_eq_true, if_false]
    exact pack_msb _ _ _ _ (unpremul_lt _ _ ha hA hr) (unpremul_lt _ _ ha hA hg)
      (unpremul_lt _ _ ha hA hb) hA
  · simp only [if_true]
    exact pack_lsb _ _ _ _ (unpremul_lt _ _ ha hA hr) (unpremul_lt _ _ ha hA hg)
      (unpremul_lt _ _ ha hA hb) hA

theorem pixbufA_lt (le : Bool) (c : Nat) : pixbufA le c < 256 := by
  unfold pixbufA; split
  · rw [byte3]; omega
  · rw [and_ff]; omega

theorem pixbufR_lt (le : Bool) (c : Nat) : pixbufR le c < 256 := by
  unfold pixbufR; split
  · rw [and_ff]; omega
  · rw [byte3]; omega

theorem pixbufG_lt (le : Bool) (c : Nat) : pixbufG le c < 256 := by
  unfold pixbufG; split
  · rw [byte1]; omega
  · rw [byte2]; omega

theorem pixbufB_lt (le : Bool) (c : Nat) : pixbufB le c < 256 := by
  unfold pixbufB; split
  · rw [byte2]; omega
  · rw [byte1]; omega

/-- Channels of an ARGB32 word given by its four bytes. -/
theorem argb_of_bytes (a r g b : Nat) (ha : a < 256) (hr : r < 256) (hg : g < 256)
    (hb : b < 256) :
    argbA (a * 16777216 + r * 65536 + g * 256 + b) = a ∧
    argbR (a * 16777216 + r * 65536 + g * 256 + b) = r ∧
    argbG (a * 16777216 + r * 65536 + g * 256 + b) = g ∧
    argbB (a * 16777216 + r * 65536 + g * 256 + b) = b := by
  unfold argbA argbR argbG argbB
  rw [byte3, byte2, byte1, and_ff]
  omega

/-- Channels of a pixbuf word given by its four bytes, in the byte order of the machine. -/
theorem pixbuf_of_bytes (le : Bool) (a r g b : Nat) (ha : a < 256) (hr : r < 256)
    (hg : g < 256) (hb : b < 256) :
    let w := if le then r + g * 256 + b * 65536 + a * 16777216
      else r * 16777216 + g * 65536 + b * 256 + a
    pixbufA le w = a ∧ pixbufR le w = r ∧ pixbufG le w = g ∧ pixbufB le w = b := by
  cases le
  · simp only [Bool.false_eq_true, if_false, pixbufA, pixbufR, pixbufG, pixbufB]
    rw [byte3, byte2, byte1, and_ff]
    omega
  · simp only [if_true, pixbufA, pixbufR, pixbufG, pixbufB]
    rw [byte3, byte2, byte1, and_ff]
    omega

theorem premul_alpha_le (c a : Nat) (hc : c < 256) : premul_alpha c a ≤ a := by
  unfold premul_alpha
  have h : c * a ≤ 255 * a := Nat.mul_le_mul_right _ (by omega)
  omega

/-- Channels of `pixbuf_from_argb32` on a valid premultiplied pixel. -/
theorem pixbuf_from_argb32_channels (le : Bool) (c : Nat) (ha : 0 < argbA c)
    (hr : argbR c ≤ argbA c) (hg : argbG c ≤ argbA c) (hb : argbB c ≤ argbA c) :
    pixbufA le (pixbuf_from_argb32 le c) = argbA c ∧
    pixbufR le (pixbuf_from_argb32 le c) = (argbR c * 255 + argbA c / 2) / argbA c ∧
    pixbufG le (pixbuf_from_argb32 le c) = (argbG c * 255 + argbA c / 2) / argbA c ∧
    pixbufB le (pixbuf_from_argb32 le c) = (argbB c * 255 + argbA c / 2) / argbA c := by
  have hA := argbA_lt c
  rw [pixbuf_from_argb32_eq le c ha hr hg hb]
  exact pixbuf_of_bytes le _ _ _ _ hA (unpremul_lt _ _ ha hA hr) (unpremul_lt _ _ ha hA hg)
    (unpremul_lt _ _ ha hA hb)

/-- Channels of `argb32_from_pixbuf` on a pixel with non-zero alpha. -/
theorem argb32_from_pixbuf_channels (le : Bool) (c : Nat) (ha : 0 < pixbufA le c) :
    argbA (argb32_from_pixbuf le c) = pixbufA le c ∧
    argbR (argb32_from_pixbuf le c) = premul_alpha (pixbufR le c) (pixbufA le c) ∧
    argbG (argb32_from_pixbuf le c) = premul_alpha (pixbufG le c) (pixbufA le c) ∧
    argbB (argb32_from_pixbuf le c) = premul_alpha (pixbufB le c) (pixbufA le c) := by
  have hA := pixbufA_lt le c
  rw [argb32_from_pixbuf_eq, if_neg (by omega)]
  exact argb_of_bytes _ _ _ _ hA (premul_alpha_lt _ _ (pixbufR_lt le c) hA)
    (premul_alpha_lt _ _ (pixbufG_lt le c) hA) (premul_alpha_lt _ _ (pixbufB_lt le c) hA)

/-- Premultiplying and dividing back loses at most 1 once alpha is at least 170. -/
theorem unpremul_premul_near (c a : Nat) (ha : 170 ≤ a) (ha2 : a < 256) :
    chanDiff ((premul_alpha c a * 255 + a / 2) / a) c ≤ 1 := by
  unfold chanDiff premul_alpha
  have hpos : 0 < a := by omega
  have hq1 : (c * a / 255 * 255 + a / 2) / a * a ≤ c * a / 255 * 255 + a / 2 :=
    Nat.div_mul_le_self _ _
  have hq2 : c * a / 255 * 255 + a / 2 < ((c * a / 255 * 255 + a / 2) / a + 1) * a := by
    have := Nat.lt_succ_self ((c * a / 255 * 255 + a / 2) / a)
    exact (Nat.div_lt_iff_lt_mul hpos).1 this
  generalize (c * a / 255 * 255 + a / 2) / a = q at hq1 hq2
  have hup : q ≤ c := by
    by_contra hlt
    have h1 : (c + 1) * a ≤ q * a := Nat.mul_le_mul_right _ (by omega)
    have h2 : (c + 1) * a = c * a + a := by ring
    omega
  have hlow : c ≤ q + 1 := by
    by_contra hlt
    have h1 : (q + 2) * a ≤ c * a := Nat.mul_le_mul_right _ (by omega)
    have h2 : (q + 2) * a = q * a + 2 * a := by ring
    have h3 : (q + 1) * a = q * a + a := by ring
    omega
  omega

/-- Dividing by alpha and premultiplying again loses at most 1 on a valid channel. -/
theorem premul_unpremul_near (c a : Nat) (ha : 0 < a) (ha2 : a < 256) :
    chanDiff (premul_alpha ((c * 255 + a / 2) / a) a) c ≤ 1 := by
  unfold chanDiff premul_alpha
  have hq1 : (c * 255 + a / 2) / a * a ≤ c * 255 + a / 2 := Nat.div_mul_le_self _ _
  have hq2 : c * 255 + a / 2 < ((c * 255 + a / 2) / a + 1) * a := by
    have := Nat.lt_succ_self ((c * 255 + a / 2) / a)
    exact (Nat.div_lt_iff_lt_mul ha).1 this
  generalize (c * 255 + a / 2) / a = s at hq1 hq2
  have h3 : (s + 1) * a = s * a + a := by ring
  omega

/-! ## Buffer lemmas -/

/-- C1 (counterexample): the little-endian pixbuf pixel `0x01000064` has alpha 1 and red 100;
premultiplying gives red 0 and converting back gives red 0, which differs from 100 by more
than 1. -/
theorem pixbuf_roundtrip_not_within_one :
    (0x01000064 : Nat) < 2 ^ 32 ∧ 0 < pixbufA true 0x01000064 ∧
      pixbufR true 0x01000064 = 100 ∧
      pixbufR true (pixbufRoundTrip true 0x01000064) = 0 ∧
      ¬ PixbufWithinOne true (pixbufRoundTrip true 0x01000064) 0x01000064 := by
  unfold PixbufWithinOne
  decide

/-- C1 (amended): for every straight-alpha pixel `x` whose alpha channel is at least 170,
`pixbuf_from_argb32 (argb32_from_pixbuf x)` has the alpha of `x`, and its red, green and blue
channels each differ from the corresponding channel of `x` by at most 1. -/
theorem pixbuf_roundtrip_within_one (le : Bool) (x : Nat) (ha : 170 ≤ pixbufA le x) :
    pixbufA le (pixbufRoundTrip le x) = pixbufA le x ∧
      PixbufWithinOne le (pixbufRoundTrip le x) x := by
  have hA := pixbufA_lt le x
  obtain ⟨e0, e1, e2, e3⟩ := argb32_from_pixbuf_channels le x (by omega)
  have hr : argbR (argb32_from_pixbuf le x) ≤ argbA (argb32_from_pixbuf le x) := by
    rw [e0, e1]; exact premul_alpha_le _ _ (pixbufR_lt le x)
  have hg : argbG (argb32_from_pixbuf le x) ≤ argbA (argb32_from_pixbuf le x) := by
    rw [e0, e2]; exact premul_alpha_le _ _ (pixbufG_lt le x)
  have hb : argbB (argb32_from_pixbuf le x) ≤ argbA (argb32_from_pixbuf le x) := by
    rw [e0, e3]; exact premul_alpha_le _ _ (pixbufB_lt le x)
  obtain ⟨f0, f1, f2, f3⟩ :=
    pixbuf_from_argb32_channels le (argb32_from_pixbuf le x) (by rw [e0]; omega) hr hg hb
  unfold PixbufWithinOne pixbufRoundTrip
  rw [f0, f1, f2, f3, e0, e1, e2, e3]
  exact ⟨rfl, unpremul_premul_near _ _ ha hA, unpremul_premul_near _ _ ha hA,
    unpremul_premul_near _ _ ha hA⟩

/-- Witness of `pixbuf_roundtrip_within_one` (C1) at the pixel `0xAA123456`, of alpha 170. -/
theorem pixbuf_roundtrip_within_one_witness :
    170 ≤ pixbufA true 0xAA123456 ∧
      pixbufA true (pixbufRoundTrip true 0xAA123456) = pixbufA true 0xAA123456 ∧
      PixbufWithinOne true (pixbufRoundTrip true 0xAA123456) 0xAA123456 :=
  ⟨by decide, pixbuf_roundtrip_within_one true 0xAA123456 (by decide)⟩

/-- C2: for every pixel whose alpha channel is 0, whatever its colour channels,
`argb32_from_pixbuf` returns 0 and `pixbuf_from_argb32` returns 0. -/
theorem zero_alpha_gives_zero (le : Bool) (x : Nat) :
    (pixbufA le x = 0 → argb32_from_pixbuf le x = 0) ∧
      (argbA x = 0 → pixbuf_from_argb32 le x = 0) := by
  constructor
  · intro h
    rw [argb32_from_pixbuf_eq, if_pos h]
  · intro h
    rw [pixbuf_from_argb32_unfold, if_pos h]

/-- Witness of `zero_alpha_gives_zero` (C2) at the pixel `0x00C0FFEE`, whose alpha byte is 0
in ARGB32 and in little-endian pixbuf format. -/
theorem zero_alpha_gives_zero_witness :
    pixbufA true 0x00C0FFEE = 0 ∧ argbA 0x00C0FFEE = 0 ∧
      argb32_from_pixbuf true 0x00C0FFEE = 0 ∧ pixbuf_from_argb32 true 0x00C0FFEE = 0 :=
  ⟨by decide, by decide, (zero_alpha_gives_zero true 0x00C0FFEE).1 (by decide),
    (zero_alpha_gives_zero true 0x00C0FFEE).2 (by decide)⟩

/-- C3: for every straight-alpha pixel with alpha `a > 0` and colour channels `r`, `g`, `b`,
`argb32_from_pixbuf` returns `(a << 24) | (r' << 16) | (g' << 8) | b'` where each
premultiplied channel `c'` is `⌊c * a / 255⌋`. -/
theorem argb32_from_pixbuf_word (le : Bool) (x : Nat) (ha : 0 < pixbufA le x) :
    argb32_from_pixbuf le x =
      (pixbufA le x <<< 24) ||| ((pixbufR le x * pixbufA le x / 255) <<< 16)
        ||| ((pixbufG le x * pixbufA le x / 255) <<< 8)
        ||| (pixbufB le x * pixbufA le x / 255) := by
  have hA := pixbufA_lt le x
  have hR := premul_alpha_lt _ _ (pixbufR_lt le x) hA
  have hG := premul_alpha_lt _ _ (pixbufG_lt le x) hA
  have hB := premul_alpha_lt _ _ (pixbufB_lt le x) hA
  rw [argb32_from_pixbuf_eq, if_neg (by omega),
    ← pack_msb _ _ _ _ hA hR hG hB, shl32_byte _ 24 hA (by decide),
    shl32_byte _ 16 hR (by decide), shl32_byte _ 8 hG (by decide)]
  simp only [Nat.shiftLeft_eq, premul_alpha]

/-- Witness of `argb32_from_pixbuf_word` (C3) at the little-endian pixel `0x80FF8040`. -/
theorem argb32_from_pixbuf_word_witness :
    0 < pixbufA true 0x80FF8040 ∧ argb32_from_pixbuf true 0x80FF8040 = 0x80204080 :=
  ⟨by decide, (argb32_from_pixbuf_word true 0x80FF8040 (by decide)).trans (by decide)⟩

/-- C4 (counterexample): the ARGB32 pixel `0x010000FF` has alpha 1 and blue 255; on a
little-endian machine `pixbuf_from_argb32` returns `0xFF010000`, whose alpha channel is 255
instead of 1 and whose blue channel is 1 instead of `(255 * 255 + 0) / 1 = 65025`. -/
theorem pixbuf_from_argb32_channel_overflow :
    (0x010000FF : Nat) < 2 ^ 32 ∧ 0 < argbA 0x010000FF ∧
      pixbuf_from_argb32 true 0x010000FF = 0xFF010000 ∧
      pixbufA true (pixbuf_from_argb32 true 0x010000FF) ≠ argbA 0x010000FF ∧
      pixbufB true (pixbuf_from_argb32 true 0x010000FF)
        ≠ (argbB 0x010000FF * 255 + argbA 0x010000FF / 2) / argbA 0x010000FF := by
  decide

/-- C4 (amended): for every premultiplied ARGB pixel with alpha `a > 0` whose colour channels
are each at most `a`, `pixbuf_from_argb32` returns a pixel whose alpha channel is `a` and
whose red, green and blue channels are each `(c * 255 + a/2) / a` of the input channel `c`. -/
theorem pixbuf_from_argb32_valid (le : Bool) (p : Nat) (ha : 0 < argbA p)
    (hr : argbR p ≤ argbA p) (hg : argbG p ≤ argbA p) (hb : argbB p ≤ argbA p) :
    pixbufA le (pixbuf_from_argb32 le p) = argbA p ∧
      pixbufR le (pixbuf_from_argb32 le p) = (argbR p * 255 + argbA p / 2) / argbA p ∧
      pixbufG le (pixbuf_from_argb32 le p) = (argbG p * 255 + argbA p / 2) / argbA p ∧
      pixbufB le (pixbuf_from_argb32 le p) = (argbB p * 255 + argbA p / 2) / argbA p :=
  pixbuf_from_argb32_channels le p ha hr hg hb

/-- Witness of `pixbuf_from_argb32_valid` (C4) at the pixel `0x80204080`. -/
theorem pixbuf_from_argb32_valid_witness :
    0 < argbA 0x80204080 ∧ argbR 0x80204080 ≤ argbA 0x80204080 ∧
      pixbufA false (pixbuf_from_argb32 false 0x80204080) = 0x80 ∧
      pixbufR false (pixbuf_from_argb32 false 0x80204080) = 64 :=
  ⟨by decide, by decide,
    (pixbuf_from_argb32_valid false 0x80204080 (by decide) (by decide) (by decide)
      (by decide)).1.trans (by decide),
    (pixbuf_from_argb32_valid false 0x80204080 (by decide) (by decide) (by decide)
      (by decide)).2.1.trans (by decide)⟩

/-- C5: for every valid premultiplied ARGB pixel `p` (alpha > 0, each colour channel at most
alpha), `argb32_from_pixbuf (pixbuf_from_argb32 p)` has the same alpha as `p` and each colour
channel differs from that of `p` by at most 1. -/
theorem argb_roundtrip_within_one (le : Bool) (p : Nat) (ha : 0 < argbA p)
    (hr : argbR p ≤ argbA p) (hg : argbG p ≤ argbA p) (hb : argbB p ≤ argbA p) :
    argbA (argbRoundTrip le p) = argbA p ∧ ArgbWithinOne (argbRoundTrip le p) p := by
  have hA := argbA_lt p
  obtain ⟨f0, f1, f2, f3⟩ := pixbuf_from_argb32_channels le p ha hr hg hb
  obtain ⟨e0, e1, e2, e3⟩ :=
    argb32_from_pixbuf_channels le (pixbuf_from_argb32 le p) (by rw [f0]; exact ha)
  unfold ArgbWithinOne argbRoundTrip
  rw [e0, e1, e2, e3, f0, f1, f2, f3]
  exact ⟨rfl, premul_unpremul_near _ _ ha hA, premul_unpremul_near _ _ ha hA,
    premul_unpremul_near _ _ ha hA⟩

/-- Witness of `argb_roundtrip_within_one` (C5) at the pixel `0x03010203`, of alpha 3. -/
theorem argb_roundtrip_within_one_witness :
    0 < argbA 0x03010203 ∧ argbR 0x03010203 ≤ argbA 0x03010203 ∧
      argbG 0x03010203 ≤ argbA 0x03010203 ∧ argbB 0x03010203 ≤ argbA 0x03010203 ∧
      argbA (argbRoundTrip true 0x03010203) = argbA 0x03010203 ∧
      ArgbWithinOne (argbRoundTrip true 0x03010203) 0x03010203 :=
  ⟨by decide, by decide, by decide, by decide,
    argb_roundtrip_within_one true 0x03010203 (by decide) (by decide) (by decide) (by decide)⟩

theorem point_transform_mul (p : Point) (m0 m1 : Affine) :
    p.transform (m0.mul m1) = (p.transform m0).transform m1 := by
  simp only [Point.transform, Affine.mul, Point.mk.injEq]
  constructor <;> ring

theorem point_transform_translate_neg (p s : Point) :
    p.transform (Affine.translate s.neg) = p.sub s := by
  simp only [Point.transform, Affine.translate, Point.neg, Point.sub, Point.mk.injEq]
  constructor <;> ring

theorem interval_expandTo_ofEnds (a b c d : ℚ) :
    ((Interval.ofEnds a d).expandTo b).expandTo c
      = ⟨min (min a b) (min c d), max (max a b) (max c d)⟩ := by
  unfold Interval.ofEnds Interval.expandTo
  rw [Interval.mk.injEq]
  constructor
  · simp only [min_def]
    split_ifs <;> simp_all <;> linarith
  · simp only [max_def]
    split_ifs <;> simp_all <;> linarith

theorem rect_expandTo_ofPoints (a b c d : Point) :
    ((Rect.ofPoints a d).expandTo b).expandTo c = boundingBox4 a b c d := by
  unfold Rect.ofPoints Rect.expandTo boundingBox4
  simp only [interval_expandTo_ofEnds]

theorem feed_curves_to_cairo_eq (trans : Affine) (view : Rect) (opt : Bool)
    (cs : List Curve) :
    feed_curves_to_cairo trans view opt cs
      = (cs.map (feed_curve_to_cairo trans view opt)).flatten := by
  induction cs with
  | nil => simp [feed_curves_to_cairo]
  | cons c cs ih => simp [feed_curves_to_cairo, ih]

/-! ## Claims on the per-segment policy and the path feeder -/

/-- C7: for every straight segment, transform and view rectangle, `feed_curve_to_cairo` emits
exactly one command: without optimization `lineTo` of the transformed end point; with
optimization `lineTo` of it when the rectangle spanned by the two transformed end points
intersects the view rectangle and `moveTo` of it when it does not. -/
theorem feed_curve_straight (trans : Affine) (view : Rect) (p0 p1 : Point) :
    feed_curve_to_cairo trans view false (Curve.line p0 p1)
        = [Cmd.lineTo (p1.transform trans)] ∧
      feed_curve_to_cairo trans view true (Curve.line p0 p1)
        = (if (Rect.ofPoints (p0.transform trans) (p1.transform trans)).intersects view
            then [Cmd.lineTo (p1.transform trans)]
            else [Cmd.moveTo (p1.transform trans)]) := by
  constructor <;> simp [feed_curve_to_cairo]

/-- C8 (counterexample): the quadratic segment with control points (0,0), (3,3), (6,0), fed
with the identity transform and optimization off, gives `curveTo((2,2), (4,2), (6,0))`,
whereas `P2 + 1/3 (P1 - P2)` is the point (5,1). -/
theorem feed_curve_quadratic_not_one_third :
    feed_curve_to_cairo Affine.identity Rect.default false
        (Curve.quadratic ⟨0, 0⟩ ⟨3, 3⟩ ⟨6, 0⟩)
        = [Cmd.curveTo ⟨2, 2⟩ ⟨4, 2⟩ ⟨6, 0⟩] ∧
      Point.add ⟨6, 0⟩ (Point.scale (1 / 3) (Point.sub ⟨3, 3⟩ ⟨6, 0⟩)) = ⟨5, 1⟩ ∧
      feed_curve_to_cairo Affine.identity Rect.default false
        (Curve.quadratic ⟨0, 0⟩ ⟨3, 3⟩ ⟨6, 0⟩)
        ≠ [Cmd.curveTo
            (Point.add ⟨0, 0⟩ (Point.scale (2 / 3) (Point.sub ⟨3, 3⟩ ⟨0, 0⟩)))
            (Point.add ⟨6, 0⟩ (Point.scale (1 / 3) (Point.sub ⟨3, 3⟩ ⟨6, 0⟩)))
            ⟨6, 0⟩] := by
  refine ⟨?_, ?_, ?_⟩ <;>
    norm_num [feed_curve_to_cairo, Affine.identity, Point.transform, Point.add, Point.scale,
      Point.sub]

/-- C8 (amended): for every quadratic segment with transformed control points `P0`, `P1`,
`P2` that is drawn (optimization off, or the bounding box of its control points intersects
the view), `feed_curve_to_cairo` emits `curveTo(b1, b2, P2)` with `b1 = P0 + 2/3 (P1 - P0)`
and `b2 = P2 + 2/3 (P1 - P2)`. -/
theorem feed_curve_quadratic_elevation (trans : Affine) (view : Rect) (opt : Bool)
    (q0 q1 q2 : Point)
    (hdraw : opt = false ∨
      ((Rect.ofPoints (q0.transform trans) (q2.transform trans)).expandTo
        (q1.transform trans)).intersects view = true) :
    feed_curve_to_cairo trans view opt (Curve.quadratic q0 q1 q2)
      = [Cmd.curveTo
          ((q0.transform trans).add
            (Point.scale (2 / 3) ((q1.transform trans).sub (q0.transform trans))))
          ((q2.transform trans).add
            (Point.scale (2 / 3) ((q1.transform trans).sub (q2.transform trans))))
          (q2.transform trans)] := by
  have hb2 : ((q0.transform trans).add
        (Point.scale (2 / 3) ((q1.transform trans).sub (q0.transform trans)))).add
        (Point.scale (1 / 3) ((q2.transform trans).sub (q0.transform trans)))
      = (q2.transform trans).add
        (Point.scale (2 / 3) ((q1.transform trans).sub (q2.transform trans))) := by
    simp only [Point.add, Point.scale, Point.sub, Point.mk.injEq]
    constructor <;> ring
  rcases hdraw with h | h
  · subst h
    simp only [feed_curve_to_cairo, Bool.not_false, if_true, hb2]
  · cases opt
    · simp only [feed_curve_to_cairo, Bool.not_false, if_true, hb2]
    · simp only [feed_curve_to_cairo, Bool.not_true, Bool.false_eq_true, if_false, h, if_true,
        hb2]

/-- Witness of `feed_curve_quadratic_elevation` (C8): the quadratic (0,0), (3,3), (6,0) with
optimization off. -/
theorem feed_curve_quadratic_elevation_witness :
    feed_curve_to_cairo Affine.identity Rect.default false
        (Curve.quadratic ⟨0, 0⟩ ⟨3, 3⟩ ⟨6, 0⟩)
      = [Cmd.curveTo ⟨2, 2⟩ ⟨4, 2⟩ ⟨6, 0⟩] :=
  (feed_curve_quadratic_elevation Affine.identity Rect.default false ⟨0, 0⟩ ⟨3, 3⟩ ⟨6, 0⟩
    (Or.inl rfl)).trans
    (by norm_num [Affine.identity, Point.transform, Point.add, Point.scale, Point.sub])

/-- C9: for every cubic segment with control points `p0..p3`, transform `T` and view
rectangle: without optimization `feed_curve_to_cairo` emits exactly
`curveTo(p1*T, p2*T, p3*T)`; with optimization it emits that same `curveTo` when the bounding
box of the four transformed points intersects the view rectangle, and otherwise exactly
`moveTo(p3*T)`. -/
theorem feed_curve_cubic (trans : Affine) (view : Rect) (p0 p1 p2 p3 : Point) :
    feed_curve_to_cairo trans view false (Curve.cubic p0 p1 p2 p3)
        = [Cmd.curveTo (p1.transform trans) (p2.transform trans) (p3.transform trans)] ∧
      feed_curve_to_cairo trans view true (Curve.cubic p0 p1 p2 p3)
        = (if (boundingBox4 (p0.transform trans) (p1.transform trans) (p2.transform trans)
              (p3.transform trans)).intersects view
            then [Cmd.curveTo (p1.transform trans) (p2.transform trans) (p3.transform trans)]
            else [Cmd.moveTo (p3.transform trans)]) := by
  constructor
  · simp [feed_curve_to_cairo]
  · simp [feed_curve_to_cairo, rect_expandTo_ofPoints]

/-- C10: for every non-empty path fed through the transform and clip overload of
`feed_path_to_cairo` with a present area, the commands are: `moveTo` of the initial point
transformed by `trans` and then translated by `-area.min`; the per-segment commands of
every segment but the implicit closing one, in path order; and, only when the path is closed,
one final command, `closePath` when not optimizing and `lineTo` of that same transformed
initial point when optimizing. -/
theorem feed_path_to_cairo_trans_commands (path : Path) (trans : Affine) (area : Rect)
    (opt : Bool) (stroke_width : ℚ) (hne : path.empty = false) :
    feed_path_to_cairo_trans path trans (some area) opt stroke_width
      = [Cmd.moveTo ((path.initialPoint.transform trans).sub area.minPoint)]
        ++ (path.curves.map (feed_curve_to_cairo (pathTransform trans area)
              (pathView area stroke_width) opt)).flatten
        ++ (if path.closed then
              (if opt then [Cmd.lineTo ((path.initialPoint.transform trans).sub area.minPoint)]
               else [Cmd.closePath])
            else []) := by
  have hinit : path.initialPoint.transform (trans.mul (Affine.translate area.minPoint.neg))
      = (path.initialPoint.transform trans).sub area.minPoint := by
    rw [point_transform_mul, point_transform_translate_neg]
  unfold feed_path_to_cairo_trans
  simp only [hne, Bool.false_eq_true, if_false, hinit, feed_curves_to_cairo_eq, pathTransform,
    pathView]
  cases opt <;> simp

/-- Witness of `feed_path_to_cairo_trans_commands` (C10): a closed path of one straight
segment from (1,1) to (2,1), fed with the identity transform, the area from (1,1) to (3,3),
optimization on and stroke width 0. -/
theorem feed_path_to_cairo_trans_commands_witness :
    Path.empty ⟨⟨1, 1⟩, [Curve.line ⟨1, 1⟩ ⟨2, 1⟩], true⟩ = false ∧
      feed_path_to_cairo_trans ⟨⟨1, 1⟩, [Curve.line ⟨1, 1⟩ ⟨2, 1⟩], true⟩ Affine.identity
          (some ⟨⟨1, 3⟩, ⟨1, 3⟩⟩) true 0
        = [Cmd.moveTo ⟨0, 0⟩, Cmd.lineTo ⟨1, 0⟩, Cmd.lineTo ⟨0, 0⟩] :=
  ⟨rfl,
    (feed_path_to_cairo_trans_commands ⟨⟨1, 1⟩, [Curve.line ⟨1, 1⟩ ⟨2, 1⟩], true⟩
      Affine.identity ⟨⟨1, 3⟩, ⟨1, 3⟩⟩ true 0 rfl).trans
      (by norm_num [feed_curve_to_cairo, pathTransform, pathView, Affine.identity, Affine.mul,
        Affine.translate, Point.transform, Point.sub, Point.neg, Rect.minPoint, Rect.expandBy,
        Rect.transform, Rect.ofPoints, Rect.expandTo, Rect.intersects, Interval.expandBy,
        Interval.ofEnds, Interval.expandTo, Interval.intersects, Interval.contains])⟩

/-! ## Path vectors and approximated segments -/

theorem feed_paths_to_cairo_trans_eq (trans : Affine) (area : Option Rect) (opt : Bool)
    (sw : ℚ) (ps : List Path) :
    feed_paths_to_cairo_trans trans area opt sw ps
      = (ps.map (fun p => feed_path_to_cairo_trans p trans area opt sw)).flatten := by
  induction ps with
  | nil => simp [feed_paths_to_cairo_trans]
  | cons p ps ih => simp [feed_paths_to_cairo_trans, ih]

theorem feed_paths_to_cairo_eq (ps : List Path) :
    feed_paths_to_cairo ps = (ps.map feed_path_to_cairo).flatten := by
  induction ps with
  | nil => simp [feed_paths_to_cairo]
  | cons p ps ih => simp [feed_paths_to_cairo, ih]

theorem feed_path_to_cairo_empty (p : Path) (h : p.empty = true) : feed_path_to_cairo p = [] := by
  simp [feed_path_to_cairo, h]

theorem feed_path_to_cairo_trans_empty (p : Path) (trans : Affine) (area : Option Rect)
    (opt : Bool) (sw : ℚ) (h : p.empty = true) :
    feed_path_to_cairo_trans p trans area opt sw = [] := by
  cases area <;> simp [feed_path_to_cairo_trans, h]

theorem feed_pathvector_to_cairo_eq (pathv : List Path) :
    feed_pathvector_to_cairo pathv = (pathv.map feed_path_to_cairo).flatten := by
  unfold feed_pathvector_to_cairo
  cases pathv with
  | nil => simp
  | cons p ps => simp [feed_paths_to_cairo_eq]

theorem feed_pathvector_to_cairo_trans_eq (pathv : List Path) (trans : Affine) (area : Rect)
    (opt : Bool) (sw : ℚ) :
    feed_pathvector_to_cairo_trans pathv trans (some area) opt sw
      = (pathv.map (fun p => feed_path_to_cairo_trans p trans (some area) opt sw)).flatten := by
  unfold feed_pathvector_to_cairo_trans
  cases pathv with
  | nil => simp
  | cons p ps => simp [feed_paths_to_cairo_trans_eq]

theorem feed_pathvector_to_cairo_trans_none (pathv : List Path) (trans : Affine) (opt : Bool)
    (sw : ℚ) : feed_pathvector_to_cairo_trans pathv trans none opt sw = [] := rfl

theorem feed_curve_length_one (trans : Affine) (view : Rect) (opt : Bool) (c : Curve)
    (h : c.isStraightOrCubic = true) : (feed_curve_to_cairo trans view opt c).length = 1 := by
  cases c with
  | line p0 p1 =>
    cases opt
    · simp [feed_curve_to_cairo]
    · simp only [feed_curve_to_cairo, Bool.not_true, Bool.false_eq_true, if_false]
      split <;> rfl
  | quadratic q0 q1 q2 => simp [Curve.isStraightOrCubic] at h
  | cubic c0 c1 c2 c3 =>
    cases opt
    · simp [feed_curve_to_cairo]
    · simp only [feed_curve_to_cairo, Bool.not_true, Bool.false_eq_true, if_false]
      split <;> rfl
  | other approx => simp [Curve.isStraightOrCubic] at h

theorem recursionDepth_straightOrCubic (c : Curve) (h : c.isStraightOrCubic = true) :
    recursionDepth c = 0 := by
  cases c <;> simp_all [Curve.isStraightOrCubic, recursionDepth]

theorem recursionDepthMax_zero (cs : List Curve)
    (h : ∀ c ∈ cs, Curve.isStraightOrCubic c = true) : recursionDepthMax cs = 0 := by
  induction cs with
  | nil => simp [recursionDepthMax]
  | cons c cs ih =>
    have h1 := recursionDepth_straightOrCubic c (h c (List.mem_cons_self _ _))
    have h2 := ih (fun d hd => h d (List.mem_cons_of_mem _ hd))
    simp [recursionDepthMax, h1, h2]

theorem feed_curves_length (trans : Affine) (view : Rect) (opt : Bool) (cs : List Curve)
    (h : ∀ c ∈ cs, Curve.isStraightOrCubic c = true) :
    (feed_curves_to_cairo trans view opt cs).length = cs.length := by
  induction cs with
  | nil => simp [feed_curves_to_cairo]
  | cons c cs ih =>
    have h1 := feed_curve_length_one trans view opt c (h c (List.mem_cons_self _ _))
    have h2 := ih (fun d hd => h d (List.mem_cons_of_mem _ hd))
    simp [feed_curves_to_cairo, h1, h2]; omega

theorem approxNonemptyAll_of_straightOrCubic (cs : List Curve)
    (h : ∀ c ∈ cs, Curve.isStraightOrCubic c = true) : approxNonemptyAll cs = true := by
  induction cs with
  | nil => simp [approxNonemptyAll]
  | cons c cs ih =>
    have h1 : approxNonempty c = true := by
      have := h c (List.mem_cons_self _ _)
      cases c <;> simp_all [Curve.isStraightOrCubic, approxNonempty]
    simp [approxNonemptyAll, h1, ih (fun d hd => h d (List.mem_cons_of_mem _ hd))]

mutual
theorem feed_curve_ne_nil (trans : Affine) (view : Rect) (opt : Bool) :
    ∀ c : Curve, approxNonempty c = true → feed_curve_to_cairo trans view opt c ≠ []
  | .line p0 p1, _ => by
    cases opt
    · simp [feed_curve_to_cairo]
    · simp only [feed_curve_to_cairo, Bool.not_true, Bool.false_eq_true, if_false]
      split <;> simp
  | .quadratic q0 q1 q2, _ => by
    cases opt
    · simp [feed_curve_to_cairo]
    · simp only [feed_curve_to_cairo, Bool.not_true, Bool.false_eq_true, if_false]
      split <;> simp
  | .cubic c0 c1 c2 c3, _ => by
    cases opt
    · simp [feed_curve_to_cairo]
    · simp only [feed_curve_to_cairo, Bool.not_true, Bool.false_eq_true, if_false]
      split <;> simp
  | .other approx, h => by
    simp only [approxNonempty, Bool.and_eq_true, Bool.not_eq_true', List.isEmpty_eq_false] at h
    rw [feed_curve_to_cairo]
    exact feed_curves_ne_nil trans view opt approx h.2 (by
      intro hnil; rw [hnil] at h; simp at h)
theorem feed_curves_ne_nil (trans : Affine) (view : Rect) (opt : Bool) :
    ∀ cs : List Curve, approxNonemptyAll cs = true → cs ≠ [] →
      feed_curves_to_cairo trans view opt cs ≠ []
  | [], _, hne => absurd rfl hne
  | c :: cs, h, _ => by
    simp only [approxNonemptyAll, Bool.and_eq_true] at h
    rw [feed_curves_to_cairo]
    intro hnil
    exact feed_curve_ne_nil trans view opt c h.1 (List.append_eq_nil.1 hnil).1
end

/-- C11: feeding an empty path vector, or one all of whose paths are empty, emits no command,
in both overloads of `feed_pathvector_to_cairo` and for every transform, area, optimize flag
and stroke width; an empty path inside a path vector contributes no command. -/
theorem feed_pathvector_empty_noop (trans : Affine) (area : Option Rect) (opt : Bool)
    (sw : ℚ) :
    (feed_pathvector_to_cairo [] = [] ∧
      feed_pathvector_to_cairo_trans [] trans area opt sw = []) ∧
    (∀ pathv : List Path, (∀ p ∈ pathv, Path.empty p = true) →
      feed_pathvector_to_cairo pathv = [] ∧
      feed_pathvector_to_cairo_trans pathv trans area opt sw = []) ∧
    (∀ (pre post : List Path) (p : Path), Path.empty p = true →
      feed_pathvector_to_cairo (pre ++ p :: post) = feed_pathvector_to_cairo (pre ++ post) ∧
      feed_pathvector_to_cairo_trans (pre ++ p :: post) trans area opt sw
        = feed_pathvector_to_cairo_trans (pre ++ post) trans area opt sw) := by
  refine ⟨⟨rfl, by cases area <;> rfl⟩, ?_, ?_⟩
  · intro pathv h
    constructor
    · rw [feed_pathvector_to_cairo_eq]
      simp only [List.flatten_eq_nil_iff, List.mem_map]
      rintro l ⟨p, hp, rfl⟩
      exact feed_path_to_cairo_empty p (h p hp)
    · cases area with
      | none => rfl
      | some a =>
        rw [feed_pathvector_to_cairo_trans_eq]
        simp only [List.flatten_eq_nil_iff, List.mem_map]
        rintro l ⟨p, hp, rfl⟩
        exact feed_path_to_cairo_trans_empty p trans _ opt sw (h p hp)
  · intro pre post p h
    constructor
    · simp [feed_pathvector_to_cairo_eq, feed_path_to_cairo_empty p h]
    · cases area with
      | none => rfl
      | some a =>
        simp [feed_pathvector_to_cairo_trans_eq, feed_path_to_cairo_trans_empty p trans _ opt sw h]

/-- Witness of `feed_pathvector_empty_noop` (C11): a path vector of two empty paths, and an
empty path put after a closed path of one straight segment. -/
theorem feed_pathvector_empty_noop_witness :
    feed_pathvector_to_cairo [⟨⟨0, 0⟩, [], false⟩, ⟨⟨1, 1⟩, [], true⟩] = [] ∧
      feed_pathvector_to_cairo ([⟨⟨0, 0⟩, [Curve.line ⟨0, 0⟩ ⟨1, 0⟩], true⟩]
          ++ ⟨⟨5, 5⟩, [], true⟩ :: [])
        = feed_pathvector_to_cairo ([⟨⟨0, 0⟩, [Curve.line ⟨0, 0⟩ ⟨1, 0⟩], true⟩] ++ []) :=
  ⟨((feed_pathvector_empty_noop Affine.identity none false 0).2.1
      [⟨⟨0, 0⟩, [], false⟩, ⟨⟨1, 1⟩, [], true⟩]
      (by intro p hp; simp at hp; rcases hp with rfl | rfl <;> rfl)).1,
    ((feed_pathvector_empty_noop Affine.identity none false 0).2.2
      [⟨⟨0, 0⟩, [Curve.line ⟨0, 0⟩ ⟨1, 0⟩], true⟩] [] ⟨⟨5, 5⟩, [], true⟩ rfl).1⟩

/-- C12: when the visible-area argument is absent, the transform and clip overload of
`feed_pathvector_to_cairo` emits no command, for every path vector, transform and stroke
width, with `optimize_stroke` true (and also with it false); so does the transform and clip
overload of `feed_path_to_cairo` for every path. -/
theorem feed_pathvector_absent_area_noop (pathv : List Path) (path : Path) (trans : Affine)
    (opt : Bool) (sw : ℚ) :
    feed_pathvector_to_cairo_trans pathv trans none true sw = [] ∧
      feed_pathvector_to_cairo_trans pathv trans none opt sw = [] ∧
      feed_path_to_cairo_trans path trans none opt sw = [] :=
  ⟨rfl, rfl, rfl⟩

/-- C13: for a segment that is neither straight, quadratic nor cubic, `feed_curve_to_cairo`
returns the concatenation, in order, of the per-segment policy applied with the same
transform, view and optimize flag to each piece of its cubic approximation; when every piece
is a straight or cubic segment the recursion has depth one and each piece gives one command;
and when the approximations met are non-empty the output has at least one command. -/
theorem feed_curve_other (trans : Affine) (view : Rect) (opt : Bool) (approx : List Curve) :
    feed_curve_to_cairo trans view opt (Curve.other approx)
        = (approx.map (feed_curve_to_cairo trans view opt)).flatten ∧
    ((∀ c ∈ approx, Curve.isStraightOrCubic c = true) →
      recursionDepth (Curve.other approx) = 1 ∧
      (feed_curve_to_cairo trans view opt (Curve.other approx)).length = approx.length ∧
      (approx ≠ [] → 1 ≤ (feed_curve_to_cairo trans view opt (Curve.other approx)).length)) ∧
    (approxNonempty (Curve.other approx) = true →
      1 ≤ (feed_curve_to_cairo trans view opt (Curve.other approx)).length) := by
  refine ⟨?_, ?_, ?_⟩
  · rw [feed_curve_to_cairo, feed_curves_to_cairo_eq]
  · intro h
    have hlen : (feed_curve_to_cairo trans view opt (Curve.other approx)).length
        = approx.length := by
      rw [feed_curve_to_cairo]; exact feed_curves_length trans view opt approx h
    refine ⟨?_, hlen, ?_⟩
    · rw [recursionDepth, recursionDepthMax_zero approx h]
    · intro hne
      rw [hlen]
      exact List.length_pos.2 hne
  · intro h
    exact List.length_pos.2 (feed_curve_ne_nil trans view opt _ h)

/-- Witness of `feed_curve_other` (C13): a segment approximated by a cubic piece followed by a
straight piece, fed with the identity transform and optimization off. -/
theorem feed_curve_other_witness :
    (∀ c ∈ [Curve.cubic ⟨0, 0⟩ ⟨1, 1⟩ ⟨2, 1⟩ ⟨3, 0⟩, Curve.line ⟨3, 0⟩ ⟨4, 0⟩],
        Curve.isStraightOrCubic c = true) ∧
      recursionDepth
        (Curve.other [Curve.cubic ⟨0, 0⟩ ⟨1, 1⟩ ⟨2, 1⟩ ⟨3, 0⟩, Curve.line ⟨3, 0⟩ ⟨4, 0⟩]) = 1 ∧
      (feed_curve_to_cairo Affine.identity Rect.default false
        (Curve.other [Curve.cubic ⟨0, 0⟩ ⟨1, 1⟩ ⟨2, 1⟩ ⟨3, 0⟩,
          Curve.line ⟨3, 0⟩ ⟨4, 0⟩])).length = 2 :=
  have hall : ∀ c ∈ [Curve.cubic ⟨0, 0⟩ ⟨1, 1⟩ ⟨2, 1⟩ ⟨3, 0⟩, Curve.line ⟨3, 0⟩ ⟨4, 0⟩],
      Curve.isStraightOrCubic c = true := by
    intro c hc; simp at hc; rcases hc with rfl | rfl <;> rfl
  ⟨hall,
    ((feed_curve_other Affine.identity Rect.default false _).2.1 hall).1,
    ((feed_curve_other Affine.identity Rect.default false _).2.1 hall).2.1⟩

/-! ## Update loop lemmas -/

theorem updateCalls_append (xs ys : List Event) :
    updateCalls (xs ++ ys) = updateCalls xs + updateCalls ys := by
  induction xs with
  | nil => simp [updateCalls]
  | cons e es ih =>
    cases e <;> simp [updateCalls, ih]
    omega

theorem routerCalls_append (xs ys : List Event) :
    routerCalls (xs ++ ys) = routerCalls xs + routerCalls ys := by
  induction xs with
  | nil => simp [routerCalls]
  | cons e es ih =>
    cases e <;> simp [routerCalls, ih]
    omega

theorem updateDocument_result {W : Type} (ext : External W) (doc : SPDocument W) :
    (SPDocument._updateDocument ext doc).1 = true ↔
      (SPDocument._updateDocument ext doc).2.uflags = 0 ∧
        (SPDocument._updateDocument ext doc).2.mflags = 0 := by
  simp [SPDocument._updateDocument]

theorem updateLoop_counter_le {W : Type} (ext : External W) (c : Nat) :
    ∀ doc : SPDocument W, (updateLoop ext c doc).counter ≤ c := by
  induction c with
  | zero => intro doc; simp only [updateLoop]; split <;> simp
  | succ c ih =>
    intro doc
    simp only [updateLoop]
    split
    · simp
    · exact Nat.le_succ_of_le (ih _)

theorem updateLoop_calls {W : Type} (ext : External W) (c : Nat) :
    ∀ doc : SPDocument W,
      updateCalls (updateLoop ext c doc).events + (updateLoop ext c doc).counter = c + 1 := by
  induction c with
  | zero => intro doc; simp only [updateLoop]; split <;> simp [updateCalls]
  | succ c ih =>
    intro doc
    simp only [updateLoop]
    split
    · simp [updateCalls]; omega
    · have := ih (SPDocument._updateDocument ext doc).2
      simp only [updateCalls]; omega

theorem updateLoop_router {W : Type} (ext : External W) (c : Nat) :
    ∀ doc : SPDocument W, routerCalls (updateLoop ext c doc).events = 0 := by
  induction c with
  | zero => intro doc; simp only [updateLoop]; split <;> simp [routerCalls]
  | succ c ih =>
    intro doc
    simp only [updateLoop]
    split
    · simp [routerCalls]
    · simp only [routerCalls]; exact ih _

theorem updateLoop_clean {W : Type} (ext : External W) (c : Nat) :
    ∀ doc : SPDocument W, 0 < (updateLoop ext c doc).counter →
      (updateLoop ext c doc).doc.uflags = 0 ∧ (updateLoop ext c doc).doc.mflags = 0 := by
  induction c with
  | zero => intro doc; simp only [updateLoop]; split <;> simp
  | succ c ih =>
    intro doc
    simp only [updateLoop]
    split
    · rename_i h
      intro _
      exact (updateDocument_result ext doc).1 h
    · exact ih _

theorem passLoop_two {W : Type} (ext : External W) (doc : SPDocument W) :
    passLoop ext 2 1 32 doc =
      if (firstPass ext doc).counter = 0 then firstPass ext doc
      else ⟨(secondPass ext doc).counter, (secondPass ext doc).doc,
        (firstPass ext doc).events ++ [Event.processTransaction]
          ++ (secondPass ext doc).events⟩ := by
  simp only [passLoop, firstPass, secondPass, if_true]
  split
  · rfl
  · split
    · simp
    · simp

theorem ensureUpToDate_events {W : Type} (ext : External W) (doc : SPDocument W) :
    updateCalls (SPDocument.ensureUpToDate ext doc).events
        = updateCalls (passLoop ext 2 1 32 doc).events ∧
      routerCalls (SPDocument.ensureUpToDate ext doc).events
        = routerCalls (passLoop ext 2 1 32 doc).events := by
  simp only [SPDocument.ensureUpToDate, updateCalls_append, routerCalls_append]
  constructor <;> split <;> split <;> simp [updateCalls, routerCalls]

/-- Counting identity of one call of `ensureUpToDate`: every pass invokes the updater once
more than it decrements the counter, and pass 2 runs exactly when the router did. -/
theorem passLoop_counts {W : Type} (ext : External W) (doc : SPDocument W) :
    updateCalls (passLoop ext 2 1 32 doc).events + (passLoop ext 2 1 32 doc).counter
        = 33 + routerCalls (passLoop ext 2 1 32 doc).events ∧
      routerCalls (passLoop ext 2 1 32 doc).events
        = (if (firstPass ext doc).counter = 0 then 0 else 1) := by
  rw [passLoop_two]
  have h1 := updateLoop_calls ext 32 doc
  have r1 := updateLoop_router ext 32 doc
  have h2 := updateLoop_calls ext (firstPass ext doc).counter
    (ext.processTransaction (firstPass ext doc).doc)
  have r2 := updateLoop_router ext (firstPass ext doc).counter
    (ext.processTransaction (firstPass ext doc).doc)
  split
  · rename_i h0
    simp only [firstPass] at h0 ⊢
    rw [r1]; omega
  · simp only [firstPass, secondPass, updateCalls_append, routerCalls_append, updateCalls,
      routerCalls] at h1 r1 h2 r2 ⊢
    omega

theorem ensureUpToDate_doc {W : Type} (ext : External W) (doc : SPDocument W) :
    (SPDocument.ensureUpToDate ext doc).doc.uflags = (passLoop ext 2 1 32 doc).doc.uflags ∧
      (SPDocument.ensureUpToDate ext doc).doc.mflags = (passLoop ext 2 1 32 doc).doc.mflags ∧
      (SPDocument.ensureUpToDate ext doc).doc.modified_id = 0 ∧
      (SPDocument.ensureUpToDate ext doc).doc.rerouting_handler_id = 0 := by
  simp only [SPDocument.ensureUpToDate]
  refine ⟨?_, ?_, ?_, ?_⟩ <;> split <;> split <;> simp_all

/-! ## Claims on the update loop -/

/-- C14 (counterexample): with an updater that never reports the document clean, pass 1 ends
with the counter at 0 and `ensureUpToDate` returns without any call of the router's
`processTransaction`. -/
theorem router_not_called_when_exhausted :
    (firstPass stuckExternal dirtyDocument).counter = 0 ∧
      routerCalls (SPDocument.ensureUpToDate stuckExternal dirtyDocument).events = 0 := by
  decide

/-- C14 (amended): in every call of `ensureUpToDate` the router's `processTransaction` is
invoked exactly once when pass 1 ends with the counter still positive, and not at all when
pass 1 ends with the counter at 0. -/
theorem router_calls {W : Type} (ext : External W) (doc : SPDocument W) :
    routerCalls (SPDocument.ensureUpToDate ext doc).events
      = (if (firstPass ext doc).counter = 0 then 0 else 1) := by
  rw [(ensureUpToDate_events ext doc).2]
  exact (passLoop_counts ext doc).2

/-- C15 (counterexample): with an updater that never reports the document clean, one call of
`ensureUpToDate` invokes `_updateDocument` 33 times; when the updater succeeds at once in
pass 1 and never after the router has run, it is invoked 34 times. -/
theorem update_calls_exceed_32 :
    updateCalls (SPDocument.ensureUpToDate stuckExternal dirtyDocument).events = 33 ∧
      updateCalls
        (SPDocument.ensureUpToDate reroutingExternal ⟨1, 0, true, 0, 0, false⟩).events = 34 := by
  decide

/-- C15 (amended): for every behaviour of the updater and of the router, one call of
`ensureUpToDate` decrements the shared counter at most 32 times, and the number of
`_updateDocument` invocations over both passes is the number of decrements plus one for each
pass run, hence at most 34. -/
theorem update_calls_le_34 {W : Type} (ext : External W) (doc : SPDocument W) :
    (passLoop ext 2 1 32 doc).counter ≤ 32 ∧
      updateCalls (SPDocument.ensureUpToDate ext doc).events
        = (32 - (passLoop ext 2 1 32 doc).counter) + 1
          + routerCalls (SPDocument.ensureUpToDate ext doc).events ∧
      updateCalls (SPDocument.ensureUpToDate ext doc).events ≤ 34 := by
  obtain ⟨hu, hr⟩ := ensureUpToDate_events ext doc
  obtain ⟨h1, h2⟩ := passLoop_counts ext doc
  rw [hu, hr]
  have h3 : routerCalls (passLoop ext 2 1 32 doc).events ≤ 1 := by
    rw [h2]; split <;> omega
  have h4 : (passLoop ext 2 1 32 doc).counter ≤ 32 := by
    rw [passLoop_two]
    have a1 := updateLoop_counter_le ext 32 doc
    have a2 := updateLoop_counter_le ext (firstPass ext doc).counter
      (ext.processTransaction (firstPass ext doc).doc)
    split
    · exact a1
    · simp only [firstPass, secondPass] at a1 a2 ⊢
      omega
  omega

/-- C16: when in each pass `_updateDocument` returns true before the shared counter reaches 0,
`ensureUpToDate` returns a nonzero value and leaves the root without update flags and without
modified flags. -/
theorem ensureUpToDate_converged {W : Type} (ext : External W) (doc : SPDocument W)
    (h1 : 0 < (firstPass ext doc).counter) (h2 : 0 < (secondPass ext doc).counter) :
    (SPDocument.ensureUpToDate ext doc).result = 1 ∧
      (SPDocument.ensureUpToDate ext doc).doc.uflags = 0 ∧
      (SPDocument.ensureUpToDate ext doc).doc.mflags = 0 := by
  obtain ⟨e1, e2, _, _⟩ := ensureUpToDate_doc ext doc
  have hc := updateLoop_clean ext (firstPass ext doc).counter
    (ext.processTransaction (firstPass ext doc).doc) h2
  have hp : passLoop ext 2 1 32 doc = ⟨(secondPass ext doc).counter, (secondPass ext doc).doc,
      (firstPass ext doc).events ++ [Event.processTransaction]
        ++ (secondPass ext doc).events⟩ := by
    rw [passLoop_two, if_neg (by omega)]
  refine ⟨?_, ?_, ?_⟩
  · simp only [SPDocument.ensureUpToDate, hp, h2, if_true]
  · rw [e1, hp]; exact hc.1
  · rw [e2, hp]; exact hc.2

/-- Witness of `ensureUpToDate_converged` (C16): an updater that clears the flags at its
first invocation, on a document whose root has an update flag. -/
theorem ensureUpToDate_converged_witness :
    0 < (firstPass cleaningExternal dirtyDocument).counter ∧
      0 < (secondPass cleaningExternal dirtyDocument).counter ∧
      (SPDocument.ensureUpToDate cleaningExternal dirtyDocument).result = 1 ∧
      (SPDocument.ensureUpToDate cleaningExternal dirtyDocument).doc.uflags = 0 ∧
      (SPDocument.ensureUpToDate cleaningExternal dirtyDocument).doc.mflags = 0 :=
  ⟨by decide, by decide,
    ensureUpToDate_converged cleaningExternal dirtyDocument (by decide) (by decide)⟩

/-- C17: after `ensureUpToDate` returns, `modified_id == 0` and `rerouting_handler_id == 0`,
for every starting state (also one in which `requestModified` has just registered both idle
callbacks) and whether the loop converged or the counter was exhausted. -/
theorem ensureUpToDate_no_pending_idle {W : Type} (ext : External W) (doc : SPDocument W) :
    ((SPDocument.ensureUpToDate ext doc).doc.modified_id = 0 ∧
      (SPDocument.ensureUpToDate ext doc).doc.rerouting_handler_id = 0) ∧
    ((SPDocument.ensureUpToDate ext (SPDocument.requestModified ext doc)).doc.modified_id = 0 ∧
      (SPDocument.ensureUpToDate ext
        (SPDocument.requestModified ext doc)).doc.rerouting_handler_id = 0) :=
  ⟨⟨(ensureUpToDate_doc ext doc).2.2.1, (ensureUpToDate_doc ext doc).2.2.2⟩,
    ⟨(ensureUpToDate_doc ext _).2.2.1, (ensureUpToDate_doc ext _).2.2.2⟩⟩

/-! ## Id index and resource registry lemmas -/

theorem getObjectById_some (doc : IdIndex) (id : String) :
    getObjectById doc (some id) = doc.iddef id := by
  simp only [getObjectById, g_quark_from_string]
  split
  · rfl
  · rename_i h
    simp only [ne_eq, not_not] at h
    exact h.symm

theorem bindObjectToId_bind (doc : IdIndex) (id : String) (obj : ObjRef)
    (h : doc.iddef id = none) :
    ∃ doc1, bindObjectToId doc id (some obj) = Outcome.returned doc1 ∧
      doc1.iddef = Function.update doc.iddef id (some obj) := by
  simp only [bindObjectToId, g_quark_from_string, h, if_true]
  cases doc.id_changed_signals id with
  | none => exact ⟨_, rfl, rfl⟩
  | some slots =>
    by_cases hs : slots = 0
    · simp only [hs, ne_eq, not_true_eq_false, if_false]; exact ⟨_, rfl, rfl⟩
    · simp only [ne_eq, hs, not_false_eq_true, if_true]; exact ⟨_, rfl, rfl⟩

theorem bindObjectToId_unbind (doc : IdIndex) (id : String) (h : doc.iddef id ≠ none) :
    ∃ doc1, bindObjectToId doc id none = Outcome.returned doc1 ∧
      doc1.iddef = Function.update doc.iddef id none := by
  simp only [bindObjectToId, g_quark_from_string, h, ne_eq, not_false_eq_true, if_true]
  cases doc.id_changed_signals id with
  | none => exact ⟨_, rfl, rfl⟩
  | some slots =>
    by_cases hs : slots = 0
    · simp only [hs, not_true_eq_false, if_false]; exact ⟨_, rfl, rfl⟩
    · simp only [hs, not_false_eq_true, if_true]; exact ⟨_, rfl, rfl⟩

theorem bindObjectToId_bind_aborts (doc : IdIndex) (id : String) (obj : ObjRef)
    (h : doc.iddef id ≠ none) :
    bindObjectToId doc id (some obj)
      = Outcome.aborted "assertion failed: g_hash_table_lookup(iddef, idq) == NULL" := by
  simp only [bindObjectToId, g_quark_from_string, h, if_false]

theorem bindObjectToId_unbind_aborts (doc : IdIndex) (id : String) (h : doc.iddef id = none) :
    bindObjectToId doc id none
      = Outcome.aborted "assertion failed: g_hash_table_lookup(iddef, idq) != NULL" := by
  simp only [bindObjectToId, g_quark_from_string, h, ne_eq, not_true_eq_false, if_false]

theorem addResource_rejected (info : ObjectInfo) (doc : Resources) (key : String)
    (obj : ObjRef) (h : obj ∈ doc.resources key) :
    addResource info doc (some key) (some obj) = Outcome.returned (false, doc) := by
  simp only [addResource]
  split
  · rfl
  · split
    · rfl
    · split
      · simp [h]
      · rfl

theorem removeResource_rejected (info : ObjectInfo) (doc : Resources) (key : String)
    (obj : ObjRef) (h : obj ∉ doc.resources key) :
    removeResource info doc (some key) (some obj) = Outcome.returned (false, doc) := by
  simp only [removeResource]
  split
  · rfl
  · split
    · rfl
    · split
      · split
        · rfl
        · simp [h]
      · rfl

theorem addResource_returns (info : ObjectInfo) (doc : Resources) (key : Option String)
    (object : Option ObjRef) : (addResource info doc key object).isAborted = false := by
  simp only [addResource]
  repeat' split
  all_goals rfl

theorem removeResource_returns (info : ObjectInfo) (doc : Resources) (key : Option String)
    (object : Option ObjRef) : (removeResource info doc key object).isAborted = false := by
  simp only [removeResource]
  repeat' split
  all_goals rfl

/-! ## Claims on the id index and the resource registry -/

/-- C18: binding an id that is not bound to an object with `bindObjectToId(id, obj)` makes
`getObjectById(id)` return `obj`; unbinding it then with `bindObjectToId(id, NULL)` makes
`getObjectById(id)` return NULL; and the lookup of every other id is unchanged by both
calls. -/
theorem bind_then_unbind (doc : IdIndex) (id : String) (obj : ObjRef)
    (hfree : getObjectById doc (some id) = none) :
    ∃ doc1 doc2 : IdIndex,
      bindObjectToId doc id (some obj) = Outcome.returned doc1 ∧
      getObjectById doc1 (some id) = some obj ∧
      bindObjectToId doc1 id none = Outcome.returned doc2 ∧
      getObjectById doc2 (some id) = none ∧
      ∀ other : String, other ≠ id →
        getObjectById doc1 (some other) = getObjectById doc (some other) ∧
        getObjectById doc2 (some other) = getObjectById doc (some other) := by
  rw [getObjectById_some] at hfree
  obtain ⟨doc1, hb1, hd1⟩ := bindObjectToId_bind doc id obj hfree
  have hbound : doc1.iddef id ≠ none := by rw [hd1]; simp
  obtain ⟨doc2, hb2, hd2⟩ := bindObjectToId_unbind doc1 id hbound
  refine ⟨doc1, doc2, hb1, ?_, hb2, ?_, ?_⟩
  · rw [getObjectById_some, hd1]; simp
  · rw [getObjectById_some, hd2]; simp
  · intro other hne
    simp only [getObjectById_some, hd2, hd1]
    simp [Function.update, hne]

/-- Witness of `bind_then_unbind` (C18): binding `rect1` to object 7 in an empty index. -/
theorem bind_then_unbind_witness :
    getObjectById emptyIdIndex (some "rect1") = none ∧
      ∃ doc1 doc2 : IdIndex,
        bindObjectToId emptyIdIndex "rect1" (some 7) = Outcome.returned doc1 ∧
        getObjectById doc1 (some "rect1") = some 7 ∧
        bindObjectToId doc1 "rect1" none = Outcome.returned doc2 ∧
        getObjectById doc2 (some "rect1") = none ∧
        ∀ other : String, other ≠ "rect1" →
          getObjectById doc1 (some other) = getObjectById emptyIdIndex (some other) ∧
          getObjectById doc2 (some other) = getObjectById emptyIdIndex (some other) :=
  ⟨rfl, bind_then_unbind emptyIdIndex "rect1" 7 rfl⟩

/-- C19: `bindObjectToId` is aborted by a failed assertion, and so leaves no changed index,
when a non-null object is bound to an id that is already bound and when an id that is not
bound is unbound; in particular, after one object has been bound to an id, binding a second
object to it without unbinding first is aborted. -/
theorem bindObjectToId_violations (doc : IdIndex) (id : String) (obj obj2 : ObjRef) :
    (getObjectById doc (some id) ≠ none →
      (bindObjectToId doc id (some obj)).isAborted = true ∧
      (bindObjectToId doc id (some obj)).state? = none) ∧
    (getObjectById doc (some id) = none →
      (bindObjectToId doc id none).isAborted = true ∧
      (bindObjectToId doc id none).state? = none) ∧
    (getObjectById doc (some id) = none →
      ∃ doc1, bindObjectToId doc id (some obj) = Outcome.returned doc1 ∧
        (bindObjectToId doc1 id (some obj2)).isAborted = true) := by
  rw [getObjectById_some]
  refine ⟨?_, ?_, ?_⟩
  · intro h
    rw [bindObjectToId_bind_aborts doc id obj h]
    exact ⟨rfl, rfl⟩
  · intro h
    rw [bindObjectToId_unbind_aborts doc id h]
    exact ⟨rfl, rfl⟩
  · intro h
    obtain ⟨doc1, hb1, hd1⟩ := bindObjectToId_bind doc id obj h
    refine ⟨doc1, hb1, ?_⟩
    rw [bindObjectToId_bind_aborts doc1 id obj2 (by rw [hd1]; simp)]
    rfl

/-- Witness of `bindObjectToId_violations` (C19): unbinding `rect1` in an empty index is
aborted, and so is binding object 8 to `rect1` after object 7 was bound to it. -/
theorem bindObjectToId_violations_witness :
    getObjectById emptyIdIndex (some "rect1") = none ∧
      (bindObjectToId emptyIdIndex "rect1" none).isAborted = true ∧
      ∃ doc1, bindObjectToId emptyIdIndex "rect1" (some 7) = Outcome.returned doc1 ∧
        (bindObjectToId doc1 "rect1" (some 8)).isAborted = true :=
  ⟨rfl, ((bindObjectToId_violations emptyIdIndex "rect1" 7 8).2.1 rfl).1,
    (bindObjectToId_violations emptyIdIndex "rect1" 7 8).2.2 rfl⟩

/-- C20 (counterexample): registering object 7 a second time under the key `gradient`, and
removing object 7 from an empty registry, both return `false` with the registry unchanged;
neither call is aborted. -/
theorem resource_violations_return_false :
    addResource plainObjects gradientResources (some "gradient") (some 7)
        = Outcome.returned (false, gradientResources) ∧
      (addResource plainObjects gradientResources (some "gradient") (some 7)).isAborted
        = false ∧
      removeResource plainObjects emptyResources (some "gradient") (some 7)
        = Outcome.returned (false, emptyResources) ∧
      (removeResource plainObjects emptyResources (some "gradient") (some 7)).isAborted
        = false := by
  refine ⟨?_, ?_, ?_, ?_⟩
  · exact addResource_rejected _ _ _ _ (by simp [gradientResources])
  · exact addResource_returns _ _ _ _
  · exact removeResource_rejected _ _ _ _ (by simp [emptyResources])
  · exact removeResource_returns _ _ _ _

/-- C20 (amended): `addResource` called with an object already registered under that key, and
`removeResource` called with an object that is not in that key's list, each return `false`
and leave the registry unchanged; no call of either function is aborted. -/
theorem resource_violations_rejected (info : ObjectInfo) (doc : Resources) (key : String)
    (obj : ObjRef) :
    (obj ∈ doc.resources key →
      addResource info doc (some key) (some obj) = Outcome.returned (false, doc)) ∧
    (obj ∉ doc.resources key →
      removeResource info doc (some key) (some obj) = Outcome.returned (false, doc)) ∧
    (∀ (k : Option String) (o : Option ObjRef),
      (addResource info doc k o).isAborted = false ∧
      (removeResource info doc k o).isAborted = false) :=
  ⟨addResource_rejected info doc key obj, removeResource_rejected info doc key obj,
    fun k o => ⟨addResource_returns info doc k o, removeResource_returns info doc k o⟩⟩

/-- Witness of `resource_violations_rejected` (C20): object 7 is registered under
`gradient`, object 8 is not. -/
theorem resource_violations_rejected_witness :
    7 ∈ gradientResources.resources "gradient" ∧ 8 ∉ gradientResources.resources "gradient" ∧
      addResource plainObjects gradientResources (some "gradient") (some 7)
        = Outcome.returned (false, gradientResources) ∧
      removeResource plainObjects gradientResources (some "gradient") (some 8)
        = Outcome.returned (false, gradientResources) :=
  ⟨by simp [gradientResources], by simp [gradientResources],
    (resource_violations_rejected plainObjects gradientResources "gradient" 7).1
      (by simp [gradientResources]),
    (resource_violations_rejected plainObjects gradientResources "gradient" 8).2.1
      (by simp [gradientResources])⟩

/-! ## Claims on the document units -/

/-- C22: for every value of the `inkscape:document-units` attribute (absent, unrecognized,
not absolute, or valid), `sp_namedview_set` returns without aborting and leaves `doc_units`
non-null: the requested unit when it is recognized and has an absolute or device base, and
the default unit px in every other case. -/
theorem document_units_never_null (table : UnitTable) (value : Option String) :
    ∃ r : DocUnitsResult,
      sp_namedview_set_document_units table value = Outcome.returned r ∧
      r.doc_units ≠ none ∧
      r.doc_units = some (selectedDocUnit table value) ∧
      (value = none → r.doc_units = some table.px) ∧
      (∀ v, value = some v → table.sp_unit_get_by_abbreviation v = none →
        r.doc_units = some table.px) ∧
      (∀ v u, value = some v → table.sp_unit_get_by_abbreviation v = some u →
        (u.base = SPUnitBase.absolute ∨ u.base = SPUnitBase.device) → r.doc_units = some u) ∧
      (∀ v u, value = some v → table.sp_unit_get_by_abbreviation v = some u →
        ¬ (u.base = SPUnitBase.absolute ∨ u.base = SPUnitBase.device) →
        r.doc_units = some table.px) := by
  cases value with
  | none =>
    exact ⟨_, rfl, by simp, rfl, fun _ => rfl, by simp, by simp, by simp⟩
  | some v =>
    simp only [sp_namedview_set_document_units, selectedDocUnit]
    cases hlook : table.sp_unit_get_by_abbreviation v with
    | none =>
      refine ⟨_, rfl, by simp, rfl, by simp, ?_, ?_, ?_⟩
      · intro v' hv _; rfl
      · intro v' u hv hu; cases hv; rw [hlook] at hu; cases hu
      · intro v' u hv hu; cases hv; rw [hlook] at hu; cases hu
    | some req =>
      by_cases hb : req.base = SPUnitBase.absolute ∨ req.base = SPUnitBase.device
      · simp only [hb, if_true]
        refine ⟨_, rfl, by simp, rfl, by simp, ?_, ?_, ?_⟩
        · intro v' hv hn; cases hv; rw [hlook] at hn; cases hn
        · intro v' u hv hu _; cases hv; rw [hlook] at hu; cases hu; rfl
        · intro v' u hv hu hnb; cases hv; rw [hlook] at hu; cases hu; exact absurd hb hnb
      · simp only [hb, if_false]
        refine ⟨_, rfl, by simp, rfl, by simp, ?_, ?_, ?_⟩
        · intro v' hv hn; rfl
        · intro v' u hv hu hab; cases hv; rw [hlook] at hu; cases hu; exact absurd hab hb
        · intro v' u hv hu _; rfl

/-- Witness of `document_units_never_null` (C22): with the sample unit table the value `mm`
is kept, and the values `em` (not absolute) and `furlong` (unrecognized) give px. -/
theorem document_units_never_null_witness :
    (∃ r : DocUnitsResult,
      sp_namedview_set_document_units sampleUnits (some "mm") = Outcome.returned r ∧
      r.doc_units = some ⟨"mm", SPUnitBase.absolute⟩) ∧
    (∃ r : DocUnitsResult,
      sp_namedview_set_document_units sampleUnits (some "em") = Outcome.returned r ∧
      r.doc_units = some ⟨"px", SPUnitBase.device⟩) ∧
    (∃ r : DocUnitsResult,
      sp_namedview_set_document_units sampleUnits (some "furlong") = Outcome.returned r ∧
      r.doc_units = some ⟨"px", SPUnitBase.device⟩) :=
  ⟨(document_units_never_null sampleUnits (some "mm")).imp
      (fun _ h => ⟨h.1, h.2.2.2.2.2.1 "mm" ⟨"mm", SPUnitBase.absolute⟩ rfl (by decide)
        (Or.inl rfl)⟩),
    (document_units_never_null sampleUnits (some "em")).imp
      (fun _ h => ⟨h.1, h.2.2.2.2.2.2 "em" ⟨"em", SPUnitBase.other 32⟩ rfl (by decide)
        (by decide)⟩),
    (document_units_never_null sampleUnits (some "furlong")).imp
      (fun _ h => ⟨h.1, h.2.2.2.2.1 "furlong" rfl (by decide)⟩)⟩

/-! ## More geometry lemmas -/

theorem interval_expandTo_ofEnds3 (a b c : ℚ) :
    (Interval.ofEnds a c).expandTo b = ⟨min (min a b) c, max (max a b) c⟩ := by
  unfold Interval.ofEnds Interval.expandTo
  rw [Interval.mk.injEq]
  constructor
  · simp only [min_def]
    split_ifs <;> simp_all <;> linarith
  · simp only [max_def]
    split_ifs <;> simp_all <;> linarith

theorem rect_expandTo_ofPoints3 (a b c : Point) :
    (Rect.ofPoints a c).expandTo b = boundingBox3 a b c := by
  unfold Rect.ofPoints Rect.expandTo boundingBox3
  simp only [interval_expandTo_ofEnds3]

theorem interval_intersects_iff (i j : Interval) :
    i.intersects j = true ↔
      (i.min ≤ j.min ∧ j.min ≤ i.max) ∨ (i.min ≤ j.max ∧ j.max ≤ i.max) ∨
        (j.min ≤ i.min ∧ i.max ≤ j.max) := by
  simp [Interval.intersects, Interval.contains, or_assoc]

/-- An interval that contains a non-empty interval meets every interval that the smaller
one meets. -/
theorem interval_intersects_mono (i k j : Interval) (hi : i.min ≤ i.max)
    (h1 : k.min ≤ i.min) (h2 : i.max ≤ k.max) (h : i.intersects j = true) :
    k.intersects j = true := by
  have hk : k.min ≤ k.max := le_trans h1 (le_trans hi h2)
  rw [interval_intersects_iff i j] at h
  rw [interval_intersects_iff k j]
  rcases h with ⟨a, b⟩ | ⟨a, b⟩ | ⟨a, b⟩
  · exact Or.inl ⟨le_trans h1 a, le_trans b h2⟩
  · exact Or.inr (Or.inl ⟨le_trans h1 a, le_trans b h2⟩)
  · by_cases c1 : k.min ≤ j.min
    · exact Or.inl ⟨c1, by linarith⟩
    · by_cases c2 : k.max ≤ j.max
      · exact Or.inr (Or.inr ⟨by linarith, c2⟩)
      · exact Or.inr (Or.inl ⟨by linarith, by linarith⟩)

/-- The view rectangle of `feed_path_to_cairo_trans`, for a well-formed area and a
non-negative stroke width. -/
theorem pathView_eq (area : Rect) (s : ℚ) (hwf : area.wellFormed) (hs : 0 ≤ s) :
    pathView area s
      = ⟨⟨-s, area.xs.max - area.xs.min + s⟩, ⟨-s, area.ys.max - area.ys.min + s⟩⟩ := by
  obtain ⟨hx, hy⟩ := hwf
  have e1 : area.xs.min - s - area.xs.min = -s := by ring
  have e2 : area.ys.min - s - area.ys.min = -s := by ring
  have e3 : area.xs.max + s - area.xs.min = area.xs.max - area.xs.min + s := by ring
  have e4 : area.ys.max + s - area.ys.min = area.ys.max - area.ys.min + s := by ring
  have hx2 : -s ≤ area.xs.max - area.xs.min + s := by linarith
  have hy2 : -s ≤ area.ys.max - area.ys.min + s := by linarith
  simp only [pathView, Rect.transform, Rect.expandBy, Interval.expandBy, Rect.minPoint,
    Point.neg, Affine.translate, Point.transform, Rect.ofPoints, Rect.expandTo, mul_one, mul_zero,
    add_zero, zero_add, ← sub_eq_add_neg, e1, e2, e3, e4]
  rw [Rect.mk.injEq]
  constructor
  · unfold Interval.ofEnds Interval.expandTo
    rw [Interval.mk.injEq]
    constructor <;> split_ifs <;> dsimp only at * <;> first | rfl | linarith
  · unfold Interval.ofEnds Interval.expandTo
    rw [Interval.mk.injEq]
    constructor <;> split_ifs <;> dsimp only at * <;> first | rfl | linarith

theorem quadratic_b2_eq (p0 p1 p2 : Point) :
    (p0.add (Point.scale (2 / 3) (p1.sub p0))).add (Point.scale (1 / 3) (p2.sub p0))
      = elevated2 p1 p2 := by
  simp only [elevated2, Point.add, Point.scale, Point.sub, Point.mk.injEq]
  constructor <;> ring

theorem rect_intersects_mono (r k v : Rect) (hr : r.wellFormed)
    (hx1 : k.xs.min ≤ r.xs.min) (hx2 : r.xs.max ≤ k.xs.max)
    (hy1 : k.ys.min ≤ r.ys.min) (hy2 : r.ys.max ≤ k.ys.max)
    (h : r.intersects v = true) : k.intersects v = true := by
  simp only [Rect.intersects, Bool.and_eq_true] at h ⊢
  exact ⟨interval_intersects_mono _ _ _ hr.1 hx1 hx2 h.1,
    interval_intersects_mono _ _ _ hr.2 hy1 hy2 h.2⟩

/-- The bounding box of the control points of a quadratic meets every rectangle that the
bounding box of the elevated cubic meets. -/
theorem elevated_box_intersects (p0 p1 p2 : Point) (v : Rect)
    (h : (boundingBox4 p0 (elevated1 p0 p1) (elevated2 p1 p2) p2).intersects v = true) :
    (boundingBox3 p0 p1 p2).intersects v = true := by
  have bx1 : (elevated1 p0 p1).x = p0.x + 2 / 3 * (p1.x - p0.x) := rfl
  have by1 : (elevated1 p0 p1).y = p0.y + 2 / 3 * (p1.y - p0.y) := rfl
  have bx2 : (elevated2 p1 p2).x = p2.x + 2 / 3 * (p1.x - p2.x) := rfl
  have by2 : (elevated2 p1 p2).y = p2.y + 2 / 3 * (p1.y - p2.y) := rfl
  have conv : ∀ a b c m : ℚ, m ≤ a → m ≤ b → m ≤ c →
      m ≤ a + 2 / 3 * (b - a) ∧ m ≤ c + 2 / 3 * (b - c) := by
    intro a b c m h1 h2 h3; constructor <;> linarith
  have conv2 : ∀ a b c m : ℚ, a ≤ m → b ≤ m → c ≤ m →
      a + 2 / 3 * (b - a) ≤ m ∧ c + 2 / 3 * (b - c) ≤ m := by
    intro a b c m h1 h2 h3; constructor <;> linarith
  refine rect_intersects_mono _ _ v ?_ ?_ ?_ ?_ ?_ h
  · exact ⟨le_trans (min_le_left _ _) (le_trans (min_le_left _ _)
        (le_trans (le_max_left _ _) (le_max_left _ _))),
      le_trans (min_le_left _ _) (le_trans (min_le_left _ _)
        (le_trans (le_max_left _ _) (le_max_left _ _)))⟩
  · show min (min p0.x p1.x) p2.x
        ≤ min (min p0.x (elevated1 p0 p1).x) (min (elevated2 p1 p2).x p2.x)
    have m0 : min (min p0.x p1.x) p2.x ≤ p0.x := le_trans (min_le_left _ _) (min_le_left _ _)
    have m1 : min (min p0.x p1.x) p2.x ≤ p1.x := le_trans (min_le_left _ _) (min_le_right _ _)
    have m2 : min (min p0.x p1.x) p2.x ≤ p2.x := min_le_right _ _
    obtain ⟨c1, c2⟩ := conv _ _ _ _ m0 m1 m2
    rw [bx1, bx2]
    exact le_min (le_min m0 c1) (le_min c2 m2)
  · show max (max p0.x (elevated1 p0 p1).x) (max (elevated2 p1 p2).x p2.x)
        ≤ max (max p0.x p1.x) p2.x
    have m0 : p0.x ≤ max (max p0.x p1.x) p2.x := le_trans (le_max_left _ _) (le_max_left _ _)
    have m1 : p1.x ≤ max (max p0.x p1.x) p2.x := le_trans (le_max_right _ _) (le_max_left _ _)
    have m2 : p2.x ≤ max (max p0.x p1.x) p2.x := le_max_right _ _
    obtain ⟨c1, c2⟩ := conv2 _ _ _ _ m0 m1 m2
    rw [bx1, bx2]
    exact max_le (max_le m0 c1) (max_le c2 m2)
  · show min (min p0.y p1.y) p2.y
        ≤ min (min p0.y (elevated1 p0 p1).y) (min (elevated2 p1 p2).y p2.y)
    have m0 : min (min p0.y p1.y) p2.y ≤ p0.y := le_trans (min_le_left _ _) (min_le_left _ _)
    have m1 : min (min p0.y p1.y) p2.y ≤ p1.y := le_trans (min_le_left _ _) (min_le_right _ _)
    have m2 : min (min p0.y p1.y) p2.y ≤ p2.y := min_le_right _ _
    obtain ⟨c1, c2⟩ := conv _ _ _ _ m0 m1 m2
    rw [by1, by2]
    exact le_min (le_min m0 c1) (le_min c2 m2)
  · show max (max p0.y (elevated1 p0 p1).y) (max (elevated2 p1 p2).y p2.y)
        ≤ max (max p0.y p1.y) p2.y
    have m0 : p0.y ≤ max (max p0.y p1.y) p2.y := le_trans (le_max_left _ _) (le_max_left _ _)
    have m1 : p1.y ≤ max (max p0.y p1.y) p2.y := le_trans (le_max_right _ _) (le_max_left _ _)
    have m2 : p2.y ≤ max (max p0.y p1.y) p2.y := le_max_right _ _
    obtain ⟨c1, c2⟩ := conv2 _ _ _ _ m0 m1 m2
    rw [by1, by2]
    exact max_le (max_le m0 c1) (max_le c2 m2)

/-! ## Claims on culling and on the view rectangle -/

/-- C23 (counterexample): for the quadratic (0,0), (3,3), (6,0) fed with the identity
transform, optimization on and the view rectangle x in [0,6], y in [5/2,5], the bounding box
of the elevated cubic (0,0), (2,2), (4,2), (6,0) does not intersect the view, yet the segment
is drawn with `curveTo`. -/
theorem quadratic_drawn_outside_elevated_box :
    elevated1 ⟨0, 0⟩ ⟨3, 3⟩ = ⟨2, 2⟩ ∧ elevated2 ⟨3, 3⟩ ⟨6, 0⟩ = ⟨4, 2⟩ ∧
      (boundingBox4 ⟨0, 0⟩ ⟨2, 2⟩ ⟨4, 2⟩ ⟨6, 0⟩).intersects ⟨⟨0, 6⟩, ⟨5 / 2, 5⟩⟩ = false ∧
      feed_curve_to_cairo Affine.identity ⟨⟨0, 6⟩, ⟨5 / 2, 5⟩⟩ true
          (Curve.quadratic ⟨0, 0⟩ ⟨3, 3⟩ ⟨6, 0⟩)
        = [Cmd.curveTo ⟨2, 2⟩ ⟨4, 2⟩ ⟨6, 0⟩] := by
  refine ⟨?_, ?_, ?_, ?_⟩
  · norm_num [elevated1, Point.add, Point.scale, Point.sub]
  · norm_num [elevated2, Point.add, Point.scale, Point.sub]
  · norm_num [boundingBox4, Rect.intersects, Interval.intersects, Interval.contains]
  · norm_num [feed_curve_to_cairo, Affine.identity, Point.transform, Point.add, Point.scale,
      Point.sub, Rect.ofPoints, Rect.expandTo, Rect.intersects, Interval.ofEnds,
      Interval.expandTo, Interval.intersects, Interval.contains]

/-- C23 (amended): for a quadratic segment under optimization the cull-or-draw decision is
made on the bounding box of the three transformed control points `P0`, `P1`, `P2`: the
segment is drawn with `curveTo(b1, b2, P2)` exactly when that box intersects the view
rectangle and is replaced by `moveTo(P2)` otherwise; that box meets the view whenever the
bounding box of the elevated cubic `P0`, `b1`, `b2`, `P2` does. -/
theorem feed_curve_quadratic_cull (trans : Affine) (view : Rect) (q0 q1 q2 : Point) :
    feed_curve_to_cairo trans view true (Curve.quadratic q0 q1 q2)
        = (if (boundingBox3 (q0.transform trans) (q1.transform trans)
              (q2.transform trans)).intersects view
            then [Cmd.curveTo (elevated1 (q0.transform trans) (q1.transform trans))
              (elevated2 (q1.transform trans) (q2.transform trans)) (q2.transform trans)]
            else [Cmd.moveTo (q2.transform trans)]) ∧
      ((boundingBox4 (q0.transform trans) (elevated1 (q0.transform trans) (q1.transform trans))
          (elevated2 (q1.transform trans) (q2.transform trans))
          (q2.transform trans)).intersects view = true →
        (boundingBox3 (q0.transform trans) (q1.transform trans)
          (q2.transform trans)).intersects view = true) := by
  constructor
  · simp only [feed_curve_to_cairo, Bool.not_true, Bool.false_eq_true, if_false,
      quadratic_b2_eq, rect_expandTo_ofPoints3]
    rfl
  · exact elevated_box_intersects _ _ _ view

/-- Witness of `feed_curve_quadratic_cull` (C23): when the elevated box of the quadratic
(0,0), (3,3), (6,0) meets the view x in [0,6], y in [1,5], so does the control-point box. -/
theorem feed_curve_quadratic_cull_witness :
    (boundingBox4 (Point.transform ⟨0, 0⟩ Affine.identity)
        (elevated1 (Point.transform ⟨0, 0⟩ Affine.identity)
          (Point.transform ⟨3, 3⟩ Affine.identity))
        (elevated2 (Point.transform ⟨3, 3⟩ Affine.identity)
          (Point.transform ⟨6, 0⟩ Affine.identity))
        (Point.transform ⟨6, 0⟩ Affine.identity)).intersects ⟨⟨0, 6⟩, ⟨1, 5⟩⟩ = true ∧
      (boundingBox3 (Point.transform ⟨0, 0⟩ Affine.identity)
        (Point.transform ⟨3, 3⟩ Affine.identity)
        (Point.transform ⟨6, 0⟩ Affine.identity)).intersects ⟨⟨0, 6⟩, ⟨1, 5⟩⟩ = true :=
  have h : (boundingBox4 (Point.transform ⟨0, 0⟩ Affine.identity)
        (elevated1 (Point.transform ⟨0, 0⟩ Affine.identity)
          (Point.transform ⟨3, 3⟩ Affine.identity))
        (elevated2 (Point.transform ⟨3, 3⟩ Affine.identity)
          (Point.transform ⟨6, 0⟩ Affine.identity))
        (Point.transform ⟨6, 0⟩ Affine.identity)).intersects ⟨⟨0, 6⟩, ⟨1, 5⟩⟩ = true := by
    norm_num [boundingBox4, elevated1, elevated2, Affine.identity, Point.transform, Point.add,
      Point.scale, Point.sub, Rect.intersects, Interval.intersects, Interval.contains]
  ⟨h, (feed_curve_quadratic_cull Affine.identity ⟨⟨0, 6⟩, ⟨1, 5⟩⟩ ⟨0, 0⟩ ⟨3, 3⟩ ⟨6, 0⟩).2 h⟩

theorem feed_path_to_cairo_trans_unfold (path : Path) (trans : Affine) (area : Rect)
    (opt : Bool) (sw : ℚ) (hne : path.empty = false) :
    feed_path_to_cairo_trans path trans (some area) opt sw
      = Cmd.moveTo (path.initialPoint.transform (pathTransform trans area))
        :: (feed_curves_to_cairo (pathTransform trans area) (pathView area sw) opt path.curves
          ++ (if path.closed then
                (if !opt then [Cmd.closePath]
                 else [Cmd.lineTo (path.initialPoint.transform (pathTransform trans area))])
              else [])) := by
  simp only [feed_path_to_cairo_trans, hne, Bool.false_eq_true, if_false, pathTransform,
    pathView, List.singleton_append, List.cons_append, List.nil_append]

/-- C24: in the transform and clip overload of `feed_path_to_cairo`, for a well-formed area
and a non-negative stroke width `s`, the commands of a non-empty path are `moveTo` of the
initial point, then for every segment in order the per-segment policy applied with one and
the same view rectangle, of corners `(-s, -s)` and `(area.max - area.min) + (s, s)`, and with
one and the same transform, which sends every point `p` to `p * trans` translated by
`-area.min`, then the closing command; so a straight segment is drawn or skipped by testing
the rectangle of its two end points, so transformed, against that view. -/
theorem feed_path_view_and_transform (path : Path) (trans : Affine) (area : Rect)
    (opt : Bool) (s : ℚ) (hwf : area.wellFormed) (hs : 0 ≤ s) :
    (path.empty = false →
      feed_path_to_cairo_trans path trans (some area) opt s
        = [Cmd.moveTo ((path.initialPoint.transform trans).sub area.minPoint)]
          ++ (path.curves.map (feed_curve_to_cairo (pathTransform trans area)
                ⟨⟨-s, area.xs.max - area.xs.min + s⟩, ⟨-s, area.ys.max - area.ys.min + s⟩⟩
                opt)).flatten
          ++ (if path.closed then
                (if opt then
                  [Cmd.lineTo ((path.initialPoint.transform trans).sub area.minPoint)]
                 else [Cmd.closePath])
              else [])) ∧
    (∀ p : Point,
      p.transform (pathTransform trans area) = (p.transform trans).sub area.minPoint) ∧
    (∀ p0 p1 : Point,
      feed_curve_to_cairo (pathTransform trans area)
          ⟨⟨-s, area.xs.max - area.xs.min + s⟩, ⟨-s, area.ys.max - area.ys.min + s⟩⟩ true
          (Curve.line p0 p1)
        = (if (Rect.ofPoints ((p0.transform trans).sub area.minPoint)
              ((p1.transform trans).sub area.minPoint)).intersects
              ⟨⟨-s, area.xs.max - area.xs.min + s⟩, ⟨-s, area.ys.max - area.ys.min + s⟩⟩
            then [Cmd.lineTo ((p1.transform trans).sub area.minPoint)]
            else [Cmd.moveTo ((p1.transform trans).sub area.minPoint)])) ∧
    pathView area s
      = ⟨⟨-s, area.xs.max - area.xs.min + s⟩, ⟨-s, area.ys.max - area.ys.min + s⟩⟩ := by
  have hv := pathView_eq area s hwf hs
  have ht : ∀ p : Point,
      p.transform (pathTransform trans area) = (p.transform trans).sub area.minPoint := by
    intro p
    rw [pathTransform, point_transform_mul, point_transform_translate_neg]
  refine ⟨?_, ht, ?_, hv⟩
  · intro hne
    rw [← hv, ← ht path.initialPoint, feed_path_to_cairo_trans_unfold path trans area opt s hne,
      feed_curves_to_cairo_eq]
    cases opt <;> simp
  · intro p0 p1
    simp only [feed_curve_to_cairo, Bool.not_true, Bool.false_eq_true, if_false, ht]

/-- Witness of `feed_path_view_and_transform` (C24): a closed path of one straight segment
from (4,1) to (4,3), outside the area from (1,1) to (3,3) but within the stroke width 3/2 of
it, fed with the identity transform and optimization on: the view is from (-3/2,-3/2) to
(7/2,7/2) and the segment, translated to (3,0)-(3,2), is drawn; with stroke width 0 the same
segment is skipped. -/
theorem feed_path_view_and_transform_witness :
    Rect.wellFormed ⟨⟨1, 3⟩, ⟨1, 3⟩⟩ ∧ (0 : ℚ) ≤ 3 / 2 ∧
      Path.empty ⟨⟨4, 1⟩, [Curve.line ⟨4, 1⟩ ⟨4, 3⟩], true⟩ = false ∧
      feed_path_to_cairo_trans ⟨⟨4, 1⟩, [Curve.line ⟨4, 1⟩ ⟨4, 3⟩], true⟩ Affine.identity
          (some ⟨⟨1, 3⟩, ⟨1, 3⟩⟩) true (3 / 2)
        = [Cmd.moveTo ⟨3, 0⟩, Cmd.lineTo ⟨3, 2⟩, Cmd.lineTo ⟨3, 0⟩] ∧
      feed_path_to_cairo_trans ⟨⟨4, 1⟩, [Curve.line ⟨4, 1⟩ ⟨4, 3⟩], true⟩ Affine.identity
          (some ⟨⟨1, 3⟩, ⟨1, 3⟩⟩) true 0
        = [Cmd.moveTo ⟨3, 0⟩, Cmd.moveTo ⟨3, 2⟩, Cmd.lineTo ⟨3, 0⟩] ∧
      pathView ⟨⟨1, 3⟩, ⟨1, 3⟩⟩ (3 / 2) = ⟨⟨-(3 / 2), 3 - 1 + 3 / 2⟩, ⟨-(3 / 2), 3 - 1 + 3 / 2⟩⟩ :=
  have hwf : Rect.wellFormed ⟨⟨1, 3⟩, ⟨1, 3⟩⟩ := by
    constructor <;> norm_num
  ⟨hwf, by norm_num, rfl,
    ((feed_path_view_and_transform ⟨⟨4, 1⟩, [Curve.line ⟨4, 1⟩ ⟨4, 3⟩], true⟩ Affine.identity
      ⟨⟨1, 3⟩, ⟨1, 3⟩⟩ true (3 / 2) hwf (by norm_num)).1 rfl).trans
      (by norm_num [feed_curve_to_cairo, pathTransform, Affine.identity, Affine.mul,
        Affine.translate, Point.transform, Point.sub, Point.neg, Rect.minPoint, Rect.ofPoints,
        Rect.intersects, Interval.ofEnds, Interval.intersects, Interval.contains]),
    ((feed_path_view_and_transform ⟨⟨4, 1⟩, [Curve.line ⟨4, 1⟩ ⟨4, 3⟩], true⟩ Affine.identity
      ⟨⟨1, 3⟩, ⟨1, 3⟩⟩ true 0 hwf (le_refl 0)).1 rfl).trans
      (by norm_num [feed_curve_to_cairo, pathTransform, Affine.identity, Affine.mul,
        Affine.translate, Point.transform, Point.sub, Point.neg, Rect.minPoint, Rect.ofPoints,
        Rect.intersects, Interval.ofEnds, Interval.intersects, Interval.contains]),
    (feed_path_view_and_transform ⟨⟨4, 1⟩, [Curve.line ⟨4, 1⟩ ⟨4, 3⟩], true⟩ Affine.identity
      ⟨⟨1, 3⟩, ⟨1, 3⟩⟩ true (3 / 2) hwf (by norm_num)).2.2.2⟩

/-! ## More update loop lemmas -/

theorem lastUpdate_append_some (xs ys : List Event) (b : Bool) (h : lastUpdate ys = some b) :
    lastUpdate (xs ++ ys) = some b := by
  induction xs with
  | nil => exact h
  | cons e es ih => cases e <;> simp [lastUpdate, ih]

theorem lastUpdate_removed (ys : List Event)
    (h : ∀ e ∈ ys, ∃ id, e = Event.sourceRemove id) : lastUpdate ys = none := by
  induction ys with
  | nil => rfl
  | cons e es ih =>
    obtain ⟨id, rfl⟩ := h e (List.mem_cons_self _ _)
    simp only [lastUpdate]
    exact ih (fun e he => h e (List.mem_cons_of_mem _ he))

theorem lastUpdate_append_removed (xs ys : List Event)
    (h : ∀ e ∈ ys, ∃ id, e = Event.sourceRemove id) :
    lastUpdate (xs ++ ys) = lastUpdate xs := by
  induction xs with
  | nil => simp [lastUpdate_removed ys h, lastUpdate]
  | cons e es ih => cases e <;> simp [lastUpdate, ih]

theorem updateLoop_lastUpdate {W : Type} (ext : External W) (c : Nat) :
    ∀ doc : SPDocument W, 0 < (updateLoop ext c doc).counter →
      lastUpdate (updateLoop ext c doc).events = some true ∧
        Event.update true ∈ (updateLoop ext c doc).events := by
  induction c with
  | zero => intro doc; simp only [updateLoop]; split <;> simp
  | succ c ih =>
    intro doc
    simp only [updateLoop]
    split
    · intro _; simp [lastUpdate]
    · intro h
      obtain ⟨h1, h2⟩ := ih _ h
      simp [lastUpdate, h1, h2]

theorem mem_removed (c : Prop) [Decidable c] (x : Nat) (e : Event)
    (he : e ∈ (if c then [Event.sourceRemove x] else [])) : ∃ id, e = Event.sourceRemove id := by
  split at he
  · exact ⟨x, List.mem_singleton.1 he⟩
  · simp at he

theorem ensureUpToDate_events_eq {W : Type} (ext : External W) (doc : SPDocument W) :
    ∃ removed : List Event,
      (SPDocument.ensureUpToDate ext doc).events = (passLoop ext 2 1 32 doc).events ++ removed ∧
      ∀ e ∈ removed, ∃ id, e = Event.sourceRemove id := by
  simp only [SPDocument.ensureUpToDate, List.append_assoc]
  refine ⟨_, rfl, ?_⟩
  intro e he
  rcases List.mem_append.1 he with he | he
  · exact mem_removed _ _ e he
  · exact mem_removed _ _ e he

theorem ensureUpToDate_result {W : Type} (ext : External W) (doc : SPDocument W) :
    ((SPDocument.ensureUpToDate ext doc).result ≠ 0 ↔ 0 < (passLoop ext 2 1 32 doc).counter) ∧
      ((SPDocument.ensureUpToDate ext doc).result = 0 ↔ (passLoop ext 2 1 32 doc).counter = 0) := by
  simp only [SPDocument.ensureUpToDate]
  by_cases h : 0 < (passLoop ext 2 1 32 doc).counter
  · simp only [h, if_true]
    constructor
    · simp
    · simp; omega
  · simp only [h, if_false]
    constructor
    · simp
    · simp; omega

/-- When the counter is positive after the two passes, both passes ended with it positive. -/
theorem passLoop_positive {W : Type} (ext : External W) (doc : SPDocument W)
    (h : 0 < (passLoop ext 2 1 32 doc).counter) :
    0 < (firstPass ext doc).counter ∧ 0 < (secondPass ext doc).counter ∧
      (passLoop ext 2 1 32 doc).events
        = (firstPass ext doc).events ++ [Event.processTransaction]
          ++ (secondPass ext doc).events := by
  rw [passLoop_two] at h ⊢
  by_cases h0 : (firstPass ext doc).counter = 0
  · rw [if_pos h0] at h; omega
  · rw [if_neg h0] at h ⊢
    exact ⟨by omega, h, rfl⟩

/-! ## More claims on the update loop -/

/-- C25 (counterexample): on a document with an update flag and undo recording off, with a
handler of the `modified` signal that switches undo recording on, `_updateDocument` returns
with undo recording on: the value on entry is restored after `updateDisplay`, but
`_emitModified` runs after the restore. -/
theorem updateDocument_sensitivity_not_restored :
    insensitiveDocument.uflags ≠ 0 ∧ getUndoSensitive insensitiveDocument = false ∧
      getUndoSensitive (SPDocument._updateDocument meddlingExternal insensitiveDocument).2
        = true := by
  decide

/-- C25 (amended): `_updateDocument` saves and restores undo recording around
`root->updateDisplay` only: when the root has update flags, `updateDisplay` runs on the
document with sensitivity off and the value on entry is restored right after it, before
`_emitModified` runs; when the root has no update flags `setUndoSensitive` is not called; the
document returned is a document with the sensitivity of entry or what `_emitModified` makes
of one, so the sensitivity on return is the value on entry whenever the handlers run by
`_emitModified` leave it as they find it. -/
theorem updateDocument_undo_sensitivity {W : Type} (ext : External W) (doc : SPDocument W) :
    (doc.uflags ≠ 0 →
      (SPDocument._updateDocument ext doc).2
        = SPDocument._emitModified ext
            (setUndoSensitive (ext.updateDisplay (setUndoSensitive doc false))
              (getUndoSensitive doc)) ∧
      getUndoSensitive (setUndoSensitive doc false) = false ∧
      getUndoSensitive (setUndoSensitive (ext.updateDisplay (setUndoSensitive doc false))
        (getUndoSensitive doc)) = getUndoSensitive doc) ∧
    (doc.uflags = 0 →
      (SPDocument._updateDocument ext doc).2
        = (if doc.mflags ≠ 0 then SPDocument._emitModified ext doc else doc)) ∧
    (∃ restored : SPDocument W, getUndoSensitive restored = getUndoSensitive doc ∧
      ((SPDocument._updateDocument ext doc).2 = restored ∨
        (SPDocument._updateDocument ext doc).2 = SPDocument._emitModified ext restored)) ∧
    ((∀ d : SPDocument W,
        getUndoSensitive (SPDocument._emitModified ext d) = getUndoSensitive d) →
      getUndoSensitive (SPDocument._updateDocument ext doc).2 = getUndoSensitive doc) := by
  have h1 : doc.uflags ≠ 0 →
      (SPDocument._updateDocument ext doc).2
        = SPDocument._emitModified ext
            (setUndoSensitive (ext.updateDisplay (setUndoSensitive doc false))
              (getUndoSensitive doc)) := by
    intro h
    simp only [SPDocument._updateDocument, h, ne_eq, not_false_eq_true, true_or, if_true]
  have h2 : doc.uflags = 0 →
      (SPDocument._updateDocument ext doc).2
        = (if doc.mflags ≠ 0 then SPDocument._emitModified ext doc else doc) := by
    intro h
    simp only [SPDocument._updateDocument, h, ne_eq, not_true_eq_false, false_or, if_false]
  have h3 : ∃ restored : SPDocument W, getUndoSensitive restored = getUndoSensitive doc ∧
      ((SPDocument._updateDocument ext doc).2 = restored ∨
        (SPDocument._updateDocument ext doc).2 = SPDocument._emitModified ext restored) := by
    by_cases hu : doc.uflags = 0
    · refine ⟨doc, rfl, ?_⟩
      rw [h2 hu]
      by_cases hm : doc.mflags = 0
      · left; simp [hm]
      · right; simp [hm]
    · exact ⟨setUndoSensitive (ext.updateDisplay (setUndoSensitive doc false))
        (getUndoSensitive doc), rfl, Or.inr (h1 hu)⟩
  refine ⟨fun h => ⟨h1 h, rfl, rfl⟩, h2, h3, ?_⟩
  intro hemit
  obtain ⟨restored, hr, hcase | hcase⟩ := h3
  · rw [hcase, hr]
  · rw [hcase, hemit, hr]

/-- Witness of `updateDocument_undo_sensitivity` (C25): a document with an update flag and
undo recording on, updated by an `updateDisplay` that clears the flags, with handlers that
leave the sensitivity alone; and a document without flags, which is returned as it is. -/
theorem updateDocument_undo_sensitivity_witness :
    dirtyDocument.uflags ≠ 0 ∧
      (SPDocument._updateDocument cleaningExternal dirtyDocument).2
        = SPDocument._emitModified cleaningExternal
            (setUndoSensitive (cleaningExternal.updateDisplay
              (setUndoSensitive dirtyDocument false)) (getUndoSensitive dirtyDocument)) ∧
      (∀ d : SPDocument Unit,
        getUndoSensitive (SPDocument._emitModified cleaningExternal d) = getUndoSensitive d) ∧
      getUndoSensitive (SPDocument._updateDocument cleaningExternal dirtyDocument).2
        = getUndoSensitive dirtyDocument ∧
      cleanDocument.uflags = 0 ∧
      (SPDocument._updateDocument cleaningExternal cleanDocument).2
        = (if cleanDocument.mflags ≠ 0 then SPDocument._emitModified cleaningExternal cleanDocument
           else cleanDocument) :=
  ⟨by decide,
    ((updateDocument_undo_sensitivity cleaningExternal dirtyDocument).1 (by decide)).1,
    fun _ => rfl,
    (updateDocument_undo_sensitivity cleaningExternal dirtyDocument).2.2.2 (fun _ => rfl),
    rfl,
    (updateDocument_undo_sensitivity cleaningExternal cleanDocument).2.1 rfl⟩

/-- C26: if `ensureUpToDate` returns a nonzero value then during the call the router's
`processTransaction` was invoked exactly once, after the events of pass 1 and before every
updater invocation of pass 2, and the last `_updateDocument` invocation returned true; if it
returns zero the shared counter reached 0. -/
theorem ensureUpToDate_return_value {W : Type} (ext : External W) (doc : SPDocument W) :
    ((SPDocument.ensureUpToDate ext doc).result ≠ 0 →
      routerCalls (SPDocument.ensureUpToDate ext doc).events = 1 ∧
      (∃ removed : List Event,
        (SPDocument.ensureUpToDate ext doc).events
          = (firstPass ext doc).events ++ [Event.processTransaction]
            ++ (secondPass ext doc).events ++ removed ∧
        (∀ e ∈ removed, ∃ id, e = Event.sourceRemove id)) ∧
      routerCalls (firstPass ext doc).events = 0 ∧
      routerCalls (secondPass ext doc).events = 0 ∧
      lastUpdate (SPDocument.ensureUpToDate ext doc).events = some true) ∧
    ((SPDocument.ensureUpToDate ext doc).result = 0 →
      (passLoop ext 2 1 32 doc).counter = 0) := by
  constructor
  · intro h
    have hpos := (ensureUpToDate_result ext doc).1.1 h
    obtain ⟨h1, h2, hev⟩ := passLoop_positive ext doc hpos
    obtain ⟨removed, hre, hrm⟩ := ensureUpToDate_events_eq ext doc
    have hlast := (updateLoop_lastUpdate ext (firstPass ext doc).counter
      (ext.processTransaction (firstPass ext doc).doc) h2).1
    refine ⟨?_, ⟨removed, by rw [hre, hev], hrm⟩, updateLoop_router ext 32 doc,
      updateLoop_router ext _ _, ?_⟩
    · rw [(ensureUpToDate_events ext doc).2, (passLoop_counts ext doc).2, if_neg (by omega)]
    · rw [hre, lastUpdate_append_removed _ _ hrm, hev]
      exact lastUpdate_append_some _ _ true hlast
  · exact (ensureUpToDate_result ext doc).2.1

/-- Witness of `ensureUpToDate_return_value` (C26): an updater that clears the flags at once
makes `ensureUpToDate` return 1 after the events update, router, update. -/
theorem ensureUpToDate_return_value_witness :
    (SPDocument.ensureUpToDate cleaningExternal dirtyDocument).result ≠ 0 ∧
      routerCalls (SPDocument.ensureUpToDate cleaningExternal dirtyDocument).events = 1 ∧
      lastUpdate (SPDocument.ensureUpToDate cleaningExternal dirtyDocument).events
        = some true ∧
      (SPDocument.ensureUpToDate stuckExternal dirtyDocument).result = 0 ∧
      (passLoop stuckExternal 2 1 32 dirtyDocument).counter = 0 :=
  ⟨by decide,
    ((ensureUpToDate_return_value cleaningExternal dirtyDocument).1 (by decide)).1,
    ((ensureUpToDate_return_value cleaningExternal dirtyDocument).1 (by decide)).2.2.2.2,
    by decide,
    (ensureUpToDate_return_value stuckExternal dirtyDocument).2 (by decide)⟩

/-- C27: `ensureUpToDate` is a total function of the document and of the behaviour of the
updater and router; one call invokes `_updateDocument` at most 34 times, exactly 33 times
when pass 1 exhausts the counter (in particular when the updater never returns true in
pass 1), and invokes the router at most once. -/
theorem ensureUpToDate_bounded {W : Type} (ext : External W) (doc : SPDocument W) :
    updateCalls (SPDocument.ensureUpToDate ext doc).events ≤ 34 ∧
      routerCalls (SPDocument.ensureUpToDate ext doc).events ≤ 1 ∧
      ((firstPass ext doc).counter = 0 →
        updateCalls (SPDocument.ensureUpToDate ext doc).events = 33 ∧
        routerCalls (SPDocument.ensureUpToDate ext doc).events = 0) ∧
      (Event.update true ∉ (firstPass ext doc).events →
        updateCalls (SPDocument.ensureUpToDate ext doc).events = 33) := by
  obtain ⟨hu, hr⟩ := ensureUpToDate_events ext doc
  obtain ⟨h1, h2⟩ := passLoop_counts ext doc
  have hzero : (firstPass ext doc).counter = 0 →
      updateCalls (SPDocument.ensureUpToDate ext doc).events = 33 ∧
      routerCalls (SPDocument.ensureUpToDate ext doc).events = 0 := by
    intro h0
    have hc : (passLoop ext 2 1 32 doc).counter = 0 := by
      rw [passLoop_two, if_pos h0]; exact h0
    rw [hu, hr, h2, if_pos h0]
    rw [h2, if_pos h0, hc] at h1
    exact ⟨by omega, rfl⟩
  have hle : (passLoop ext 2 1 32 doc).counter ≤ 32 := by
    rw [passLoop_two]
    have a1 := updateLoop_counter_le ext 32 doc
    have a2 := updateLoop_counter_le ext (firstPass ext doc).counter
      (ext.processTransaction (firstPass ext doc).doc)
    split
    · exact a1
    · simp only [firstPass, secondPass] at a1 a2 ⊢
      omega
  have hr1 : routerCalls (passLoop ext 2 1 32 doc).events ≤ 1 := by
    rw [h2]; split <;> omega
  refine ⟨by rw [hu]; omega, by rw [hr]; exact hr1, hzero, ?_⟩
  intro hnever
  apply (hzero _).1
  by_contra hpos
  exact hnever (updateLoop_lastUpdate ext 32 doc (Nat.pos_of_ne_zero hpos)).2

/-- Witness of `ensureUpToDate_bounded` (C27): an updater that never reports the document
clean is invoked 33 times and the router is not invoked. -/
theorem ensureUpToDate_bounded_witness :
    (firstPass stuckExternal dirtyDocument).counter = 0 ∧
      updateCalls (SPDocument.ensureUpToDate stuckExternal dirtyDocument).events = 33 ∧
      routerCalls (SPDocument.ensureUpToDate stuckExternal dirtyDocument).events = 0 :=
  ⟨by decide, (ensureUpToDate_bounded stuckExternal dirtyDocument).2.2.1 (by decide)⟩

/-! ## Claims on pixel overflow and on the resource lists -/

/-- C29: for every valid premultiplied ARGB pixel (alpha `a > 0`, each colour channel at most
`a`) every colour channel computed by `pixbuf_from_argb32` is at most 255, the packed result
is the sum of the four bytes at their positions, and its alpha byte is `a`; for some pixel
with a colour channel greater than its alpha the computed channel exceeds 255. -/
theorem unpremultiplied_channels_fit (le : Bool) (p : Nat) (ha : 0 < argbA p)
    (hr : argbR p ≤ argbA p) (hg : argbG p ≤ argbA p) (hb : argbB p ≤ argbA p) :
    ((argbR p * 255 + argbA p / 2) / argbA p ≤ 255 ∧
      (argbG p * 255 + argbA p / 2) / argbA p ≤ 255 ∧
      (argbB p * 255 + argbA p / 2) / argbA p ≤ 255) ∧
    pixbuf_from_argb32 le p =
      (if le then
        (argbR p * 255 + argbA p / 2) / argbA p
          + (argbG p * 255 + argbA p / 2) / argbA p * 256
          + (argbB p * 255 + argbA p / 2) / argbA p * 65536
          + argbA p * 16777216
      else
        (argbR p * 255 + argbA p / 2) / argbA p * 16777216
          + (argbG p * 255 + argbA p / 2) / argbA p * 65536
          + (argbB p * 255 + argbA p / 2) / argbA p * 256
          + argbA p) ∧
    pixbufA le (pixbuf_from_argb32 le p) = argbA p ∧
    (∃ q : Nat, q < 2 ^ 32 ∧ 0 < argbA q ∧ argbA q < argbB q ∧
      255 < (argbB q * 255 + argbA q / 2) / argbA q ∧
      pixbufA true (pixbuf_from_argb32 true q) ≠ argbA q) := by
  have hA := argbA_lt p
  refine ⟨⟨?_, ?_, ?_⟩, pixbuf_from_argb32_eq le p ha hr hg hb,
    (pixbuf_from_argb32_channels le p ha hr hg hb).1, ⟨0x010000FF, by decide⟩⟩
  · exact Nat.lt_succ_iff.1 (unpremul_lt _ _ ha hA hr)
  · exact Nat.lt_succ_iff.1 (unpremul_lt _ _ ha hA hg)
  · exact Nat.lt_succ_iff.1 (unpremul_lt _ _ ha hA hb)

/-- Witness of `unpremultiplied_channels_fit` (C29) at the pixel `0x80804020`: the red
channel is equal to alpha and comes out as 255. -/
theorem unpremultiplied_channels_fit_witness :
    0 < argbA 0x80804020 ∧ argbR 0x80804020 ≤ argbA 0x80804020 ∧
      (argbR 0x80804020 * 255 + argbA 0x80804020 / 2) / argbA 0x80804020 ≤ 255 ∧
      pixbufA true (pixbuf_from_argb32 true 0x80804020) = argbA 0x80804020 :=
  ⟨by decide, by decide,
    (unpremultiplied_channels_fit true 0x80804020 (by decide) (by decide) (by decide)
      (by decide)).1.1,
    (unpremultiplied_channels_fit true 0x80804020 (by decide) (by decide) (by decide)
      (by decide)).2.2.1⟩

theorem addResource_cases (info : ObjectInfo) (doc : Resources) (key : Option String)
    (object : Option ObjRef) :
    addResource info doc key object = Outcome.returned (false, doc) ∨
      ∃ (k : String) (obj : ObjRef), key = some k ∧ object = some obj ∧ k ≠ "" ∧
        info.isObject obj = true ∧ info.cloned obj = false ∧ obj ∉ doc.resources k ∧
        addResource info doc key object
          = Outcome.returned (true,
              ⟨Function.update doc.resources k (obj :: doc.resources k),
                doc.emitted ++ [g_quark_from_string k]⟩) := by
  cases key with
  | none => exact Or.inl rfl
  | some k =>
    cases object with
    | none =>
      left
      simp only [addResource]
      split <;> rfl
    | some obj =>
      by_cases hk : k = ""
      · left; simp [addResource, hk]
      · by_cases ho : info.isObject obj = true
        · by_cases hc : info.cloned obj = true
          · left; simp [addResource, hk, ho, hc]
          · by_cases hm : obj ∈ doc.resources k
            · left; simp [addResource, hk, ho, hc, hm]
            · right
              refine ⟨k, obj, rfl, rfl, hk, ho, by simpa using hc, hm, ?_⟩
              simp [addResource, hk, ho, hc, hm]
        · left; simp [addResource, hk, ho]

theorem removeResource_cases (info : ObjectInfo) (doc : Resources) (key : Option String)
    (object : Option ObjRef) :
    removeResource info doc key object = Outcome.returned (false, doc) ∨
      ∃ (k : String) (obj : ObjRef), key = some k ∧ object = some obj ∧ k ≠ "" ∧
        info.isObject obj = true ∧ info.cloned obj = false ∧ obj ∈ doc.resources k ∧
        removeResource info doc key object
          = Outcome.returned (true,
              ⟨Function.update doc.resources k ((doc.resources k).erase obj),
                doc.emitted ++ [g_quark_from_string k]⟩) := by
  cases key with
  | none => exact Or.inl rfl
  | some k =>
    cases object with
    | none =>
      left
      simp only [removeResource]
      split <;> rfl
    | some obj =>
      by_cases hk : k = ""
      · left; simp [removeResource, hk]
      · by_cases ho : info.isObject obj = true
        · by_cases hc : info.cloned obj = true
          · left; simp [removeResource, hk, ho, hc]
          · by_cases hm : obj ∈ doc.resources k
            · right
              have hne : doc.resources k ≠ [] := List.ne_nil_of_mem hm
              refine ⟨k, obj, rfl, rfl, hk, ho, by simpa using hc, hm, ?_⟩
              simp [removeResource, hk, ho, hc, hm, hne]
            · left; simp [removeResource, hk, ho, hc, hm]
        · left; simp [removeResource, hk, ho]

theorem resource_cloned_rejected (info : ObjectInfo) (doc : Resources) (key : Option String)
    (obj : ObjRef) (hc : info.cloned obj = true) :
    addResource info doc key (some obj) = Outcome.returned (false, doc) ∧
      removeResource info doc key (some obj) = Outcome.returned (false, doc) := by
  constructor
  · rcases addResource_cases info doc key (some obj) with h | ⟨k, o, _, ho, _, _, hnc, _, _⟩
    · exact h
    · cases ho; rw [hc] at hnc; cases hnc
  · rcases removeResource_cases info doc key (some obj) with h | ⟨k, o, _, ho, _, _, hnc, _, _⟩
    · exact h
    · cases ho; rw [hc] at hnc; cases hnc

theorem applyResourceCall_nodup (info : ObjectInfo) (doc : Resources) (call : ResourceCall)
    (h : ∀ k, (doc.resources k).Nodup) :
    ∀ k, ((applyResourceCall info doc call).resources k).Nodup := by
  intro k
  cases call with
  | add key object =>
    simp only [applyResourceCall]
    rcases addResource_cases info doc key object with e | ⟨k2, obj, _, _, _, _, _, hm, e⟩
    · rw [e]; exact h k
    · rw [e]
      simp only [registryAfter, Function.update]
      split
      · rename_i hk; cases hk
        exact List.nodup_cons.2 ⟨hm, h k⟩
      · exact h k
  | remove key object =>
    simp only [applyResourceCall]
    rcases removeResource_cases info doc key object with e | ⟨k2, obj, _, _, _, _, _, hm, e⟩
    · rw [e]; exact h k
    · rw [e]
      simp only [registryAfter, Function.update]
      split
      · rename_i hk; cases hk
        exact (h k).erase obj
      · exact h k

theorem applyResourceCalls_nodup (info : ObjectInfo) (calls : List ResourceCall) :
    ∀ doc : Resources, (∀ k, (doc.resources k).Nodup) →
      ∀ k, ((applyResourceCalls info doc calls).resources k).Nodup := by
  induction calls with
  | nil => intro doc h; exact h
  | cons call calls ih =>
    intro doc h
    exact ih _ (applyResourceCall_nodup info doc call h)

/-- C30: starting from an empty registry, every sequence of `addResource` and
`removeResource` calls leaves each key's list free of repeated objects; a rejected call
(object already present on add, absent on remove, or a cloned object) returns false and
leaves the registry unchanged; a successful `addResource` puts the object at the head of that
key's list and changes no other list; and `removeResource` of the same key and object right
after it succeeds and restores every list. -/
theorem resource_lists_duplicate_free (info : ObjectInfo) (calls : List ResourceCall)
    (doc : Resources) (key : String) (obj : ObjRef) :
    (∀ k, ((applyResourceCalls info emptyResources calls).resources k).Nodup) ∧
    ((obj ∈ doc.resources key →
        addResource info doc (some key) (some obj) = Outcome.returned (false, doc)) ∧
      (obj ∉ doc.resources key →
        removeResource info doc (some key) (some obj) = Outcome.returned (false, doc)) ∧
      (info.cloned obj = true →
        addResource info doc (some key) (some obj) = Outcome.returned (false, doc) ∧
        removeResource info doc (some key) (some obj) = Outcome.returned (false, doc))) ∧
    (∀ doc2 : Resources,
      addResource info doc (some key) (some obj) = Outcome.returned (true, doc2) →
        doc2.resources key = obj :: doc.resources key ∧
        (∀ k, k ≠ key → doc2.resources k = doc.resources k) ∧
        ∃ doc3 : Resources,
          removeResource info doc2 (some key) (some obj) = Outcome.returned (true, doc3) ∧
          ∀ k, doc3.resources k = doc.resources k) ∧
    (key ≠ "" → info.isObject obj = true → info.cloned obj = false →
      obj ∉ doc.resources key →
      ∃ doc2 : Resources,
        addResource info doc (some key) (some obj) = Outcome.returned (true, doc2)) := by
  refine ⟨?_, ⟨addResource_rejected info doc key obj, removeResource_rejected info doc key obj,
    resource_cloned_rejected info doc (some key) obj⟩, ?_, ?_⟩
  · exact applyResourceCalls_nodup info calls emptyResources (fun _ => List.nodup_nil)
  · intro doc2 hadd
    rcases addResource_cases info doc (some key) (some obj) with
      e | ⟨k, o, hk, ho, hne, hobj, hnc, hm, e⟩
    · rw [e] at hadd; cases hadd
    · cases hk; cases ho
      rw [e] at hadd
      simp only [Outcome.returned.injEq, Prod.mk.injEq, true_and] at hadd
      subst hadd
      refine ⟨by simp, fun k hkne => by simp [Function.update, hkne], ?_⟩
      rcases removeResource_cases info
          ⟨Function.update doc.resources key (obj :: doc.resources key),
            doc.emitted ++ [g_quark_from_string key]⟩ (some key) (some obj) with
        e2 | ⟨k, o, hk, ho, _, _, _, hm2, e2⟩
      · exfalso
        simp [removeResource, hne, hobj, hnc] at e2
      · cases hk; cases ho
        refine ⟨_, e2, ?_⟩
        intro k
        by_cases hk : k = key
        · subst hk; simp
        · simp [Function.update, hk]
  · intro hne hobj hnc hm
    rcases addResource_cases info doc (some key) (some obj) with
      e | ⟨k, o, hk, ho, _, _, _, _, e⟩
    · exfalso
      simp [addResource, hne, hobj, hnc, hm] at e
    · exact ⟨_, e⟩

/-- Witness of `resource_lists_duplicate_free` (C30): object 7 is already registered under
`gradient` and is rejected; object 8 is added at the head of that list. -/
theorem resource_lists_duplicate_free_witness :
    7 ∈ gradientResources.resources "gradient" ∧
      addResource plainObjects gradientResources (some "gradient") (some 7)
        = Outcome.returned (false, gradientResources) ∧
      ∃ doc2 : Resources,
        addResource plainObjects gradientResources (some "gradient") (some 8)
          = Outcome.returned (true, doc2) :=
  ⟨by simp [gradientResources],
    (resource_lists_duplicate_free plainObjects [] gradientResources "gradient" 7).2.1.1
      (by simp [gradientResources]),
    (resource_lists_duplicate_free plainObjects [] gradientResources "gradient" 8).2.2.2
      (by decide) rfl rfl (by simp [gradientResources])⟩

/-! ## Optimized against plain feeding -/

theorem feed_curve_opt_plain (trans : Affine) (view : Rect) (c : Curve)
    (h : c.isSimple = true) :
    ∃ o n : Cmd, feed_curve_to_cairo trans view true c = [o] ∧
      feed_curve_to_cairo trans view false c = [n] ∧ o.endPoint = n.endPoint ∧
      ((controlBox trans c).intersects view = true → o = n) := by
  cases c with
  | line p0 p1 =>
    by_cases hi : (Rect.ofPoints (p0.transform trans) (p1.transform trans)).intersects view
        = true
    · refine ⟨Cmd.lineTo (p1.transform trans), Cmd.lineTo (p1.transform trans), ?_, ?_, rfl,
        fun _ => rfl⟩
      · simp only [feed_curve_to_cairo, Bool.not_true, Bool.false_eq_true, if_false, hi, if_true]
      · simp only [feed_curve_to_cairo, Bool.not_false, if_true]
    · refine ⟨Cmd.moveTo (p1.transform trans), Cmd.lineTo (p1.transform trans), ?_, ?_, rfl,
        fun h2 => absurd h2 hi⟩
      · simp only [feed_curve_to_cairo, Bool.not_true, Bool.false_eq_true, if_false, hi]
      · simp only [feed_curve_to_cairo, Bool.not_false, if_true]
  | quadratic q0 q1 q2 =>
    by_cases hi : (boundingBox3 (q0.transform trans) (q1.transform trans)
        (q2.transform trans)).intersects view = true
    · refine ⟨Cmd.curveTo (elevated1 (q0.transform trans) (q1.transform trans))
          (elevated2 (q1.transform trans) (q2.transform trans)) (q2.transform trans),
        Cmd.curveTo (elevated1 (q0.transform trans) (q1.transform trans))
          (elevated2 (q1.transform trans) (q2.transform trans)) (q2.transform trans),
        ?_, ?_, rfl, fun _ => rfl⟩
      · simp only [feed_curve_to_cairo, Bool.not_true, Bool.false_eq_true, if_false,
          rect_expandTo_ofPoints3, hi, if_true, quadratic_b2_eq]
        rfl
      · simp only [feed_curve_to_cairo, Bool.not_false, if_true, quadratic_b2_eq]
        rfl
    · refine ⟨Cmd.moveTo (q2.transform trans),
        Cmd.curveTo (elevated1 (q0.transform trans) (q1.transform trans))
          (elevated2 (q1.transform trans) (q2.transform trans)) (q2.transform trans),
        ?_, ?_, rfl, fun h2 => absurd h2 hi⟩
      · simp only [feed_curve_to_cairo, Bool.not_true, Bool.false_eq_true, if_false,
          rect_expandTo_ofPoints3, hi]
      · simp only [feed_curve_to_cairo, Bool.not_false, if_true, quadratic_b2_eq]
        rfl
  | cubic c0 c1 c2 c3 =>
    by_cases hi : (boundingBox4 (c0.transform trans) (c1.transform trans) (c2.transform trans)
        (c3.transform trans)).intersects view = true
    · refine ⟨Cmd.curveTo (c1.transform trans) (c2.transform trans) (c3.transform trans),
        Cmd.curveTo (c1.transform trans) (c2.transform trans) (c3.transform trans),
        ?_, ?_, rfl, fun _ => rfl⟩
      · simp only [feed_curve_to_cairo, Bool.not_true, Bool.false_eq_true, if_false,
          rect_expandTo_ofPoints, hi, if_true]
      · simp only [feed_curve_to_cairo, Bool.not_false, if_true]
    · refine ⟨Cmd.moveTo (c3.transform trans),
        Cmd.curveTo (c1.transform trans) (c2.transform trans) (c3.transform trans),
        ?_, ?_, rfl, fun h2 => absurd h2 hi⟩
      · simp only [feed_curve_to_cairo, Bool.not_true, Bool.false_eq_true, if_false,
          rect_expandTo_ofPoints, hi]
      · simp only [feed_curve_to_cairo, Bool.not_false, if_true]
  | other approx => simp [Curve.isSimple] at h

theorem feed_curves_opt_plain (trans : Affine) (view : Rect) (cs : List Curve)
    (h : ∀ c ∈ cs, Curve.isSimple c = true) :
    (feed_curves_to_cairo trans view true cs).length = cs.length ∧
    (feed_curves_to_cairo trans view false cs).length = cs.length ∧
    (∀ (i : Nat) (c : Curve), cs[i]? = some c →
      ∃ o n : Cmd, (feed_curves_to_cairo trans view true cs)[i]? = some o ∧
        (feed_curves_to_cairo trans view false cs)[i]? = some n ∧
        o.endPoint = n.endPoint ∧
        ((controlBox trans c).intersects view = true → o = n)) ∧
    ((∀ c ∈ cs, (controlBox trans c).intersects view = true) →
      feed_curves_to_cairo trans view true cs = feed_curves_to_cairo trans view false cs) := by
  induction cs with
  | nil =>
    refine ⟨rfl, rfl, ?_, fun _ => rfl⟩
    intro i c hc; simp at hc
  | cons c cs ih =>
    obtain ⟨o, n, ho, hn, hend, hsame⟩ :=
      feed_curve_opt_plain trans view c (h c (List.mem_cons_self _ _))
    obtain ⟨l1, l2, hidx, hall⟩ := ih (fun d hd => h d (List.mem_cons_of_mem _ hd))
    simp only [feed_curves_to_cairo, ho, hn, List.singleton_append, List.length_cons]
    refine ⟨by rw [l1], by rw [l2], ?_, ?_⟩
    · intro i d hd
      cases i with
      | zero =>
        simp only [List.getElem?_cons_zero, Option.some.injEq] at hd
        subst hd
        exact ⟨o, n, by simp, by simp, hend, hsame⟩
      | succ i =>
        simp only [List.getElem?_cons_succ] at hd ⊢
        exact hidx i d hd
    · intro hint
      rw [hsame (hint c (List.mem_cons_self _ _)),
        hall (fun d hd => hint d (List.mem_cons_of_mem _ hd))]

/-- C28: for every path made only of straight, quadratic and cubic segments, the optimized
and the non-optimized command sequences of `feed_path_to_cairo` have the same length and
start with the same command; at the position of each segment the two commands end at the same
point, and are equal whenever the bounding box of the segment's transformed control points
intersects the view rectangle; so for an open path whose segments all intersect the view the
two sequences are equal. -/
theorem optimized_matches_plain (path : Path) (trans : Affine) (area : Rect) (sw : ℚ)
    (hs : ∀ c ∈ path.curves, Curve.isSimple c = true) :
    (optimizedCommands path trans area sw).length = (plainCommands path trans area sw).length ∧
    (optimizedCommands path trans area sw)[0]? = (plainCommands path trans area sw)[0]? ∧
    (∀ (i : Nat) (c : Curve), path.curves[i]? = some c →
      ∃ o n : Cmd, (optimizedCommands path trans area sw)[i + 1]? = some o ∧
        (plainCommands path trans area sw)[i + 1]? = some n ∧
        o.endPoint = n.endPoint ∧
        ((controlBox (pathTransform trans area) c).intersects (pathView area sw) = true →
          o = n)) ∧
    (path.closed = false →
      (∀ c ∈ path.curves,
        (controlBox (pathTransform trans area) c).intersects (pathView area sw) = true) →
      optimizedCommands path trans area sw = plainCommands path trans area sw) := by
  by_cases hne : path.empty = false
  · obtain ⟨l1, l2, hidx, hall⟩ :=
      feed_curves_opt_plain (pathTransform trans area) (pathView area sw) path.curves hs
    simp only [optimizedCommands, plainCommands,
      feed_path_to_cairo_trans_unfold path trans area _ sw hne]
    refine ⟨?_, ?_, ?_, ?_⟩
    · simp only [List.length_cons, List.length_append, l1, l2]
      cases path.closed <;> simp
    · simp
    · intro i c hc
      obtain ⟨o, n, ho, hn, hend, hsame⟩ := hidx i c hc
      have hi : i < path.curves.length := (List.getElem?_eq_some.1 hc).1
      refine ⟨o, n, ?_, ?_, hend, hsame⟩
      · rw [List.getElem?_cons_succ, List.getElem?_append_left (by rw [l1]; exact hi)]
        exact ho
      · rw [List.getElem?_cons_succ, List.getElem?_append_left (by rw [l2]; exact hi)]
        exact hn
    · intro hopen hint
      rw [hall hint, hopen]
      simp
  · have hemp : path.empty = true := by simpa using hne
    have hnil : path.curves = [] := by simpa [Path.empty] using hemp
    have e1 : optimizedCommands path trans area sw = [] := by
      simp only [optimizedCommands, feed_path_to_cairo_trans, hemp, if_true]
    have e2 : plainCommands path trans area sw = [] := by
      simp only [plainCommands, feed_path_to_cairo_trans, hemp, if_true]
    rw [e1, e2]
    refine ⟨rfl, rfl, ?_, fun _ _ => rfl⟩
    intro i c hc
    rw [hnil] at hc
    simp at hc

/-- Witness of `optimized_matches_plain` (C28): an open path of one straight segment from
(1,1) to (2,1) inside the area from (1,1) to (3,3) gives the same commands with and without
optimization. -/
theorem optimized_matches_plain_witness :
    (∀ c ∈ (Path.mk ⟨1, 1⟩ [Curve.line ⟨1, 1⟩ ⟨2, 1⟩] false).curves,
        Curve.isSimple c = true) ∧
      optimizedCommands ⟨⟨1, 1⟩, [Curve.line ⟨1, 1⟩ ⟨2, 1⟩], false⟩ Affine.identity
          ⟨⟨1, 3⟩, ⟨1, 3⟩⟩ 0
        = plainCommands ⟨⟨1, 1⟩, [Curve.line ⟨1, 1⟩ ⟨2, 1⟩], false⟩ Affine.identity
          ⟨⟨1, 3⟩, ⟨1, 3⟩⟩ 0 :=
  have hall : ∀ c ∈ (Path.mk ⟨1, 1⟩ [Curve.line ⟨1, 1⟩ ⟨2, 1⟩] false).curves,
      Curve.isSimple c = true := by
    intro c hc; simp at hc; subst hc; rfl
  ⟨hall,
    (optimized_matches_plain ⟨⟨1, 1⟩, [Curve.line ⟨1, 1⟩ ⟨2, 1⟩], false⟩ Affine.identity
      ⟨⟨1, 3⟩, ⟨1, 3⟩⟩ 0 hall).2.2.2 rfl (by
        intro c hc
        simp at hc
        subst hc
        norm_num [controlBox, pathTransform, pathView, Affine.identity, Affine.mul,
          Affine.translate, Point.transform, Point.neg, Rect.minPoint, Rect.expandBy,
          Rect.transform, Rect.ofPoints, Rect.expandTo, Rect.intersects, Interval.expandBy,
          Interval.ofEnds, Interval.expandTo, Interval.intersects, Interval.contains])⟩

/-! ## Orphan collection lemmas -/

theorem queueForOrphanCollection_counts {W : Type} (ext : OrphanExternal W) (doc : OrphanDoc W)
    (x : Option ObjRef) (o : ObjRef) :
    (queueForOrphanCollection ext doc x).reffed.count o + doc.collection_queue.count o
        = doc.reffed.count o + (queueForOrphanCollection ext doc x).collection_queue.count o ∧
      (queueForOrphanCollection ext doc x).unreffed = doc.unreffed ∧
      (queueForOrphanCollection ext doc x).collected = doc.collected := by
  cases x with
  | none => exact ⟨by simp [queueForOrphanCollection], rfl, rfl⟩
  | some obj =>
    simp only [queueForOrphanCollection]
    split
    · exact ⟨by omega, rfl, rfl⟩
    · refine ⟨?_, rfl, rfl⟩
      simp only [List.count_append, List.count_cons, List.count_nil]
      omega

theorem queueAll_counts {W : Type} (ext : OrphanExternal W) (xs : List (Option ObjRef))
    (o : ObjRef) :
    ∀ doc : OrphanDoc W,
      (queueAll ext doc xs).reffed.count o + doc.collection_queue.count o
          = doc.reffed.count o + (queueAll ext doc xs).collection_queue.count o ∧
        (queueAll ext doc xs).unreffed = doc.unreffed ∧
        (queueAll ext doc xs).collected = doc.collected := by
  induction xs with
  | nil => intro doc; exact ⟨by simp [queueAll], rfl, rfl⟩
  | cons x xs ih =>
    intro doc
    obtain ⟨a1, a2, a3⟩ := queueForOrphanCollection_counts ext doc x o
    obtain ⟨b1, b2, b3⟩ := ih (queueForOrphanCollection ext doc x)
    simp only [queueAll]
    exact ⟨by omega, by rw [b2, a2], by rw [b3, a3]⟩

theorem collectOne_counts {W : Type} (ext : OrphanExternal W) (doc : OrphanDoc W)
    (obj o : ObjRef) :
    (collectOne ext doc obj).reffed.count o + doc.collection_queue.count o
        = doc.reffed.count o + (collectOne ext doc obj).collection_queue.count o ∧
      (collectOne ext doc obj).unreffed.count o = doc.unreffed.count o + [obj].count o ∧
      (collectOne ext doc obj).collected.count o = doc.collected.count o + [obj].count o := by
  obtain ⟨b1, b2, b3⟩ := queueAll_counts ext (ext.collectOrphan obj doc.world).2 o
    { doc with world := (ext.collectOrphan obj doc.world).1,
               collected := doc.collected ++ [obj] }
  simp only [collectOne]
  refine ⟨b1, ?_, ?_⟩
  · rw [List.count_append, b2]
  · rw [b3, List.count_append]

theorem collectList_counts {W : Type} (ext : OrphanExternal W) (objs : List ObjRef)
    (o : ObjRef) :
    ∀ doc : OrphanDoc W,
      (collectList ext doc objs).reffed.count o + doc.collection_queue.count o
          = doc.reffed.count o + (collectList ext doc objs).collection_queue.count o ∧
        (collectList ext doc objs).unreffed.count o = doc.unreffed.count o + objs.count o ∧
        (collectList ext doc objs).collected.count o
          = doc.collected.count o + objs.count o := by
  induction objs with
  | nil => intro doc; exact ⟨by simp [collectList], by simp [collectList],
      by simp [collectList]⟩
  | cons x xs ih =>
    intro doc
    obtain ⟨a1, a2, a3⟩ := collectOne_counts ext doc x o
    obtain ⟨b1, b2, b3⟩ := ih (collectOne ext doc x)
    have hc : (x :: xs).count o = [x].count o + xs.count o := by
      rw [← List.count_append]; rfl
    simp only [collectList]
    exact ⟨by omega, by omega, by omega⟩

/-- Accounting of a run of `collectOrphans` that returns: the queue is empty, and for every
object the unreferences made are the references taken plus the entries the queue had, and
as many as the `collectOrphan` calls. -/
theorem collectOrphans_counts {W : Type} (ext : OrphanExternal W) (o : ObjRef) (fuel : Nat) :
    ∀ doc doc2 : OrphanDoc W, collectOrphans ext fuel doc = some doc2 →
      doc2.collection_queue = [] ∧
      doc2.reffed.count o + doc.collection_queue.count o + doc.unreffed.count o
        = doc.reffed.count o + doc2.unreffed.count o ∧
      doc2.collected.count o + doc.unreffed.count o
        = doc.collected.count o + doc2.unreffed.count o := by
  induction fuel with
  | zero =>
    intro doc doc2 h
    simp only [collectOrphans] at h
    split at h
    · rename_i hq
      cases h
      exact ⟨hq, by rw [hq]; simp, by omega⟩
    · cases h
  | succ fuel ih =>
    intro doc doc2 h
    simp only [collectOrphans] at h
    split at h
    · rename_i hq
      cases h
      exact ⟨hq, by rw [hq]; simp, by omega⟩
    · rename_i x xs hq
      obtain ⟨c1, c2, c3⟩ := ih _ doc2 h
      obtain ⟨b1, b2, b3⟩ := collectList_counts ext (x :: xs) o
        { doc with collection_queue := [] }
      dsimp only at b1 b2 b3 c2 c3
      simp only [List.count_nil] at b1
      rw [hq]
      exact ⟨c1, by omega, by omega⟩

theorem collectOrphans_unreffed_le {W : Type} (ext : OrphanExternal W) (o : ObjRef)
    (fuel : Nat) :
    ∀ doc doc2 : OrphanDoc W, collectOrphans ext fuel doc = some doc2 →
      doc.unreffed.count o + doc.collection_queue.count o ≤ doc2.unreffed.count o := by
  induction fuel with
  | zero =>
    intro doc doc2 h
    simp only [collectOrphans] at h
    split at h
    · rename_i hq
      cases h
      rw [hq]; simp
    · cases h
  | succ fuel ih =>
    intro doc doc2 h
    simp only [collectOrphans] at h
    split at h
    · rename_i hq
      cases h
      rw [hq]; simp
    · rename_i x xs hq
      have c := ih _ doc2 h
      obtain ⟨_, b2, _⟩ := collectList_counts ext (x :: xs) o
        { doc with collection_queue := [] }
      dsimp only at b2
      rw [hq]
      omega

theorem collectOrphans_of_empty {W : Type} (ext : OrphanExternal W) (fuel : Nat)
    (doc : OrphanDoc W) (hq : doc.collection_queue = []) :
    collectOrphans ext fuel doc = some doc := by
  cases fuel with
  | zero => simp [collectOrphans, hq]
  | succ fuel => simp [collectOrphans, hq]

theorem queueForOrphanCollection_reffed_other {W : Type} (ext : OrphanExternal W)
    (doc : OrphanDoc W) (x : Option ObjRef) (o : ObjRef) (h : x ≠ some o) :
    (queueForOrphanCollection ext doc x).reffed.count o = doc.reffed.count o := by
  cases x with
  | none => rfl
  | some obj =>
    have hne : obj ≠ o := fun e => h (by rw [e])
    simp only [queueForOrphanCollection]
    split
    · rfl
    · simp [List.count_append, List.count_cons, hne]

theorem queueAll_reffed_other {W : Type} (ext : OrphanExternal W) (xs : List (Option ObjRef))
    (o : ObjRef) (h : some o ∉ xs) :
    ∀ doc : OrphanDoc W, (queueAll ext doc xs).reffed.count o = doc.reffed.count o := by
  induction xs with
  | nil => intro doc; rfl
  | cons x xs ih =>
    intro doc
    simp only [queueAll]
    rw [ih (fun hm => h (List.mem_cons_of_mem _ hm)),
      queueForOrphanCollection_reffed_other ext doc x o
        (fun e => h (by rw [e]; exact List.mem_cons_self _ _))]

theorem collectList_reffed_other {W : Type} (ext : OrphanExternal W) (o : ObjRef)
    (h : ∀ (x : ObjRef) (w : W), some o ∉ (ext.collectOrphan x w).2) (objs : List ObjRef) :
    ∀ doc : OrphanDoc W, (collectList ext doc objs).reffed.count o = doc.reffed.count o := by
  induction objs with
  | nil => intro doc; rfl
  | cons x xs ih =>
    intro doc
    simp only [collectList]
    rw [ih]
    simp only [collectOne]
    exact queueAll_reffed_other ext _ o (h x doc.world) _

/-- An object that `collectOrphan` never queues has no reference taken on it during
`collectOrphans`. -/
theorem collectOrphans_reffed_other {W : Type} (ext : OrphanExternal W) (o : ObjRef)
    (h : ∀ (x : ObjRef) (w : W), some o ∉ (ext.collectOrphan x w).2) (fuel : Nat) :
    ∀ doc doc2 : OrphanDoc W, collectOrphans ext fuel doc = some doc2 →
      doc2.reffed.count o = doc.reffed.count o := by
  induction fuel with
  | zero =>
    intro doc doc2 hrun
    simp only [collectOrphans] at hrun
    split at hrun
    · cases hrun; rfl
    · cases hrun
  | succ fuel ih =>
    intro doc doc2 hrun
    simp only [collectOrphans] at hrun
    split at hrun
    · cases hrun; rfl
    · rw [ih _ doc2 hrun, collectList_reffed_other ext o h]

theorem collectList_quiet {W : Type} (ext : OrphanExternal W)
    (h : ∀ (x : ObjRef) (w : W), (ext.collectOrphan x w).2 = []) (objs : List ObjRef) :
    ∀ doc : OrphanDoc W,
      (collectList ext doc objs).collection_queue = doc.collection_queue ∧
      (collectList ext doc objs).reffed = doc.reffed ∧
      (collectList ext doc objs).unreffed = doc.unreffed ++ objs ∧
      (collectList ext doc objs).collected = doc.collected ++ objs := by
  induction objs with
  | nil => intro doc; simp [collectList]
  | cons x xs ih =>
    intro doc
    obtain ⟨a1, a2, a3, a4⟩ := ih (collectOne ext doc x)
    simp only [collectList]
    rw [a1, a2, a3, a4]
    simp [collectOne, h, queueAll]

/-! ## Claim on orphan collection -/

/-- C21 (counterexample): object 5 is already in the queue; it is queued with
`queueForOrphanCollection` and `collectOrphans` is called once, with a `collectOrphan` that
queues nothing: `collectOrphan` is called twice on object 5 and it is unreferenced twice. -/
theorem collectOrphan_called_twice :
    (queueForOrphanCollection quietOrphans emptyOrphanDoc (some 5)).collection_queue = [5] ∧
      collectOrphans quietOrphans 1
          (queueForOrphanCollection quietOrphans
            (queueForOrphanCollection quietOrphans emptyOrphanDoc (some 5)) (some 5))
        = some ⟨[], [5, 5], [5, 5], [5, 5], ()⟩ ∧
      (OrphanDoc.mk [] [5, 5] [5, 5] [5, 5] ()).collected.count 5 = 2 ∧
      (OrphanDoc.mk [] [5, 5] [5, 5] [5, 5] ()).unreffed.count 5 = 2 := by
  refine ⟨rfl, rfl, ?_, ?_⟩ <;> decide

/-- C21 (amended): queuing an object of this document takes one reference and adds one
entry to the queue, also when the queue holds the object already; when `collectOrphan` does
not queue that object again, every call of `collectOrphans` that returns has called
`collectOrphan` on it and unreferenced it once for each of its entries, that is once more
than the queue held it before (exactly once when the queue did not hold it); an object that
is neither in the queue nor queued during the collection is neither collected nor
unreferenced; the queue is empty on return, also after objects were queued during the
collection; and `collectOrphans` returns after one round when `collectOrphan` queues
nothing. -/
theorem queue_then_collect {W : Type} (ext : OrphanExternal W) (doc : OrphanDoc W)
    (obj : ObjRef) (hown : ext.ownedByDocument obj = true) :
    ((∀ (x : ObjRef) (w : W), some obj ∉ (ext.collectOrphan x w).2) →
      ∀ (fuel : Nat) (doc2 : OrphanDoc W),
        collectOrphans ext fuel (queueForOrphanCollection ext doc (some obj)) = some doc2 →
          doc2.collection_queue = [] ∧
          doc2.reffed.count obj = doc.reffed.count obj + 1 ∧
          doc2.collected.count obj
            = doc.collected.count obj + (doc.collection_queue.count obj + 1) ∧
          doc2.unreffed.count obj
            = doc.unreffed.count obj + (doc.collection_queue.count obj + 1) ∧
          (obj ∉ doc.collection_queue →
            doc2.collected.count obj = doc.collected.count obj + 1 ∧
            doc2.unreffed.count obj = doc.unreffed.count obj + 1)) ∧
    (∀ (fuel : Nat) (doc2 : OrphanDoc W),
      collectOrphans ext fuel (queueForOrphanCollection ext doc (some obj)) = some doc2 →
        doc2.collection_queue = [] ∧
        ∀ o : ObjRef, o ≠ obj → o ∉ doc.collection_queue →
          (∀ (x : ObjRef) (w : W), some o ∉ (ext.collectOrphan x w).2) →
          doc2.reffed.count o = doc.reffed.count o ∧
          doc2.collected.count o = doc.collected.count o ∧
          doc2.unreffed.count o = doc.unreffed.count o) ∧
    ((∀ (x : ObjRef) (w : W), (ext.collectOrphan x w).2 = []) →
      ∀ fuel : Nat, ∃ doc2 : OrphanDoc W,
        collectOrphans ext (fuel + 1) (queueForOrphanCollection ext doc (some obj))
          = some doc2 ∧
        doc2.collection_queue = [] ∧
        doc2.reffed = doc.reffed ++ [obj] ∧
        doc2.collected = doc.collected ++ obj :: doc.collection_queue ∧
        doc2.unreffed = doc.unreffed ++ obj :: doc.collection_queue) := by
  have hqueued : queueForOrphanCollection ext doc (some obj)
      = ⟨obj :: doc.collection_queue, doc.reffed ++ [obj], doc.unreffed, doc.collected,
          doc.world⟩ := by
    simp [queueForOrphanCollection, hown]
  rw [hqueued]
  refine ⟨?_, ?_, ?_⟩
  · intro hnever fuel doc2 h
    obtain ⟨c1, c2, c3⟩ := collectOrphans_counts ext obj fuel _ doc2 h
    have hsame := collectOrphans_reffed_other ext obj hnever fuel _ doc2 h
    dsimp only at c2 c3 hsame
    simp only [List.count_append, List.count_cons_self, List.count_nil] at c2 hsame
    refine ⟨c1, by omega, by omega, by omega, ?_⟩
    intro hnot
    have h0 : doc.collection_queue.count obj = 0 := List.count_eq_zero.2 hnot
    exact ⟨by omega, by omega⟩
  · intro fuel doc2 h
    refine ⟨(collectOrphans_counts ext obj fuel _ doc2 h).1, ?_⟩
    intro o hne hnot hnever
    obtain ⟨_, c2, c3⟩ := collectOrphans_counts ext o fuel _ doc2 h
    have hsame := collectOrphans_reffed_other ext o hnever fuel _ doc2 h
    have h0 : doc.collection_queue.count o = 0 := List.count_eq_zero.2 hnot
    have hne2 : obj ≠ o := fun e => hne e.symm
    dsimp only at c2 c3 hsame
    simp only [List.count_append, List.count_cons, List.count_nil, beq_iff_eq, hne2,
      if_false] at c2 hsame
    exact ⟨by omega, by omega, by omega⟩
  · intro hquiet fuel
    obtain ⟨a1, a2, a3, a4⟩ := collectList_quiet ext hquiet (obj :: doc.collection_queue)
      ⟨[], doc.reffed ++ [obj], doc.unreffed, doc.collected, doc.world⟩
    refine ⟨_, ?_, a1, a2, a4, a3⟩
    simp only [collectOrphans]
    exact collectOrphans_of_empty ext fuel _ a1

/-- Witness of `queue_then_collect` (C21): object 1 is queued on an empty queue and collected
by a `collectOrphan` that queues object 2 meanwhile, which takes two rounds: object 1 is
collected and unreferenced once, object 7 not at all; and object 5 queued and collected by a
`collectOrphan` that queues nothing. -/
theorem queue_then_collect_witness :
    cascadingOrphans.ownedByDocument 1 = true ∧
      (∀ (x : ObjRef) (w : Unit), some 1 ∉ (cascadingOrphans.collectOrphan x w).2) ∧
      collectOrphans cascadingOrphans 2
          (queueForOrphanCollection cascadingOrphans emptyOrphanDoc (some 1))
        = some ⟨[], [1, 2], [1, 2], [1, 2], ()⟩ ∧
      (OrphanDoc.mk [] [1, 2] [1, 2] [1, 2] ()).collected.count 1
        = emptyOrphanDoc.collected.count 1 + 1 ∧
      (OrphanDoc.mk [] [1, 2] [1, 2] [1, 2] ()).unreffed.count 1
        = emptyOrphanDoc.unreffed.count 1 + 1 ∧
      (OrphanDoc.mk [] [1, 2] [1, 2] [1, 2] ()).collected.count 7
        = emptyOrphanDoc.collected.count 7 ∧
      (∃ doc2 : OrphanDoc Unit,
        collectOrphans quietOrphans 1
            (queueForOrphanCollection quietOrphans emptyOrphanDoc (some 5)) = some doc2 ∧
        doc2.collection_queue = [] ∧ doc2.collected = [] ++ 5 :: []) :=
  have hnever : ∀ (o : ObjRef), o ≠ 2 →
      ∀ (x : ObjRef) (w : Unit), some o ∉ (cascadingOrphans.collectOrphan x w).2 := by
    intro o ho x w
    simp only [cascadingOrphans]
    split
    · simp only [List.mem_singleton, Option.some.injEq]; exact ho
    · simp
  ⟨rfl, hnever 1 (by decide), rfl,
    ((queue_then_collect cascadingOrphans emptyOrphanDoc 1 rfl).1 (hnever 1 (by decide)) 2
      ⟨[], [1, 2], [1, 2], [1, 2], ()⟩ rfl).2.2.2.2 (by simp [emptyOrphanDoc]) |>.1,
    ((queue_then_collect cascadingOrphans emptyOrphanDoc 1 rfl).1 (hnever 1 (by decide)) 2
      ⟨[], [1, 2], [1, 2], [1, 2], ()⟩ rfl).2.2.2.2 (by simp [emptyOrphanDoc]) |>.2,
    (((queue_then_collect cascadingOrphans emptyOrphanDoc 1 rfl).2.1 2
      ⟨[], [1, 2], [1, 2], [1, 2], ()⟩ rfl).2 7 (by decide) (by simp [emptyOrphanDoc])
      (hnever 7 (by decide))).2.1,
    ((queue_then_collect quietOrphans emptyOrphanDoc 5 rfl).2.2 (fun _ _ => rfl) 0).imp
      (fun _ h => ⟨h.1, h.2.1, h.2.2.2.1⟩)⟩

end Inkscape
